import Mathlib

set_option autoImplicit false
set_option maxRecDepth 20000
set_option maxHeartbeats 2000000

/-!
# Verification model of the Notepad2 NSIS lexer

Shallow embedding of `src/scintilla/lexers/LexNSIS.cxx`: the scanner
`ColouriseNSISDoc` and the fold pass `FoldNSISDoc`.

Modelling conventions:
* A document is a `List Char`; out-of-range reads return `' '`, matching
  `LexAccessor::SafeGetCharAt`'s default fill character.
* Line discipline is LF-only: a line ends at `'\n'` or at the last byte of the
  document, matching `StyleContext`'s `atLineStart`/`atLineEnd` for LF files.
* Style constants are opaque distinct `Nat` tags (their numeric values in
  `SciLexer.h` are irrelevant to the lexer's behaviour).
* `StyleContext`'s segment buffer is modelled by `segStart` plus an accumulated
  style list: `ColourTo` appends one style per byte of the flushed segment.
* The per-line state store (`Accessor::GetLineState`/`SetLineState`) is an
  association list from line number to state word, defaulting to `0`.
* Machine `int` values that stay small non-negative (styles, line states,
  positions) are `Nat`; fold levels are `Int` because the code decrements them.
-/

namespace NSIS

/-! ## Style constants (opaque tags for the `SCE_NSIS_*` constants) -/

abbrev Style := Nat

def SCE_NSIS_DEFAULT : Style := 0
def SCE_NSIS_COMMENT : Style := 1
def SCE_NSIS_COMMENTLINE : Style := 2
def SCE_NSIS_NUMBER : Style := 3
def SCE_NSIS_STRINGDQ : Style := 4
def SCE_NSIS_STRINGSQ : Style := 5
def SCE_NSIS_STRINGBT : Style := 6
def SCE_NSIS_ESCAPECHAR : Style := 7
def SCE_NSIS_VARIABLE : Style := 8
def SCE_NSIS_VARIABLE_BRACE : Style := 9
def SCE_NSIS_VARIABLE_PAREN : Style := 10
def SCE_NSIS_IDENTIFIER : Style := 11
def SCE_NSIS_WORD : Style := 12
def SCE_NSIS_INSTRUCTION : Style := 13
def SCE_NSIS_LABEL : Style := 14
def SCE_NSIS_PREPROCESSOR : Style := 15
def SCE_NSIS_OPERATOR : Style := 16

/-! ## Line state bits (the anonymous enum at the top of LexNSIS.cxx) -/

def NsisLineTypeComment : Nat := 1
def NsisLineTypeInclude : Nat := 2
def NsisLineTypeDefine : Nat := 4
def NsisLineStateLineContinuation : Nat := 16
def NsisLineTypeMask : Nat := 7

/-! ## Character classifier -/

/-- From the source (`IsEscapeChar` in LexNSIS.cxx): the escape targets after `$\`. -/
def IsEscapeChar (c : Char) : Bool :=
  c = '\'' || c = '"' || c = '`' || c = 'n' || c = 'r' || c = 't'

/-- Modelled from the spec: character-classifier predicate `is_identifier_start`
(the lexlib `IsIdentifierStart` is not part of the provided sources). -/
def IsIdentifierStart (c : Char) : Bool :=
  c.isAlpha || c = '_'

/-- Modelled from the spec: character-classifier predicate `is_identifier_char`
(the lexlib `IsIdentifierChar` is not part of the provided sources). -/
def IsIdentifierChar (c : Char) : Bool :=
  c.isAlphanum || c = '_'

/-- Modelled from the spec: `is_number_start(ch, next)` — a digit starts a number
(the lexlib `IsNumberStart` is not part of the provided sources). -/
def IsNumberStart (c _next : Char) : Bool :=
  c.isDigit

/-- Modelled from the spec: `is_decimal_continuation(prev, ch, next)` accepts digits;
the optional trailing `%` is handled by the scanner itself
(the lexlib `IsDecimalNumber` is not part of the provided sources). -/
def IsDecimalNumber (_prev c _next : Char) : Bool :=
  c.isDigit

/-- Modelled from the spec: operator-character predicate `is_operator`
(the lexlib `isoperator` is not part of the provided sources). -/
def isoperator (c : Char) : Bool :=
  c = '%' || c = '^' || c = '&' || c = '*' || c = '(' || c = ')' || c = '-' ||
  c = '+' || c = '=' || c = '|' || c = '{' || c = '}' || c = '[' || c = ']' ||
  c = ':' || c = ';' || c = '<' || c = '>' || c = ',' || c = '/' || c = '?' ||
  c = '!' || c = '.' || c = '~'

/-- Modelled from the spec: `is_space` — space and the ASCII control whitespace
(the lexlib `isspacechar` is not part of the provided sources). -/
def isspacechar (c : Char) : Bool :=
  c = ' ' || (9 ≤ c.toNat && c.toNat ≤ 13)

/-- ASCII lower-casing, as `MakeLowerCase` in the lexlib. -/
def MakeLowerCase (c : Char) : Char :=
  if 'A' ≤ c ∧ c ≤ 'Z' then Char.ofNat (c.toNat + 32) else c

/-! ## Document access and line geometry -/

/-- Byte at a position; `' '` beyond the document (`SafeGetCharAt` default). -/
def charAt (doc : List Char) (p : Nat) : Char := doc.getD p ' '

/-- Number of the line containing position `p` (count of `'\n'` before `p`). -/
def lineOf (doc : List Char) (p : Nat) : Nat :=
  ((doc.take p).filter (fun c => c = '\n')).length

/-- `StyleContext.atLineStart` for LF documents: `p` is the first position of a line. -/
def atLineStart (doc : List Char) (p : Nat) : Bool :=
  p = 0 || charAt doc (p - 1) = '\n'

/-- `StyleContext.atLineEnd` for LF documents: `p` is the last position of its line. -/
def atLineEnd (doc : List Char) (p : Nat) : Bool :=
  charAt doc p = '\n' || p + 1 = doc.length

/-- Start position of line `l` (`LexAccessor::LineStart`); the document length for
lines past the end. -/
def lineStartIdx : List Char → Nat → Nat
  | _, 0 => 0
  | [], _ + 1 => 0
  | c :: rest, l + 1 => 1 + lineStartIdx rest (if c = '\n' then l else l + 1)

/-- Start position of the line containing `p`. -/
def lineStartOf (doc : List Char) (p : Nat) : Nat :=
  p - ((doc.take p).reverse.takeWhile (fun c => c ≠ '\n')).length

/-- Modelled from the spec: `StyleContext::LineEndsWith` (not part of the provided
sources) — whether the line containing `p` ends, ignoring trailing whitespace and
the line terminator itself, with the character `c0`. -/
def LineEndsWith (doc : List Char) (p : Nat) (c0 : Char) : Bool :=
  (((doc.take (p + 1)).drop (lineStartOf doc p)).reverse.dropWhile isspacechar).head? =
    some c0

/-! ## The per-line state store -/

/-- The host's per-line state store: newest binding first, `0` when unset
(`Accessor::GetLineState` returns 0 for untouched lines). -/
abbrev LineStore := List (Nat × Nat)

def getLineState (store : LineStore) (l : Nat) : Nat :=
  match store.find? (fun e => e.1 = l) with
  | some e => e.2
  | none => 0

def setLineState (store : LineStore) (l v : Nat) : LineStore :=
  (l, v) :: store

/-! ## Scanner state (`StyleContext` plus the locals of `ColouriseNSISDoc`) -/

structure ScanState where
  pos : Nat
  state : Style
  segStart : Nat
  styles : List Style
  visibleChars : Nat
  lineContinuation : Bool
  lineStateLineType : Nat
  variableOuter : Style
  lineStates : LineStore
  deriving Repr, DecidableEq

/-- `StyleContext::SetState`: flush the pending segment `[segStart, pos)` with the
current state, then switch to `newState`. -/
def setState (σ : ScanState) (newState : Style) : ScanState :=
  { σ with
    styles := σ.styles ++ List.replicate (σ.pos - σ.segStart) σ.state
    segStart := σ.pos
    state := newState }

/-- `StyleContext::Forward`: advance one byte, saturating at the end of the range. -/
def forward (endPos : Nat) (σ : ScanState) : ScanState :=
  { σ with pos := min (σ.pos + 1) endPos }

/-- `StyleContext::ForwardSetState`. -/
def forwardSetState (endPos : Nat) (σ : ScanState) (newState : Style) : ScanState :=
  setState (forward endPos σ) newState

/-- `StyleContext::ChangeState`: retroactively change the pending segment's style. -/
def changeState (σ : ScanState) (newState : Style) : ScanState :=
  { σ with state := newState }

/-- The three string styles, grouped as in the `case` labels of the scanner. -/
def isStringStyle (st : Style) : Bool :=
  st = SCE_NSIS_STRINGSQ || st = SCE_NSIS_STRINGDQ || st = SCE_NSIS_STRINGBT

/-- Result of one pass through the scanner's `switch`: `cont` corresponds to the
C `continue` (iteration over), `fall` falls through to the default-state dispatch
and the line bookkeeping, `again` is the `continue` after closing a bare variable,
which re-runs the `switch` on the same byte in the restored outer state. -/
inductive SwitchRes where
  | cont (σ : ScanState)
  | fall (σ : ScanState)
  | again (σ : ScanState)
  deriving Repr

/-- The lowercased capture of the pending segment: `GetCurrentLowered` into the
128-byte `char s[128]` buffer, so truncated to 127 characters. -/
def capturedWord (doc : List Char) (σ : ScanState) : List Char :=
  ((doc.drop σ.segStart).take (min (σ.pos - σ.segStart) 127)).map MakeLowerCase

/-- The `SCE_NSIS_IDENTIFIER` exit path (lines 67–89 of LexNSIS.cxx): lowercase the
captured text, resolve the final classification, then return to `Default`. -/
def identClose (kw : List (List Char)) (doc : List Char) (σ : ScanState) : ScanState :=
  let s := capturedWord doc σ
  let σ1 :=
    if s.head? = some '!' then
      let σp := changeState σ SCE_NSIS_PREPROCESSOR
      if s = "!include".toList then
        { σp with lineStateLineType := NsisLineTypeInclude }
      else if s = "!define".toList then
        { σp with lineStateLineType := NsisLineTypeDefine }
      else σp
    else if σ.visibleChars = σ.pos - σ.segStart then
      if kw.contains s then changeState σ SCE_NSIS_WORD
      else if charAt doc σ.pos = ':' ∧ charAt doc (σ.pos + 1) ≠ ':' then
        changeState σ SCE_NSIS_LABEL
      else changeState σ SCE_NSIS_INSTRUCTION
    else σ
  setState σ1 SCE_NSIS_DEFAULT

/-- The string-state case (lines 91–118): `$`-escapes, variable interpolation,
force-close at start of a non-continued line, closing quote. -/
def handleStringState (doc : List Char) (endPos : Nat) (σ : ScanState) : SwitchRes :=
  let ch := charAt doc σ.pos
  let chNext := charAt doc (σ.pos + 1)
  if ch = '$' then
    if chNext = '$' ∨ (chNext = '\\' ∧ IsEscapeChar (charAt doc (σ.pos + 2))) then
      let st := σ.state
      let σ1 := setState σ SCE_NSIS_ESCAPECHAR
      let σ2 := if chNext = '\\' then forward endPos (forward endPos σ1)
                else forward endPos σ1
      .cont (forwardSetState endPos σ2 st)
    else if chNext = '{' ∨ chNext = '(' then
      .fall (setState { σ with variableOuter := σ.state }
        (if chNext = '{' then SCE_NSIS_VARIABLE_BRACE else SCE_NSIS_VARIABLE_PAREN))
    else if IsIdentifierChar chNext then
      .fall (setState { σ with variableOuter := σ.state } SCE_NSIS_VARIABLE)
    else .fall σ
  else if atLineStart doc σ.pos then
    if σ.lineContinuation then .fall σ else .fall (setState σ SCE_NSIS_DEFAULT)
  else if (σ.state = SCE_NSIS_STRINGSQ ∧ ch = '\'') ∨
          (σ.state = SCE_NSIS_STRINGDQ ∧ ch = '"') ∨
          (σ.state = SCE_NSIS_STRINGBT ∧ ch = '`') then
    .fall (forwardSetState endPos σ SCE_NSIS_DEFAULT)
  else .fall σ

/-- One pass through the scanner's `switch (sc.state)` (lines 53–150). -/
def switchOnce (kw : List (List Char)) (doc : List Char) (endPos : Nat)
    (σ : ScanState) : SwitchRes :=
  let ch := charAt doc σ.pos
  let chNext := charAt doc (σ.pos + 1)
  let chPrev := if σ.pos = 0 then ' ' else charAt doc (σ.pos - 1)
  if σ.state = SCE_NSIS_OPERATOR then
    .fall (setState σ SCE_NSIS_DEFAULT)
  else if σ.state = SCE_NSIS_NUMBER then
    if IsDecimalNumber chPrev ch chNext then .fall σ
    else .fall (setState (if ch = '%' then forward endPos σ else σ) SCE_NSIS_DEFAULT)
  else if σ.state = SCE_NSIS_IDENTIFIER then
    if IsIdentifierChar ch then .fall σ
    else .fall (identClose kw doc σ)
  else if isStringStyle σ.state then
    handleStringState doc endPos σ
  else if σ.state = SCE_NSIS_VARIABLE then
    if IsIdentifierChar ch then .fall σ
    else .again (setState σ σ.variableOuter)
  else if σ.state = SCE_NSIS_VARIABLE_BRACE ∨ σ.state = SCE_NSIS_VARIABLE_PAREN then
    if (σ.state = SCE_NSIS_VARIABLE_BRACE ∧ ch = '}') ∨
       (σ.state = SCE_NSIS_VARIABLE_PAREN ∧ ch = ')') then
      .cont (forwardSetState endPos σ σ.variableOuter)
    else .fall σ
  else if σ.state = SCE_NSIS_COMMENTLINE then
    if atLineStart doc σ.pos ∧ ¬ σ.lineContinuation then
      .fall (setState σ SCE_NSIS_DEFAULT)
    else .fall σ
  else if σ.state = SCE_NSIS_COMMENT then
    if ch = '*' ∧ chNext = '/' then
      .fall (forwardSetState endPos (forward endPos σ) SCE_NSIS_DEFAULT)
    else .fall σ
  else .fall σ

/-- The default-state dispatch (lines 152–180); `sc.ch` and `sc.chNext` are the
bytes at the current and next position. -/
def dispatchDefault (doc : List Char) (endPos : Nat) (σ : ScanState) : ScanState :=
  if σ.state = SCE_NSIS_DEFAULT then
    if charAt doc σ.pos = ';' ∨ charAt doc σ.pos = '#' then
      if σ.visibleChars = 0 then
        { setState σ SCE_NSIS_COMMENTLINE with lineStateLineType := NsisLineTypeComment }
      else setState σ SCE_NSIS_COMMENTLINE
    else if charAt doc σ.pos = '/' ∧ charAt doc (σ.pos + 1) = '*' then
      forward endPos (setState σ SCE_NSIS_COMMENT)
    else if charAt doc σ.pos = '\'' then setState σ SCE_NSIS_STRINGSQ
    else if charAt doc σ.pos = '"' then setState σ SCE_NSIS_STRINGDQ
    else if charAt doc σ.pos = '`' then setState σ SCE_NSIS_STRINGBT
    else if IsNumberStart (charAt doc σ.pos) (charAt doc (σ.pos + 1)) then
      setState σ SCE_NSIS_NUMBER
    else if charAt doc σ.pos = '$' ∧ IsIdentifierChar (charAt doc (σ.pos + 1)) then
      setState { σ with variableOuter := SCE_NSIS_DEFAULT } SCE_NSIS_VARIABLE
    else if charAt doc σ.pos = '$' ∧
        (charAt doc (σ.pos + 1) = '{' ∨ charAt doc (σ.pos + 1) = '(') then
      setState { σ with variableOuter := SCE_NSIS_DEFAULT }
        (if charAt doc (σ.pos + 1) = '{' then SCE_NSIS_VARIABLE_BRACE
         else SCE_NSIS_VARIABLE_PAREN)
    else if (σ.visibleChars = 0 ∧ charAt doc σ.pos = '!') ∨
        IsIdentifierStart (charAt doc σ.pos) then
      setState σ SCE_NSIS_IDENTIFIER
    else if isoperator (charAt doc σ.pos) then setState σ SCE_NSIS_OPERATOR
    else σ
  else σ

/-- The per-byte bookkeeping (lines 182–193): visible-character counting, and at a
line end the continuation recomputation, the line-state write, and the reset. -/
def bookkeep (doc : List Char) (σ : ScanState) : ScanState :=
  let σ1 :=
    if isspacechar (charAt doc σ.pos) then σ
    else { σ with visibleChars := σ.visibleChars + 1 }
  if atLineEnd doc σ.pos then
    let cont := LineEndsWith doc σ.pos '\\'
    let ls := (if cont then NsisLineStateLineContinuation else 0) |||
      σ1.lineStateLineType
    let σ2 := { σ1 with
      lineContinuation := cont
      lineStates := setLineState σ1.lineStates (lineOf doc σ.pos) ls }
    if cont then σ2 else { σ2 with visibleChars := 0, lineStateLineType := 0 }
  else σ1

/-- One iteration of the scanner's `while (sc.More())` loop.  The C `continue`
after closing a bare variable re-runs the `switch` on the same byte in the restored
outer state, which by lines 103, 106, 170 and 173 of the source is a string state
or `Default`; a second `again` cannot occur and is cut to a fall-through. -/
def scanStep (kw : List (List Char)) (doc : List Char) (endPos : Nat)
    (σ : ScanState) : ScanState :=
  let fin := fun σ' => forward endPos (bookkeep doc (dispatchDefault doc endPos σ'))
  match switchOnce kw doc endPos σ with
  | .cont σ' => σ'
  | .fall σ' => fin σ'
  | .again σ' =>
    match switchOnce kw doc endPos σ' with
    | .cont σ'' => σ''
    | .fall σ'' => fin σ''
    | .again σ'' => fin σ''

/-- The scanner loop, fuelled; `endPos - startPos` iterations always suffice
because every iteration advances the position. -/
def scanLoop (kw : List (List Char)) (doc : List Char) (endPos : Nat) :
    Nat → ScanState → ScanState
  | 0, σ => σ
  | n + 1, σ =>
    if σ.pos < endPos then scanLoop kw doc endPos n (scanStep kw doc endPos σ) else σ

/-- The initialisation of `ColouriseNSISDoc` (lines 36–50): fresh locals, then the
previous line's continuation flag and line type are restored from the store. -/
def initScan (doc : List Char) (startPos : Nat) (initStyle : Style)
    (store : LineStore) : ScanState :=
  let base : ScanState :=
    { pos := startPos, state := initStyle, segStart := startPos, styles := []
      visibleChars := 0, lineContinuation := false, lineStateLineType := 0
      variableOuter := SCE_NSIS_DEFAULT, lineStates := store }
  if lineOf doc startPos > 0 then
    let ls := getLineState store (lineOf doc startPos - 1)
    if ls &&& NsisLineStateLineContinuation ≠ 0 then
      { base with
        lineContinuation := true
        visibleChars := 1
        lineStateLineType := ls &&& NsisLineTypeMask }
    else base
  else base

/-- `StyleContext::Complete`: flush the final pending segment. -/
def completeScan (σ : ScanState) : ScanState :=
  setState σ σ.state

/-- The scanner's result: one style per byte of the range, the updated line-state
store, and the classification state live at the end of the range. -/
structure ScanResult where
  styles : List Style
  lineStates : LineStore
  finalState : Style
  deriving Repr, DecidableEq

/-- `ColouriseNSISDoc`: scan `[startPos, startPos+lengthDoc)` of `doc` with initial
style `initStyle`, keyword list `kw` and line store `store`. -/
def ColouriseNSISDoc (kw : List (List Char)) (doc : List Char)
    (startPos lengthDoc : Nat) (initStyle : Style) (store : LineStore) : ScanResult :=
  let endPos := min (startPos + lengthDoc) doc.length
  let σ := completeScan
    (scanLoop kw doc endPos (endPos - startPos) (initScan doc startPos initStyle store))
  ⟨σ.styles, σ.lineStates, σ.state⟩

/-! ## The fold pass (`FoldNSISDoc`, lines 200–284) -/

/-- `CStrEqual`. -/
def CStrEqual (a b : List Char) : Bool := a = b

/-- `CStrStartsWith`. -/
def CStrStartsWith (buf lit : List Char) : Bool := lit.isPrefixOf buf

/-- `CStrEndsWith` (the `wordLen` argument of the C helper is the length of `buf`,
which the model carries in the list itself). -/
def CStrEndsWith (buf lit : List Char) : Bool := lit.isSuffixOf buf

/-- `CStrEqualsAny` with two literals, as used in the fold pass. -/
def CStrEqualsAny (buf lit1 lit2 : List Char) : Bool := buf = lit1 || buf = lit2

/-- The fold-level adjustment applied when a `Word`/`Preprocessor` span closes
(lines 235–247), as a function of the style and the captured lowercased word. -/
def nsisFoldWordDelta (style : Style) (buf : List Char) (wordLen : Nat) : Int :=
  if style = SCE_NSIS_WORD then
    if wordLen ≥ 9 ∧ CStrEndsWith buf "end".toList then -1
    else if CStrStartsWith buf "section".toList ∨
            CStrEqualsAny buf "function".toList "pageex".toList then 1
    else 0
  else
    if CStrStartsWith buf "!if".toList ∨ CStrEqual buf "!macro".toList then 1
    else if CStrStartsWith buf "!end".toList ∨ CStrEqual buf "!macroend".toList then -1
    else 0

/-- One fold record per line: the line number, the level in effect at the line
(`levelUse`), the level after the line (`levelNext`, packed into the high 16 bits
by the C code), and the header flag `levelUse < levelNext`. -/
structure FoldRecord where
  line : Nat
  levelUse : Int
  levelNext : Int
  header : Bool
  deriving Repr, DecidableEq

/-- The loop state of `FoldNSISDoc`. -/
structure FoldState where
  i : Nat
  lineCurrent : Nat
  lineStartNext : Nat
  lineEndPos : Nat
  levelCurrent : Int
  levelNext : Int
  lineTypePrev : Nat
  lineTypeCurrent : Nat
  buf : List Char
  wordLen : Nat
  style : Style
  styleNext : Style
  records : List FoldRecord
  deriving Repr, DecidableEq

/-- The word-capture buffer holds at most 15 characters (`char buf[16]`). -/
def MaxFoldWordLength : Nat := 15

/-- One iteration of the fold loop (lines 222–283). -/
def foldStep (doc : List Char) (styleAt : Nat → Style) (store : LineStore)
    (endPos : Nat) (fs : FoldState) : FoldState :=
  let stylePrev := fs.style
  let style := fs.styleNext
  let styleNext := styleAt (fs.i + 1)
  let fs1 : FoldState := { fs with style := style, styleNext := styleNext }
  let fs2 : FoldState :=
    if style = SCE_NSIS_WORD ∨ style = SCE_NSIS_PREPROCESSOR then
      let fs1 : FoldState :=
        if fs1.wordLen < MaxFoldWordLength then
          { fs1 with buf := fs1.buf ++ [MakeLowerCase (charAt doc fs1.i)],
                     wordLen := fs1.wordLen + 1 }
        else fs1
      if styleNext ≠ style then
        { fs1 with levelNext := fs1.levelNext + nsisFoldWordDelta style fs1.buf fs1.wordLen,
                   buf := [], wordLen := 0 }
      else fs1
    else if style = SCE_NSIS_COMMENT then
      if stylePrev ≠ style then { fs1 with levelNext := fs1.levelNext + 1 }
      else if styleNext ≠ style then { fs1 with levelNext := fs1.levelNext - 1 }
      else fs1
    else fs1
  if fs2.i = fs2.lineEndPos then
    let lineTypeNext := getLineState store (fs2.lineCurrent + 1) &&& NsisLineTypeMask
    let levelNext :=
      if fs2.lineTypeCurrent ≠ 0 then
        fs2.levelNext + ((if lineTypeNext = fs2.lineTypeCurrent then (1 : Int) else 0) -
          (if fs2.lineTypePrev = fs2.lineTypeCurrent then (1 : Int) else 0))
      else fs2.levelNext
    let newRec : FoldRecord :=
      { line := fs2.lineCurrent, levelUse := fs2.levelCurrent, levelNext := levelNext,
        header := decide (fs2.levelCurrent < levelNext) }
    let lineCurrent := fs2.lineCurrent + 1
    let lineStartNext := lineStartIdx doc (lineCurrent + 1)
    { fs2 with
      i := fs2.i + 1
      records := fs2.records ++ [newRec]
      lineCurrent := lineCurrent
      lineStartNext := lineStartNext
      lineEndPos := min lineStartNext endPos - 1
      levelCurrent := levelNext
      levelNext := levelNext
      lineTypePrev := fs2.lineTypeCurrent
      lineTypeCurrent := lineTypeNext }
  else { fs2 with i := fs2.i + 1 }

/-- The fold loop, one iteration per byte of the range. -/
def foldLoop (doc : List Char) (styleAt : Nat → Style) (store : LineStore)
    (endPos : Nat) : Nat → FoldState → FoldState
  | 0, fs => fs
  | n + 1, fs => foldLoop doc styleAt store endPos n (foldStep doc styleAt store endPos fs)

/-- `SC_FOLDLEVELBASE`. -/
def SC_FOLDLEVELBASE : Int := 1024

/-- `FoldNSISDoc`: fold `[startPos, startPos+lengthDoc)`.  `styleAt` is the style
store produced by the scanner; `store` the per-line state store; `levelPrev`
models `styler.LevelAt(lineCurrent - 1) >> 16`, the previous line's `levelNext`
read back from the host's fold-level store when resuming mid-document. -/
def FoldNSISDoc (doc : List Char) (styleAt : Nat → Style) (store : LineStore)
    (startPos lengthDoc : Nat) (initStyle : Style) (levelPrev : Int) :
    List FoldRecord :=
  let endPos := startPos + lengthDoc
  let lineCurrent := lineOf doc startPos
  let levelCurrent := if lineCurrent > 0 then levelPrev else SC_FOLDLEVELBASE
  let lineTypePrev :=
    if lineCurrent > 0 then getLineState store (lineCurrent - 1) &&& NsisLineTypeMask
    else 0
  let lineStartNext := lineStartIdx doc (lineCurrent + 1)
  let fs0 : FoldState :=
    { i := startPos
      lineCurrent := lineCurrent
      lineStartNext := lineStartNext
      lineEndPos := min lineStartNext endPos - 1
      levelCurrent := levelCurrent
      levelNext := levelCurrent
      lineTypePrev := lineTypePrev
      lineTypeCurrent := getLineState store lineCurrent &&& NsisLineTypeMask
      buf := []
      wordLen := 0
      style := initStyle
      styleNext := styleAt startPos
      records := [] }
  (foldLoop doc styleAt store endPos (endPos - startPos) fs0).records

/-- Style lookup in a scanner result that covered `[0, n)`: style `0` beyond. -/
def styleOf (r : ScanResult) (p : Nat) : Style := r.styles.getD p 0

/-- Scan a whole document from a cold start, as the host does for a fresh file. -/
def scanDoc (kw : List (List Char)) (doc : List Char) : ScanResult :=
  ColouriseNSISDoc kw doc 0 doc.length SCE_NSIS_DEFAULT []

/-- Fold a whole document over the styles and line states of a cold-start scan. -/
def foldDoc (kw : List (List Char)) (doc : List Char) : List FoldRecord :=
  let r := scanDoc kw doc
  FoldNSISDoc doc (styleOf r) r.lineStates 0 doc.length SCE_NSIS_DEFAULT 0

/-! ## Claim C4: fold deltas of Word/Preprocessor spans -/

/-- The two preprocessor fold conditions cannot both hold. -/
lemma preprocFoldCondsDisjoint (buf : List Char)
    (hB : CStrStartsWith buf "!end".toList = true ∨ CStrEqual buf "!macroend".toList = true) :
    ¬ (CStrStartsWith buf "!if".toList = true ∨ CStrEqual buf "!macro".toList = true) := by
  rcases hB with hB | hB
  · rw [CStrStartsWith, List.isPrefixOf_iff_prefix] at hB
    obtain ⟨t, ht⟩ := hB
    rintro (hA | hA) <;>
      simp [CStrStartsWith, CStrEqual, ← ht, List.isPrefixOf, String.toList] at hA
  · rw [CStrEqual, decide_eq_true_eq] at hB
    subst hB
    rintro (hA | hA) <;>
      simp [CStrStartsWith, CStrEqual, List.isPrefixOf, String.toList] at hA

/-- C4, counterexample.  The span `SectionEnd` (lowercased `sectionend`) starts
with `section`, so the claim demands `level += 1` at its close; but the code
checks the 9-characters-ending-in-`end` decrement first, and the fold level
drops from the base 1024 to 1023 on that line. -/
theorem nsis_C4_counterexample :
    CStrStartsWith "sectionend".toList "section".toList = true ∧
    foldDoc ["sectionend".toList] "SectionEnd\n".toList =
      [{ line := 0, levelUse := 1024, levelNext := 1023, header := false }] ∧
    (1023 : Int) = 1024 - 1 := by
  decide

/-- Characterization of the fold-word delta: for `Word` the decrement branch is
checked first and so takes precedence; the two `Preprocessor` branches are
mutually exclusive. -/
lemma nsisFoldWordDelta_spec (buf : List Char) (wl : Nat) :
    (nsisFoldWordDelta SCE_NSIS_WORD buf wl = -1 ↔
      (wl ≥ 9 ∧ CStrEndsWith buf "end".toList = true)) ∧
    (nsisFoldWordDelta SCE_NSIS_WORD buf wl = 1 ↔
      ((CStrStartsWith buf "section".toList = true ∨
        CStrEqualsAny buf "function".toList "pageex".toList = true) ∧
       ¬ (wl ≥ 9 ∧ CStrEndsWith buf "end".toList = true))) ∧
    (nsisFoldWordDelta SCE_NSIS_PREPROCESSOR buf wl = 1 ↔
      (CStrStartsWith buf "!if".toList = true ∨ CStrEqual buf "!macro".toList = true)) ∧
    (nsisFoldWordDelta SCE_NSIS_PREPROCESSOR buf wl = -1 ↔
      (CStrStartsWith buf "!end".toList = true ∨ CStrEqual buf "!macroend".toList = true)) := by
  unfold nsisFoldWordDelta
  rw [if_pos rfl, if_neg (by decide : ¬ (SCE_NSIS_PREPROCESSOR = SCE_NSIS_WORD))]
  by_cases hA : wl ≥ 9 ∧ CStrEndsWith buf "end".toList = true
  · rw [if_pos hA]
    by_cases hA' : CStrStartsWith buf "!if".toList = true ∨ CStrEqual buf "!macro".toList = true
    · rw [if_pos hA']
      exact ⟨iff_of_true rfl hA, iff_of_false (by decide) (fun h => h.2 hA),
        iff_of_true rfl hA',
        iff_of_false (by decide) (fun hB => preprocFoldCondsDisjoint buf hB hA')⟩
    · rw [if_neg hA']
      by_cases hB' : CStrStartsWith buf "!end".toList = true ∨
          CStrEqual buf "!macroend".toList = true
      · rw [if_pos hB']
        exact ⟨iff_of_true rfl hA, iff_of_false (by decide) (fun h => h.2 hA),
          iff_of_false (by decide) hA', iff_of_true rfl hB'⟩
      · rw [if_neg hB']
        exact ⟨iff_of_true rfl hA, iff_of_false (by decide) (fun h => h.2 hA),
          iff_of_false (by decide) hA', iff_of_false (by decide) hB'⟩
  · rw [if_neg hA]
    by_cases hB : CStrStartsWith buf "section".toList = true ∨
        CStrEqualsAny buf "function".toList "pageex".toList = true
    all_goals by_cases hA' : CStrStartsWith buf "!if".toList = true ∨
        CStrEqual buf "!macro".toList = true
    all_goals try rw [if_pos hB]
    all_goals try rw [if_neg hB]
    all_goals try rw [if_pos hA']
    all_goals try rw [if_neg hA']
    all_goals
      first
      | exact ⟨iff_of_false (by decide) hA, iff_of_true rfl ⟨hB, hA⟩,
          iff_of_true rfl hA',
          iff_of_false (by decide) (fun hb => preprocFoldCondsDisjoint buf hb hA')⟩
      | exact ⟨iff_of_false (by decide) hA, iff_of_false (by decide) (fun h => hB h.1),
          iff_of_true rfl hA',
          iff_of_false (by decide) (fun hb => preprocFoldCondsDisjoint buf hb hA')⟩
      | (by_cases hB' : CStrStartsWith buf "!end".toList = true ∨
            CStrEqual buf "!macroend".toList = true
         all_goals try rw [if_pos hB']
         all_goals try rw [if_neg hB']
         all_goals
           first
           | exact ⟨iff_of_false (by decide) hA, iff_of_true rfl ⟨hB, hA⟩,
               iff_of_false (by decide) hA', iff_of_true rfl hB'⟩
           | exact ⟨iff_of_false (by decide) hA, iff_of_true rfl ⟨hB, hA⟩,
               iff_of_false (by decide) hA', iff_of_false (by decide) hB'⟩
           | exact ⟨iff_of_false (by decide) hA, iff_of_false (by decide) (fun h => hB h.1),
               iff_of_false (by decide) hA', iff_of_true rfl hB'⟩
           | exact ⟨iff_of_false (by decide) hA, iff_of_false (by decide) (fun h => hB h.1),
               iff_of_false (by decide) hA', iff_of_false (by decide) hB'⟩)

/-- C4, amended: when a `Word`/`Preprocessor` span closes during the fold pass
(away from a line boundary), the level changes by `nsisFoldWordDelta` of the
buffered lowercased text (at most 15 characters); for `Word` the decrement
condition — at least 9 characters and ending in `end` — takes precedence over
the increment condition, and the increment applies exactly when the text starts
with `section` or equals `function`/`pageex` *and* the decrement condition does
not hold; for `Preprocessor` the two conditions are mutually exclusive and apply
exactly as stated. -/
theorem nsis_C4_fold_word_delta (doc : List Char) (styleAt : Nat → Style)
    (store : LineStore) (endPos : Nat) (fs : FoldState)
    (hsty : fs.styleNext = SCE_NSIS_WORD ∨ fs.styleNext = SCE_NSIS_PREPROCESSOR)
    (hclose : styleAt (fs.i + 1) ≠ fs.styleNext)
    (hnb : fs.i ≠ fs.lineEndPos) :
    let buf := if fs.wordLen < MaxFoldWordLength
               then fs.buf ++ [MakeLowerCase (charAt doc fs.i)] else fs.buf
    let wl := if fs.wordLen < MaxFoldWordLength then fs.wordLen + 1 else fs.wordLen
    (foldStep doc styleAt store endPos fs).levelNext =
      fs.levelNext + nsisFoldWordDelta fs.styleNext buf wl ∧
    (nsisFoldWordDelta SCE_NSIS_WORD buf wl = -1 ↔
      (wl ≥ 9 ∧ CStrEndsWith buf "end".toList = true)) ∧
    (nsisFoldWordDelta SCE_NSIS_WORD buf wl = 1 ↔
      ((CStrStartsWith buf "section".toList = true ∨
        CStrEqualsAny buf "function".toList "pageex".toList = true) ∧
       ¬ (wl ≥ 9 ∧ CStrEndsWith buf "end".toList = true))) ∧
    (nsisFoldWordDelta SCE_NSIS_PREPROCESSOR buf wl = 1 ↔
      (CStrStartsWith buf "!if".toList = true ∨ CStrEqual buf "!macro".toList = true)) ∧
    (nsisFoldWordDelta SCE_NSIS_PREPROCESSOR buf wl = -1 ↔
      (CStrStartsWith buf "!end".toList = true ∨ CStrEqual buf "!macroend".toList = true)) := by
  intro buf wl
  refine ⟨?_, (nsisFoldWordDelta_spec buf wl).1, (nsisFoldWordDelta_spec buf wl).2.1,
    (nsisFoldWordDelta_spec buf wl).2.2.1, (nsisFoldWordDelta_spec buf wl).2.2.2⟩
  simp only [buf, wl]
  simp only [foldStep]
  rw [if_pos hsty]
  by_cases hw : fs.wordLen < MaxFoldWordLength <;>
    simp [hw, hclose, hnb]

/-- A concrete fold state: position 0 of document `f\n`, inside a `Word` span that
the next byte closes, away from the line boundary. -/
def nsisC4TestState : FoldState :=
  { i := 0, lineCurrent := 0, lineStartNext := 2, lineEndPos := 1
    levelCurrent := 1024, levelNext := 1024, lineTypePrev := 0, lineTypeCurrent := 0
    buf := [], wordLen := 0, style := SCE_NSIS_WORD, styleNext := SCE_NSIS_WORD
    records := [] }

theorem nsis_C4_fold_word_delta_witness :
    (foldStep "f\n".toList (fun _ => SCE_NSIS_DEFAULT) [] 2 nsisC4TestState).levelNext =
      nsisC4TestState.levelNext + nsisFoldWordDelta SCE_NSIS_WORD ['f'] 1 := by
  have h := nsis_C4_fold_word_delta "f\n".toList (fun _ => SCE_NSIS_DEFAULT) [] 2
    nsisC4TestState (Or.inl rfl) (by decide) (by decide)
  obtain ⟨h1, -⟩ := h
  simpa using h1

/-! ## Claim C5: line-type grouping in the fold pass -/

/-- C5: at a line boundary whose byte closes no `Word`/`Preprocessor`/`BlockComment`
span, a nonzero line type adjusts the level by
`(next_line_type == current ? 1 : 0) - (prev_line_type == current ? 1 : 0)`;
a zero line type adjusts nothing; and three consecutive `!include` lines followed
by a `!define` line open one level at the first include and close it after the
third. -/
theorem nsis_C5_line_type_grouping (doc : List Char) (styleAt : Nat → Style)
    (store : LineStore) (endPos : Nat) (fs : FoldState)
    (hb : fs.i = fs.lineEndPos)
    (h1 : fs.styleNext ≠ SCE_NSIS_WORD) (h2 : fs.styleNext ≠ SCE_NSIS_PREPROCESSOR)
    (h3 : fs.styleNext ≠ SCE_NSIS_COMMENT) :
    (fs.lineTypeCurrent ≠ 0 →
      (foldStep doc styleAt store endPos fs).levelNext =
        fs.levelNext +
          ((if getLineState store (fs.lineCurrent + 1) &&& NsisLineTypeMask =
              fs.lineTypeCurrent then (1 : Int) else 0) -
           (if fs.lineTypePrev = fs.lineTypeCurrent then (1 : Int) else 0))) ∧
    (fs.lineTypeCurrent = 0 →
      (foldStep doc styleAt store endPos fs).levelNext = fs.levelNext) ∧
    foldDoc [] "!include a\n!include b\n!include c\n!define d\n".toList =
      [{ line := 0, levelUse := 1024, levelNext := 1025, header := true },
       { line := 1, levelUse := 1025, levelNext := 1025, header := false },
       { line := 2, levelUse := 1025, levelNext := 1024, header := false },
       { line := 3, levelUse := 1024, levelNext := 1024, header := false }] := by
  have hn1 : ¬ (fs.styleNext = SCE_NSIS_WORD ∨ fs.styleNext = SCE_NSIS_PREPROCESSOR) := by
    rintro (h | h) <;> simp_all
  have hn2 : ¬ (fs.styleNext = SCE_NSIS_COMMENT) := h3
  refine ⟨?_, ?_, by decide⟩ <;> intro ht <;>
  · simp only [foldStep]
    rw [if_neg hn1, if_neg hn2]
    simp [hb, ht]

/-- Witness for C5: a boundary byte of type-`Include` line with matching next
line and non-matching previous line opens one level. -/
theorem nsis_C5_line_type_grouping_witness :
    (foldStep "!include a\n".toList (fun _ => SCE_NSIS_DEFAULT) [(1, 2), (0, 2)] 11
      { i := 10, lineCurrent := 0, lineStartNext := 11, lineEndPos := 10
        levelCurrent := 1024, levelNext := 1024, lineTypePrev := 0, lineTypeCurrent := 2
        buf := [], wordLen := 0, style := SCE_NSIS_DEFAULT, styleNext := SCE_NSIS_DEFAULT
        records := [] }).levelNext = 1024 + (1 - 0) := by
  have h := nsis_C5_line_type_grouping "!include a\n".toList (fun _ => SCE_NSIS_DEFAULT)
    [(1, 2), (0, 2)] 11
    { i := 10, lineCurrent := 0, lineStartNext := 11, lineEndPos := 10
      levelCurrent := 1024, levelNext := 1024, lineTypePrev := 0, lineTypeCurrent := 2
      buf := [], wordLen := 0, style := SCE_NSIS_DEFAULT, styleNext := SCE_NSIS_DEFAULT
      records := [] } rfl (by decide) (by decide) (by decide)
  have h' := h.1 (by decide)
  simpa using h'

/-! ## Claims C6 and C2: resolution of a closing identifier span -/

/-- The final style an identifier span is flushed with when it closes. -/
def identCloseStyle (kw : List (List Char)) (doc : List Char) (σ : ScanState) : Style :=
  if (capturedWord doc σ).head? = some '!' then SCE_NSIS_PREPROCESSOR
  else if σ.visibleChars = σ.pos - σ.segStart then
    if kw.contains (capturedWord doc σ) then SCE_NSIS_WORD
    else if charAt doc σ.pos = ':' ∧ charAt doc (σ.pos + 1) ≠ ':' then SCE_NSIS_LABEL
    else SCE_NSIS_INSTRUCTION
  else SCE_NSIS_IDENTIFIER

/-- In the identifier state, a non-identifier byte exits through `identClose`. -/
lemma switchOnce_identClose (kw : List (List Char)) (doc : List Char) (endPos : Nat)
    (σ : ScanState) (hst : σ.state = SCE_NSIS_IDENTIFIER)
    (hch : IsIdentifierChar (charAt doc σ.pos) = false) :
    switchOnce kw doc endPos σ = .fall (identClose kw doc σ) := by
  simp [switchOnce, hst, hch, isStringStyle, SCE_NSIS_OPERATOR, SCE_NSIS_NUMBER,
    SCE_NSIS_IDENTIFIER, SCE_NSIS_STRINGSQ, SCE_NSIS_STRINGDQ, SCE_NSIS_STRINGBT,
    SCE_NSIS_VARIABLE, SCE_NSIS_VARIABLE_BRACE, SCE_NSIS_VARIABLE_PAREN,
    SCE_NSIS_COMMENTLINE, SCE_NSIS_COMMENT]

/-- What `identClose` does: flush the segment with `identCloseStyle`, return to
`Default`, leave position, segment start, visible count and continuation alone. -/
lemma identClose_spec (kw : List (List Char)) (doc : List Char) (σ : ScanState)
    (hst : σ.state = SCE_NSIS_IDENTIFIER) :
    (identClose kw doc σ).styles =
      σ.styles ++ List.replicate (σ.pos - σ.segStart) (identCloseStyle kw doc σ) ∧
    (identClose kw doc σ).state = SCE_NSIS_DEFAULT ∧
    (identClose kw doc σ).pos = σ.pos ∧
    (identClose kw doc σ).segStart = σ.pos ∧
    (identClose kw doc σ).visibleChars = σ.visibleChars ∧
    (identClose kw doc σ).lineContinuation = σ.lineContinuation := by
  unfold identClose identCloseStyle
  by_cases hb : (capturedWord doc σ).head? = some '!'
  · by_cases hinc : capturedWord doc σ = ['!', 'i', 'n', 'c', 'l', 'u', 'd', 'e'] <;>
      by_cases hdef : capturedWord doc σ = ['!', 'd', 'e', 'f', 'i', 'n', 'e'] <;>
      simp [hb, hinc, hdef, setState, changeState]
  · by_cases hfl : σ.visibleChars = σ.pos - σ.segStart
    · by_cases hkw : capturedWord doc σ ∈ kw <;>
        by_cases hlab : charAt doc σ.pos = ':' ∧ charAt doc (σ.pos + 1) ≠ ':' <;>
        simp [hb, hfl, hkw, hlab, setState, changeState]
    · simp [hb, hfl, hst, setState, changeState]

/-- C6: an identifier-like span closing first-on-line, not starting with `!`,
becomes `Word` on a keyword hit, else `Label` when followed by a single `:`,
else `Instruction`; one closing not first-on-line receives none of those three,
as shown both in general and on the spec's four concrete examples with keyword
table `{"section", "sectionend"}`. -/
theorem nsis_C6_keyword_label_instruction (kw : List (List Char)) (doc : List Char)
    (endPos : Nat) (σ : ScanState)
    (hst : σ.state = SCE_NSIS_IDENTIFIER)
    (hch : IsIdentifierChar (charAt doc σ.pos) = false)
    (hnb : (capturedWord doc σ).head? ≠ some '!') :
    (switchOnce kw doc endPos σ = .fall (identClose kw doc σ)) ∧
    (σ.visibleChars = σ.pos - σ.segStart →
      (identClose kw doc σ).styles = σ.styles ++
        List.replicate (σ.pos - σ.segStart)
          (if kw.contains (capturedWord doc σ) then SCE_NSIS_WORD
           else if charAt doc σ.pos = ':' ∧ charAt doc (σ.pos + 1) ≠ ':' then
             SCE_NSIS_LABEL
           else SCE_NSIS_INSTRUCTION)) ∧
    (σ.visibleChars ≠ σ.pos - σ.segStart →
      identCloseStyle kw doc σ ≠ SCE_NSIS_WORD ∧
      identCloseStyle kw doc σ ≠ SCE_NSIS_LABEL ∧
      identCloseStyle kw doc σ ≠ SCE_NSIS_INSTRUCTION) ∧
    (ColouriseNSISDoc ["section".toList, "sectionend".toList]
        "Section \"x\"\n".toList 0 12 SCE_NSIS_DEFAULT []).styles =
      [SCE_NSIS_WORD, SCE_NSIS_WORD, SCE_NSIS_WORD, SCE_NSIS_WORD, SCE_NSIS_WORD,
       SCE_NSIS_WORD, SCE_NSIS_WORD, SCE_NSIS_DEFAULT, SCE_NSIS_STRINGDQ,
       SCE_NSIS_STRINGDQ, SCE_NSIS_STRINGDQ, SCE_NSIS_DEFAULT] ∧
    (ColouriseNSISDoc [] "DoStuff:\n".toList 0 9 SCE_NSIS_DEFAULT []).styles =
      List.replicate 7 SCE_NSIS_LABEL ++ [SCE_NSIS_OPERATOR, SCE_NSIS_DEFAULT] ∧
    (ColouriseNSISDoc [] "DoStuff arg\n".toList 0 12 SCE_NSIS_DEFAULT []).styles =
      List.replicate 7 SCE_NSIS_INSTRUCTION ++
        [SCE_NSIS_DEFAULT] ++ List.replicate 3 SCE_NSIS_IDENTIFIER ++ [SCE_NSIS_DEFAULT] ∧
    (ColouriseNSISDoc [] "x = DoStuff\n".toList 0 12 SCE_NSIS_DEFAULT []).styles =
      [SCE_NSIS_INSTRUCTION, SCE_NSIS_DEFAULT, SCE_NSIS_OPERATOR, SCE_NSIS_DEFAULT] ++
        List.replicate 7 SCE_NSIS_IDENTIFIER ++ [SCE_NSIS_DEFAULT] := by
  refine ⟨switchOnce_identClose kw doc endPos σ hst hch, ?_, ?_, by decide, by decide,
    by decide, by decide⟩
  · intro hfl
    rw [(identClose_spec kw doc σ hst).1]
    unfold identCloseStyle
    rw [if_neg hnb, if_pos hfl]
  · intro hnf
    unfold identCloseStyle
    rw [if_neg hnb, if_neg hnf]
    exact ⟨by decide, by decide, by decide⟩

/-- Witness for C6: on `a:b`, the segment `a` closes first-on-line before `:`
and is flushed as `Label`. -/
theorem nsis_C6_keyword_label_instruction_witness :
    (identClose [] "a:b\n".toList
      { pos := 1, state := SCE_NSIS_IDENTIFIER, segStart := 0, styles := []
        visibleChars := 1, lineContinuation := false, lineStateLineType := 0
        variableOuter := SCE_NSIS_DEFAULT, lineStates := [] }).styles =
      [SCE_NSIS_LABEL] := by
  have h := nsis_C6_keyword_label_instruction [] "a:b\n".toList 4
    { pos := 1, state := SCE_NSIS_IDENTIFIER, segStart := 0, styles := []
      visibleChars := 1, lineContinuation := false, lineStateLineType := 0
      variableOuter := SCE_NSIS_DEFAULT, lineStates := [] } rfl (by decide) (by decide)
  have h2 := h.2.1 (by decide)
  simpa using h2

/-- C2, counterexample.  Scanning `a b` (keyword table empty): the span `b` is
identifier-like, does not start with `!`, and is not first on its line; the
claim says it is emitted with the `Default` classification and that no span is
ever emitted as `Identifier`, but byte 2 is emitted with the `Identifier` style. -/
theorem nsis_C2_counterexample :
    (ColouriseNSISDoc [] "a b\n".toList 0 4 SCE_NSIS_DEFAULT []).styles =
      [SCE_NSIS_INSTRUCTION, SCE_NSIS_DEFAULT, SCE_NSIS_IDENTIFIER, SCE_NSIS_DEFAULT] ∧
    SCE_NSIS_IDENTIFIER ≠ SCE_NSIS_DEFAULT := by
  decide

/-- C2, amended: an identifier-like span that closes neither as preprocessor
(leading `!`) nor first-on-line is emitted with the transient `Identifier`
style itself — not rewritten to `Word`/`Instruction`/`Label`/`Preprocessor` and
not restyled to `Default` — and the `Identifier` style escapes to the output in
exactly those cases (plus a span cut off by the end of the scanned range). -/
theorem nsis_C2_identifier_escapes (kw : List (List Char)) (doc : List Char)
    (endPos : Nat) (σ : ScanState)
    (hst : σ.state = SCE_NSIS_IDENTIFIER)
    (hch : IsIdentifierChar (charAt doc σ.pos) = false) :
    (switchOnce kw doc endPos σ = .fall (identClose kw doc σ)) ∧
    (identClose kw doc σ).styles =
      σ.styles ++ List.replicate (σ.pos - σ.segStart) (identCloseStyle kw doc σ) ∧
    (identCloseStyle kw doc σ = SCE_NSIS_IDENTIFIER ↔
      ((capturedWord doc σ).head? ≠ some '!' ∧
       σ.visibleChars ≠ σ.pos - σ.segStart)) ∧
    SCE_NSIS_IDENTIFIER ≠ SCE_NSIS_DEFAULT := by
  refine ⟨switchOnce_identClose kw doc endPos σ hst hch, (identClose_spec kw doc σ hst).1,
    ?_, by decide⟩
  unfold identCloseStyle
  by_cases hb : (capturedWord doc σ).head? = some '!'
  · rw [if_pos hb]
    exact iff_of_false (by decide) (fun h => h.1 hb)
  · rw [if_neg hb]
    by_cases hfl : σ.visibleChars = σ.pos - σ.segStart
    · rw [if_pos hfl]
      refine iff_of_false ?_ (fun h => h.2 hfl)
      split
      · decide
      · split <;> decide
    · rw [if_neg hfl]
      exact iff_of_true rfl ⟨hb, hfl⟩

/-- Witness for C2: on `a b`, the segment `b` (not first on the line) closes at
the newline and is flushed as `Identifier`. -/
theorem nsis_C2_identifier_escapes_witness :
    (identClose [] "a b\n".toList
      { pos := 3, state := SCE_NSIS_IDENTIFIER, segStart := 2
        styles := [SCE_NSIS_INSTRUCTION, SCE_NSIS_DEFAULT]
        visibleChars := 2, lineContinuation := false, lineStateLineType := 0
        variableOuter := SCE_NSIS_DEFAULT, lineStates := [] }).styles =
      [SCE_NSIS_INSTRUCTION, SCE_NSIS_DEFAULT, SCE_NSIS_IDENTIFIER] := by
  have h := nsis_C2_identifier_escapes [] "a b\n".toList 4
    { pos := 3, state := SCE_NSIS_IDENTIFIER, segStart := 2
      styles := [SCE_NSIS_INSTRUCTION, SCE_NSIS_DEFAULT]
      visibleChars := 2, lineContinuation := false, lineStateLineType := 0
      variableOuter := SCE_NSIS_DEFAULT, lineStates := [] } rfl (by decide)
  have h2 := h.2.1
  have h3 := (h.2.2.1).mpr (by exact ⟨by decide, by decide⟩)
  rw [h2, h3]
  decide

/-! ## Claim C7: escape spans inside strings -/

/-- C7: inside any string state, `$$` (with two bytes left in the range) or `$\`
followed by an escape target (with three bytes left) is emitted as a single
`EscapeChar` span covering exactly the matched bytes, after which the scanner
resumes the enclosing string state with a fresh segment; concretely, inside a
double-quoted string `$\"` is one three-byte escape span that does not
terminate the string, while the following bare `"` does. -/
theorem nsis_C7_escape_spans (kw : List (List Char)) (doc : List Char)
    (endPos : Nat) (σ : ScanState)
    (hstr : isStringStyle σ.state = true)
    (hd : charAt doc σ.pos = '$') :
    (charAt doc (σ.pos + 1) = '$' → σ.pos + 2 ≤ endPos →
      scanStep kw doc endPos σ =
        { σ with
          styles := σ.styles ++ List.replicate (σ.pos - σ.segStart) σ.state ++
            List.replicate 2 SCE_NSIS_ESCAPECHAR
          segStart := σ.pos + 2
          pos := σ.pos + 2 }) ∧
    (charAt doc (σ.pos + 1) = '\\' → IsEscapeChar (charAt doc (σ.pos + 2)) = true →
      σ.pos + 3 ≤ endPos →
      scanStep kw doc endPos σ =
        { σ with
          styles := σ.styles ++ List.replicate (σ.pos - σ.segStart) σ.state ++
            List.replicate 3 SCE_NSIS_ESCAPECHAR
          segStart := σ.pos + 3
          pos := σ.pos + 3 }) ∧
    (ColouriseNSISDoc [] "\"a$\\\"b\"x\n".toList 0 9 SCE_NSIS_DEFAULT []).styles =
      [SCE_NSIS_STRINGDQ, SCE_NSIS_STRINGDQ, SCE_NSIS_ESCAPECHAR, SCE_NSIS_ESCAPECHAR,
       SCE_NSIS_ESCAPECHAR, SCE_NSIS_STRINGDQ, SCE_NSIS_STRINGDQ, SCE_NSIS_IDENTIFIER,
       SCE_NSIS_DEFAULT] := by
  have hstates : σ.state = SCE_NSIS_STRINGSQ ∨ σ.state = SCE_NSIS_STRINGDQ ∨
      σ.state = SCE_NSIS_STRINGBT := by
    have := hstr
    simp [isStringStyle] at this
    tauto
  refine ⟨?_, ?_, by decide⟩
  · intro h2 hb
    have hb1 : min (σ.pos + 1) endPos = σ.pos + 1 := by omega
    have hb2 : min (σ.pos + 1 + 1) endPos = σ.pos + 2 := by omega
    rcases hstates with hst | hst | hst <;>
      simp [scanStep, switchOnce, handleStringState, hst, hd, h2, isStringStyle,
        setState, forward, forwardSetState, hb1, hb2, SCE_NSIS_OPERATOR,
        SCE_NSIS_NUMBER, SCE_NSIS_IDENTIFIER, SCE_NSIS_STRINGSQ, SCE_NSIS_STRINGDQ,
        SCE_NSIS_STRINGBT]
  · intro h2 hesc hb
    have hb1 : min (σ.pos + 1) endPos = σ.pos + 1 := by omega
    have hb2 : min (σ.pos + 1 + 1) endPos = σ.pos + 2 := by omega
    have hb3 : min (σ.pos + 2 + 1) endPos = σ.pos + 3 := by omega
    rcases hstates with hst | hst | hst <;>
      simp [scanStep, switchOnce, handleStringState, hst, hd, h2, hesc, isStringStyle,
        setState, forward, forwardSetState, hb1, hb2, hb3, SCE_NSIS_OPERATOR,
        SCE_NSIS_NUMBER, SCE_NSIS_IDENTIFIER, SCE_NSIS_STRINGSQ, SCE_NSIS_STRINGDQ,
        SCE_NSIS_STRINGBT]

/-- Witness for C7: a `$$` escape inside a double-quoted string at position 1. -/
theorem nsis_C7_escape_spans_witness :
    scanStep [] "\"$$\"\n".toList 5
      { pos := 1, state := SCE_NSIS_STRINGDQ, segStart := 1, styles := [SCE_NSIS_STRINGDQ]
        visibleChars := 1, lineContinuation := false, lineStateLineType := 0
        variableOuter := SCE_NSIS_DEFAULT, lineStates := [] } =
      { pos := 3, state := SCE_NSIS_STRINGDQ, segStart := 3
        styles := [SCE_NSIS_STRINGDQ, SCE_NSIS_ESCAPECHAR, SCE_NSIS_ESCAPECHAR]
        visibleChars := 1, lineContinuation := false, lineStateLineType := 0
        variableOuter := SCE_NSIS_DEFAULT, lineStates := [] } := by
  have h := nsis_C7_escape_spans [] "\"$$\"\n".toList 5
    { pos := 1, state := SCE_NSIS_STRINGDQ, segStart := 1, styles := [SCE_NSIS_STRINGDQ]
      visibleChars := 1, lineContinuation := false, lineStateLineType := 0
      variableOuter := SCE_NSIS_DEFAULT, lineStates := [] } (by decide) (by decide)
  have h2 := h.1 (by decide) (by decide)
  rw [h2]
  decide

/-! ## Claim C8: line-end bookkeeping -/

/-- C8: at every line end, the persisted line-state word is the bitwise
combination of the recomputed continuation flag — true iff the line's last
non-newline character, ignoring trailing whitespace, is `\` — with the line's
accumulated line type; when the flag is false the visible-character and
line-type accumulators reset for the next line, and when it is true the line
type is carried over. -/
theorem nsis_C8_line_metadata (doc : List Char) (σ : ScanState)
    (hend : atLineEnd doc σ.pos = true) :
    (bookkeep doc σ).lineContinuation = LineEndsWith doc σ.pos '\\' ∧
    (bookkeep doc σ).lineStates =
      setLineState σ.lineStates (lineOf doc σ.pos)
        ((if LineEndsWith doc σ.pos '\\' then NsisLineStateLineContinuation else 0) |||
          σ.lineStateLineType) ∧
    (LineEndsWith doc σ.pos '\\' = false →
      (bookkeep doc σ).visibleChars = 0 ∧ (bookkeep doc σ).lineStateLineType = 0) ∧
    (LineEndsWith doc σ.pos '\\' = true →
      (bookkeep doc σ).lineStateLineType = σ.lineStateLineType) := by
  unfold bookkeep
  rw [if_pos hend]
  by_cases hsp : isspacechar (charAt doc σ.pos) = true <;>
    by_cases hc : LineEndsWith doc σ.pos '\\' = true <;>
    simp [hsp, hc, setLineState]

/-- Witness for C8: the line `a\` (followed by a newline) persists the
continuation bit and keeps the accumulators. -/
theorem nsis_C8_line_metadata_witness :
    (bookkeep "a\\\n".toList
      { pos := 2, state := SCE_NSIS_DEFAULT, segStart := 2
        styles := [SCE_NSIS_INSTRUCTION, SCE_NSIS_DEFAULT]
        visibleChars := 2, lineContinuation := false, lineStateLineType := 0
        variableOuter := SCE_NSIS_DEFAULT, lineStates := [] }).lineStates =
      [(0, 16)] := by
  have h := nsis_C8_line_metadata "a\\\n".toList
    { pos := 2, state := SCE_NSIS_DEFAULT, segStart := 2
      styles := [SCE_NSIS_INSTRUCTION, SCE_NSIS_DEFAULT]
      visibleChars := 2, lineContinuation := false, lineStateLineType := 0
      variableOuter := SCE_NSIS_DEFAULT, lineStates := [] } (by decide)
  rw [h.2.1]
  decide

/-! ## Claim C3: line boundaries in strings and line comments -/

/-- C3, counterexample.  Line 0 is an unterminated double-quoted string with no
continuation marker (its stored line state has no continuation bit), yet the
next line `$ x` is *not* force-closed to `Default` at its start: its first
character is `$`, which the string state inspects before the start-of-line
check, so the whole second line keeps the string classification. -/
theorem nsis_C3_counterexample :
    (ColouriseNSISDoc [] "\"a\n$ x\n".toList 0 7 SCE_NSIS_DEFAULT []).styles =
      List.replicate 7 SCE_NSIS_STRINGDQ ∧
    getLineState (ColouriseNSISDoc [] "\"a\n$ x\n".toList 0 7
        SCE_NSIS_DEFAULT []).lineStates 0 &&& NsisLineStateLineContinuation = 0 ∧
    SCE_NSIS_STRINGDQ ≠ SCE_NSIS_DEFAULT := by
  decide

/-- C3, amended: at a line start reached in a string state whose first character
is not `$`, the state is force-closed to `Default` when the just-ended line's
continuation flag is false and kept otherwise (a `$` first character is handled
by the string's dollar logic before the start-of-line check); in `CommentLine`
the force-close/persist choice is unconditional on the character.  A comment
line ending in the continuation marker makes the whole following line a
comment; without the marker the second line is classified independently. -/
theorem nsis_C3_line_boundary (kw : List (List Char)) (doc : List Char)
    (endPos : Nat) (σ : ScanState) :
    (isStringStyle σ.state = true → atLineStart doc σ.pos = true →
      charAt doc σ.pos ≠ '$' →
      switchOnce kw doc endPos σ =
        .fall (if σ.lineContinuation then σ else setState σ SCE_NSIS_DEFAULT)) ∧
    (σ.state = SCE_NSIS_COMMENTLINE → atLineStart doc σ.pos = true →
      switchOnce kw doc endPos σ =
        .fall (if σ.lineContinuation then σ else setState σ SCE_NSIS_DEFAULT)) ∧
    (setState σ SCE_NSIS_DEFAULT).state = SCE_NSIS_DEFAULT ∧
    (ColouriseNSISDoc [] ";a\\\n b\n".toList 0 7 SCE_NSIS_DEFAULT []).styles =
      List.replicate 7 SCE_NSIS_COMMENTLINE ∧
    (ColouriseNSISDoc [] ";a\n b\n".toList 0 6 SCE_NSIS_DEFAULT []).styles =
      [SCE_NSIS_COMMENTLINE, SCE_NSIS_COMMENTLINE, SCE_NSIS_COMMENTLINE,
       SCE_NSIS_DEFAULT, SCE_NSIS_INSTRUCTION, SCE_NSIS_DEFAULT] := by
  refine ⟨?_, ?_, rfl, by decide, by decide⟩
  · intro hstr hls hd
    have hstates : σ.state = SCE_NSIS_STRINGSQ ∨ σ.state = SCE_NSIS_STRINGDQ ∨
        σ.state = SCE_NSIS_STRINGBT := by
      have := hstr
      simp [isStringStyle] at this
      tauto
    by_cases hc : σ.lineContinuation <;>
      rcases hstates with hst | hst | hst <;>
      simp [switchOnce, handleStringState, hst, hls, hd, hc, isStringStyle,
        SCE_NSIS_OPERATOR, SCE_NSIS_NUMBER, SCE_NSIS_IDENTIFIER, SCE_NSIS_STRINGSQ,
        SCE_NSIS_STRINGDQ, SCE_NSIS_STRINGBT]
  · intro hst hls
    by_cases hc : σ.lineContinuation <;>
      simp [switchOnce, hst, hls, hc, isStringStyle, SCE_NSIS_OPERATOR,
        SCE_NSIS_NUMBER, SCE_NSIS_IDENTIFIER, SCE_NSIS_STRINGSQ, SCE_NSIS_STRINGDQ,
        SCE_NSIS_STRINGBT, SCE_NSIS_VARIABLE, SCE_NSIS_VARIABLE_BRACE,
        SCE_NSIS_VARIABLE_PAREN, SCE_NSIS_COMMENTLINE]

/-- Witness for C3: an unterminated single-quoted string force-closes at the
start of a non-continued line beginning with `x`. -/
theorem nsis_C3_line_boundary_witness :
    switchOnce [] "'a\nx\n".toList 5
      { pos := 3, state := SCE_NSIS_STRINGSQ, segStart := 0
        styles := [], visibleChars := 0, lineContinuation := false
        lineStateLineType := 0, variableOuter := SCE_NSIS_DEFAULT, lineStates := [(0, 0)] } =
      .fall (setState
        { pos := 3, state := SCE_NSIS_STRINGSQ, segStart := 0
          styles := [], visibleChars := 0, lineContinuation := false
          lineStateLineType := 0, variableOuter := SCE_NSIS_DEFAULT, lineStates := [(0, 0)] }
        SCE_NSIS_DEFAULT) := by
  have h := nsis_C3_line_boundary [] "'a\nx\n".toList 5
    { pos := 3, state := SCE_NSIS_STRINGSQ, segStart := 0
      styles := [], visibleChars := 0, lineContinuation := false
      lineStateLineType := 0, variableOuter := SCE_NSIS_DEFAULT, lineStates := [(0, 0)] }
  have h1 := h.1 (by decide) (by decide) (by decide)
  simpa using h1

/-! ## Claim C10: the saved variable-return state -/

/-- The invariant: the saved variable-return state is `Default` or a string state. -/
def VarOuterOK (σ : ScanState) : Prop :=
  σ.variableOuter = SCE_NSIS_DEFAULT ∨ isStringStyle σ.variableOuter = true

lemma varOuterOK_setState (σ : ScanState) (st : Style) (h : VarOuterOK σ) :
    VarOuterOK (setState σ st) := h

lemma varOuterOK_forward (endPos : Nat) (σ : ScanState) (h : VarOuterOK σ) :
    VarOuterOK (forward endPos σ) := h

lemma identClose_vo (kw : List (List Char)) (doc : List Char) (σ : ScanState) :
    (identClose kw doc σ).variableOuter = σ.variableOuter := by
  simp only [identClose]
  split
  · split
    · rfl
    · split <;> rfl
  · split
    · split
      · rfl
      · split <;> rfl
    · rfl

/-- The state carried by a `SwitchRes`, whichever constructor it is. -/
def SwitchRes.st : SwitchRes → ScanState
  | .cont σ => σ
  | .fall σ => σ
  | .again σ => σ

lemma handleStringState_vo (doc : List Char) (endPos : Nat) (σ : ScanState)
    (hstr : isStringStyle σ.state = true) (h : VarOuterOK σ) :
    VarOuterOK (handleStringState doc endPos σ).st := by
  unfold handleStringState
  dsimp only
  repeat' split
  all_goals first
    | exact h
    | exact Or.inr hstr

lemma switchOnce_vo (kw : List (List Char)) (doc : List Char) (endPos : Nat)
    (σ : ScanState) (h : VarOuterOK σ) :
    VarOuterOK (switchOnce kw doc endPos σ).st := by
  unfold switchOnce
  dsimp only
  repeat' split
  all_goals try exact handleStringState_vo doc endPos σ (by assumption) h
  all_goals try exact h
  all_goals (show VarOuterOK (identClose kw doc σ); unfold VarOuterOK)
  all_goals rw [identClose_vo]
  all_goals exact h

lemma dispatchDefault_vo (doc : List Char) (endPos : Nat) (σ : ScanState)
    (h : VarOuterOK σ) : VarOuterOK (dispatchDefault doc endPos σ) := by
  unfold dispatchDefault
  dsimp only
  by_cases h0 : σ.state = SCE_NSIS_DEFAULT
  case neg => rw [if_neg h0]; exact h
  rw [if_pos h0]
  by_cases c1 : charAt doc σ.pos = ';' ∨ charAt doc σ.pos = '#'
  · rw [if_pos c1]
    by_cases cv : σ.visibleChars = 0
    · rw [if_pos cv]; exact h
    · rw [if_neg cv]; exact h
  rw [if_neg c1]
  by_cases c2 : charAt doc σ.pos = '/' ∧ charAt doc (σ.pos + 1) = '*'
  · rw [if_pos c2]; exact h
  rw [if_neg c2]
  by_cases c3 : charAt doc σ.pos = '\''
  · rw [if_pos c3]; exact h
  rw [if_neg c3]
  by_cases c4 : charAt doc σ.pos = '"'
  · rw [if_pos c4]; exact h
  rw [if_neg c4]
  by_cases c5 : charAt doc σ.pos = '`'
  · rw [if_pos c5]; exact h
  rw [if_neg c5]
  by_cases c6 : IsNumberStart (charAt doc σ.pos) (charAt doc (σ.pos + 1)) = true
  · rw [if_pos c6]; exact h
  rw [if_neg c6]
  by_cases c7 : charAt doc σ.pos = '$' ∧ IsIdentifierChar (charAt doc (σ.pos + 1)) = true
  · rw [if_pos c7]; exact Or.inl rfl
  rw [if_neg c7]
  by_cases c8 : charAt doc σ.pos = '$' ∧
      (charAt doc (σ.pos + 1) = '{' ∨ charAt doc (σ.pos + 1) = '(')
  · rw [if_pos c8]; exact Or.inl rfl
  rw [if_neg c8]
  by_cases c9 : (σ.visibleChars = 0 ∧ charAt doc σ.pos = '!') ∨
      IsIdentifierStart (charAt doc σ.pos) = true
  · rw [if_pos c9]; exact h
  rw [if_neg c9]
  by_cases c10 : isoperator (charAt doc σ.pos) = true
  · rw [if_pos c10]; exact h
  rw [if_neg c10]
  exact h

lemma bookkeep_vo (doc : List Char) (σ : ScanState) (h : VarOuterOK σ) :
    VarOuterOK (bookkeep doc σ) := by
  unfold bookkeep
  dsimp only
  repeat' split
  all_goals exact h

lemma scanStep_vo (kw : List (List Char)) (doc : List Char) (endPos : Nat)
    (σ : ScanState) (h : VarOuterOK σ) : VarOuterOK (scanStep kw doc endPos σ) := by
  unfold scanStep
  dsimp only
  have h1 := switchOnce_vo kw doc endPos σ h
  cases hsw : switchOnce kw doc endPos σ with
  | cont σ' =>
    rw [hsw] at h1
    simp only [SwitchRes.st] at h1
    dsimp only
    exact h1
  | fall σ' =>
    rw [hsw] at h1
    simp only [SwitchRes.st] at h1
    dsimp only
    exact varOuterOK_forward _ _ (bookkeep_vo _ _ (dispatchDefault_vo _ _ _ h1))
  | again σ' =>
    rw [hsw] at h1
    simp only [SwitchRes.st] at h1
    dsimp only
    have h2 := switchOnce_vo kw doc endPos σ' h1
    cases hsw2 : switchOnce kw doc endPos σ' with
    | cont σ'' =>
      rw [hsw2] at h2
      simp only [SwitchRes.st] at h2
      dsimp only
      exact h2
    | fall σ'' =>
      rw [hsw2] at h2
      simp only [SwitchRes.st] at h2
      dsimp only
      exact varOuterOK_forward _ _ (bookkeep_vo _ _ (dispatchDefault_vo _ _ _ h2))
    | again σ'' =>
      rw [hsw2] at h2
      simp only [SwitchRes.st] at h2
      dsimp only
      exact varOuterOK_forward _ _ (bookkeep_vo _ _ (dispatchDefault_vo _ _ _ h2))

lemma scanLoop_vo (kw : List (List Char)) (doc : List Char) (endPos : Nat)
    (fuel : Nat) (σ : ScanState) (h : VarOuterOK σ) :
    VarOuterOK (scanLoop kw doc endPos fuel σ) := by
  induction fuel generalizing σ with
  | zero => exact h
  | succ n ih =>
    unfold scanLoop
    split
    · exact ih _ (scanStep_vo kw doc endPos σ h)
    · exact h

/-- C10: in every reachable scanner state — after any number of iterations from
any invocation's initial state — the saved variable-return state `variableOuter`
is `Default` or one of the three string states; consequently closing a bare
`Variable` span (`continue` back into the outer state) and closing a braced or
parenthesized variable both return to that saved `Default`-or-string state. -/
theorem nsis_C10_variable_outer (kw : List (List Char)) (doc : List Char)
    (endPos fuel startPos : Nat) (initStyle : Style) (store : LineStore) :
    (let σ := scanLoop kw doc endPos fuel (initScan doc startPos initStyle store)
     σ.variableOuter = SCE_NSIS_DEFAULT ∨ isStringStyle σ.variableOuter = true) ∧
    (∀ τ : ScanState, τ.state = SCE_NSIS_VARIABLE →
      IsIdentifierChar (charAt doc τ.pos) = false →
      switchOnce kw doc endPos τ = .again (setState τ τ.variableOuter) ∧
      (setState τ τ.variableOuter).state = τ.variableOuter) ∧
    (∀ τ : ScanState, τ.state = SCE_NSIS_VARIABLE_BRACE →
      charAt doc τ.pos = '}' →
      switchOnce kw doc endPos τ = .cont (forwardSetState endPos τ τ.variableOuter) ∧
      (forwardSetState endPos τ τ.variableOuter).state = τ.variableOuter) ∧
    (∀ τ : ScanState, τ.state = SCE_NSIS_VARIABLE_PAREN →
      charAt doc τ.pos = ')' →
      switchOnce kw doc endPos τ = .cont (forwardSetState endPos τ τ.variableOuter) ∧
      (forwardSetState endPos τ τ.variableOuter).state = τ.variableOuter) := by
  refine ⟨?_, ?_, ?_, ?_⟩
  · have h0 : VarOuterOK (initScan doc startPos initStyle store) := by
      unfold initScan VarOuterOK
      dsimp only
      repeat' split
      all_goals exact Or.inl rfl
    exact scanLoop_vo kw doc endPos fuel _ h0
  · intro τ hst hch
    constructor
    · simp [switchOnce, hst, hch, isStringStyle, SCE_NSIS_OPERATOR, SCE_NSIS_NUMBER,
        SCE_NSIS_IDENTIFIER, SCE_NSIS_STRINGSQ, SCE_NSIS_STRINGDQ, SCE_NSIS_STRINGBT,
        SCE_NSIS_VARIABLE]
    · rfl
  · intro τ hst hch
    constructor
    · simp [switchOnce, hst, hch, isStringStyle, SCE_NSIS_OPERATOR, SCE_NSIS_NUMBER,
        SCE_NSIS_IDENTIFIER, SCE_NSIS_STRINGSQ, SCE_NSIS_STRINGDQ, SCE_NSIS_STRINGBT,
        SCE_NSIS_VARIABLE, SCE_NSIS_VARIABLE_BRACE, SCE_NSIS_VARIABLE_PAREN]
    · rfl
  · intro τ hst hch
    constructor
    · simp [switchOnce, hst, hch, isStringStyle, SCE_NSIS_OPERATOR, SCE_NSIS_NUMBER,
        SCE_NSIS_IDENTIFIER, SCE_NSIS_STRINGSQ, SCE_NSIS_STRINGDQ, SCE_NSIS_STRINGBT,
        SCE_NSIS_VARIABLE, SCE_NSIS_VARIABLE_BRACE, SCE_NSIS_VARIABLE_PAREN]
    · rfl

/-- Witness for C10: closing a braced variable inside a double-quoted string
returns to the saved string state. -/
theorem nsis_C10_variable_outer_witness :
    switchOnce [] "\"${V}\"\n".toList 7
      { pos := 4, state := SCE_NSIS_VARIABLE_BRACE, segStart := 1
        styles := [SCE_NSIS_STRINGDQ], visibleChars := 1, lineContinuation := false
        lineStateLineType := 0, variableOuter := SCE_NSIS_STRINGDQ, lineStates := [] } =
      .cont (forwardSetState 7
        { pos := 4, state := SCE_NSIS_VARIABLE_BRACE, segStart := 1
          styles := [SCE_NSIS_STRINGDQ], visibleChars := 1, lineContinuation := false
          lineStateLineType := 0, variableOuter := SCE_NSIS_STRINGDQ, lineStates := [] }
        SCE_NSIS_STRINGDQ) := by
  have h := (nsis_C10_variable_outer [] "\"${V}\"\n".toList 7 0 0 SCE_NSIS_DEFAULT []).2.2.1
    { pos := 4, state := SCE_NSIS_VARIABLE_BRACE, segStart := 1
      styles := [SCE_NSIS_STRINGDQ], visibleChars := 1, lineContinuation := false
      lineStateLineType := 0, variableOuter := SCE_NSIS_STRINGDQ, lineStates := [] }
    rfl (by decide)
  exact h.1

/-! ## Claim C9: totality, and a classification for every byte -/

/-- The flush invariant of the scanner: the styles written so far cover exactly
`[s0, segStart)`, and `segStart ≤ pos ≤ e`. -/
def Tracks (s0 e : Nat) (σ : ScanState) : Prop :=
  s0 ≤ σ.segStart ∧ σ.segStart ≤ σ.pos ∧ σ.pos ≤ e ∧
    σ.styles.length + s0 = σ.segStart

lemma tracks_setState {s0 e : Nat} {σ : ScanState} (st : Style)
    (h : Tracks s0 e σ) : Tracks s0 e (setState σ st) := by
  obtain ⟨h1, h2, h3, h4⟩ := h
  refine ⟨?_, ?_, h3, ?_⟩ <;> simp [setState] <;> omega

lemma tracks_forward {s0 e : Nat} {σ : ScanState}
    (h : Tracks s0 e σ) : Tracks s0 e (forward e σ) := by
  obtain ⟨h1, h2, h3, h4⟩ := h
  refine ⟨h1, ?_, ?_, h4⟩ <;> simp [forward] <;> omega

lemma bookkeep_fields (doc : List Char) (σ : ScanState) :
    (bookkeep doc σ).pos = σ.pos ∧ (bookkeep doc σ).segStart = σ.segStart ∧
    (bookkeep doc σ).styles = σ.styles ∧ (bookkeep doc σ).state = σ.state := by
  unfold bookkeep
  dsimp only
  repeat' split
  all_goals exact ⟨rfl, rfl, rfl, rfl⟩

lemma tracks_bookkeep {s0 e : Nat} {σ : ScanState} (doc : List Char)
    (h : Tracks s0 e σ) : Tracks s0 e (bookkeep doc σ) := by
  obtain ⟨f1, f2, f3, -⟩ := bookkeep_fields doc σ
  unfold Tracks
  rw [f1, f2, f3]
  exact h

lemma tracks_identClose {s0 e : Nat} {σ : ScanState} (kw : List (List Char))
    (doc : List Char) (hst : σ.state = SCE_NSIS_IDENTIFIER)
    (h : Tracks s0 e σ) : Tracks s0 e (identClose kw doc σ) := by
  obtain ⟨h1, h2, h3, h4⟩ := h
  obtain ⟨g1, -, g3, g4, -, -⟩ := identClose_spec kw doc σ hst
  refine ⟨?_, ?_, ?_, ?_⟩
  · rw [g4]; omega
  · rw [g3, g4]
  · rw [g3]; omega
  · rw [g1, g4]; simp; omega

lemma tracks_dispatchDefault {s0 e : Nat} {σ : ScanState} (doc : List Char)
    (h : Tracks s0 e σ) : Tracks s0 e (dispatchDefault doc e σ) := by
  unfold dispatchDefault
  dsimp only
  by_cases h0 : σ.state = SCE_NSIS_DEFAULT
  case neg => rw [if_neg h0]; exact h
  rw [if_pos h0]
  by_cases c1 : charAt doc σ.pos = ';' ∨ charAt doc σ.pos = '#'
  · rw [if_pos c1]
    by_cases cv : σ.visibleChars = 0
    · rw [if_pos cv]; exact tracks_setState SCE_NSIS_COMMENTLINE h
    · rw [if_neg cv]; exact tracks_setState SCE_NSIS_COMMENTLINE h
  rw [if_neg c1]
  by_cases c2 : charAt doc σ.pos = '/' ∧ charAt doc (σ.pos + 1) = '*'
  · rw [if_pos c2]; exact tracks_forward (tracks_setState _ h)
  rw [if_neg c2]
  by_cases c3 : charAt doc σ.pos = '\''
  · rw [if_pos c3]; exact tracks_setState _ h
  rw [if_neg c3]
  by_cases c4 : charAt doc σ.pos = '"'
  · rw [if_pos c4]; exact tracks_setState _ h
  rw [if_neg c4]
  by_cases c5 : charAt doc σ.pos = '`'
  · rw [if_pos c5]; exact tracks_setState _ h
  rw [if_neg c5]
  by_cases c6 : IsNumberStart (charAt doc σ.pos) (charAt doc (σ.pos + 1)) = true
  · rw [if_pos c6]; exact tracks_setState _ h
  rw [if_neg c6]
  by_cases c7 : charAt doc σ.pos = '$' ∧ IsIdentifierChar (charAt doc (σ.pos + 1)) = true
  · rw [if_pos c7]; exact tracks_setState _ h
  rw [if_neg c7]
  by_cases c8 : charAt doc σ.pos = '$' ∧
      (charAt doc (σ.pos + 1) = '{' ∨ charAt doc (σ.pos + 1) = '(')
  · rw [if_pos c8]; exact tracks_setState _ h
  rw [if_neg c8]
  by_cases c9 : (σ.visibleChars = 0 ∧ charAt doc σ.pos = '!') ∨
      IsIdentifierStart (charAt doc σ.pos) = true
  · rw [if_pos c9]; exact tracks_setState _ h
  rw [if_neg c9]
  by_cases c10 : isoperator (charAt doc σ.pos) = true
  · rw [if_pos c10]; exact tracks_setState _ h
  rw [if_neg c10]
  exact h

lemma dispatchDefault_pos_ge (doc : List Char) (e : Nat) (σ : ScanState)
    (hpe : σ.pos ≤ e) : σ.pos ≤ (dispatchDefault doc e σ).pos := by
  unfold dispatchDefault
  by_cases h0 : σ.state = SCE_NSIS_DEFAULT
  case neg => rw [if_neg h0]
  rw [if_pos h0]
  by_cases c1 : charAt doc σ.pos = ';' ∨ charAt doc σ.pos = '#'
  · rw [if_pos c1]
    by_cases cv : σ.visibleChars = 0
    · rw [if_pos cv]; exact le_rfl
    · rw [if_neg cv]; exact le_rfl
  rw [if_neg c1]
  by_cases c2 : charAt doc σ.pos = '/' ∧ charAt doc (σ.pos + 1) = '*'
  · rw [if_pos c2]
    simp only [forward, setState]
    omega
  rw [if_neg c2]
  by_cases c3 : charAt doc σ.pos = '\''
  · rw [if_pos c3]; exact le_rfl
  rw [if_neg c3]
  by_cases c4 : charAt doc σ.pos = '"'
  · rw [if_pos c4]; exact le_rfl
  rw [if_neg c4]
  by_cases c5 : charAt doc σ.pos = '`'
  · rw [if_pos c5]; exact le_rfl
  rw [if_neg c5]
  by_cases c6 : IsNumberStart (charAt doc σ.pos) (charAt doc (σ.pos + 1)) = true
  · rw [if_pos c6]; exact le_rfl
  rw [if_neg c6]
  by_cases c7 : charAt doc σ.pos = '$' ∧ IsIdentifierChar (charAt doc (σ.pos + 1)) = true
  · rw [if_pos c7]; exact le_rfl
  rw [if_neg c7]
  by_cases c8 : charAt doc σ.pos = '$' ∧
      (charAt doc (σ.pos + 1) = '{' ∨ charAt doc (σ.pos + 1) = '(')
  · rw [if_pos c8]; exact le_rfl
  rw [if_neg c8]
  by_cases c9 : (σ.visibleChars = 0 ∧ charAt doc σ.pos = '!') ∨
      IsIdentifierStart (charAt doc σ.pos) = true
  · rw [if_pos c9]; exact le_rfl
  rw [if_neg c9]
  by_cases c10 : isoperator (charAt doc σ.pos) = true
  · rw [if_pos c10]; exact le_rfl
  rw [if_neg c10]

lemma tracks_forwardSetState {s0 e : Nat} {σ : ScanState} (st : Style)
    (h : Tracks s0 e σ) : Tracks s0 e (forwardSetState e σ st) :=
  tracks_setState st (tracks_forward h)

lemma handleStringState_tracks (doc : List Char) {s0 e : Nat} {σ : ScanState}
    (h : Tracks s0 e σ) :
    Tracks s0 e (handleStringState doc e σ).st ∧
      σ.pos ≤ (handleStringState doc e σ).st.pos ∧
      (∀ σ', handleStringState doc e σ = .cont σ' → σ.pos < e → σ.pos < σ'.pos) ∧
      (∀ σ', handleStringState doc e σ = .again σ' → σ'.pos = σ.pos) := by
  obtain ⟨-, -, h3, -⟩ := id h
  unfold handleStringState
  dsimp only
  repeat' split
  all_goals simp only [SwitchRes.st, forwardSetState]
  all_goals refine ⟨?_, ?_, ?_, ?_⟩
  all_goals try ((repeat first | apply tracks_setState | apply tracks_forward); exact h)
  all_goals try (intro σ' hc hlt)
  all_goals try (intro σ' hc)
  all_goals try (simp at hc)
  all_goals try (subst hc)
  all_goals try simp only [forwardSetState, setState, forward]
  all_goals omega

lemma switchOnce_tracks (kw : List (List Char)) (doc : List Char) {s0 e : Nat}
    {σ : ScanState} (h : Tracks s0 e σ) :
    Tracks s0 e (switchOnce kw doc e σ).st ∧
      σ.pos ≤ (switchOnce kw doc e σ).st.pos ∧
      (∀ σ', switchOnce kw doc e σ = .cont σ' → σ.pos < e → σ.pos < σ'.pos) ∧
      (∀ σ', switchOnce kw doc e σ = .again σ' → σ'.pos = σ.pos) := by
  obtain ⟨-, -, h3, -⟩ := id h
  refine ⟨?_, ?_, ?_, ?_⟩
  · unfold switchOnce
    dsimp only
    repeat' split
    all_goals try simp only [SwitchRes.st, forwardSetState]
    all_goals try exact (handleStringState_tracks doc h).1
    all_goals try exact tracks_identClose kw doc (by assumption) h
    all_goals ((repeat first | apply tracks_setState | apply tracks_forward); exact h)
  · unfold switchOnce
    dsimp only
    repeat' split
    all_goals try exact (handleStringState_tracks doc h).2.1
    all_goals try exact le_of_eq ((identClose_spec kw doc σ (by assumption)).2.2.1).symm
    all_goals simp only [SwitchRes.st, forwardSetState, setState, forward]
    all_goals omega
  · unfold switchOnce
    dsimp only
    repeat' split
    all_goals try exact (handleStringState_tracks doc h).2.2.1
    all_goals intro σ' hc hlt
    all_goals try (simp at hc)
    all_goals try (subst hc)
    all_goals simp only [forwardSetState, setState, forward]
    all_goals omega
  · unfold switchOnce
    dsimp only
    repeat' split
    all_goals try exact (handleStringState_tracks doc h).2.2.2
    all_goals intro σ' hc
    all_goals try (simp at hc)
    all_goals try (subst hc)
    all_goals try simp only [forwardSetState, setState, forward]
    all_goals omega

lemma scanStep_tracks (kw : List (List Char)) (doc : List Char) {s0 e : Nat}
    {σ : ScanState} (h : Tracks s0 e σ) :
    Tracks s0 e (scanStep kw doc e σ) ∧
      (σ.pos < e → σ.pos < (scanStep kw doc e σ).pos) := by
  unfold scanStep
  dsimp only
  obtain ⟨t1, p1, c1, a1⟩ := switchOnce_tracks kw doc h
  cases hsw : switchOnce kw doc e σ with
  | cont σ' =>
    rw [hsw] at t1 p1
    simp only [SwitchRes.st] at t1 p1
    dsimp only
    exact ⟨t1, c1 σ' hsw⟩
  | fall σ' =>
    rw [hsw] at t1 p1
    simp only [SwitchRes.st] at t1 p1
    dsimp only
    constructor
    · exact tracks_forward (tracks_bookkeep doc (tracks_dispatchDefault doc t1))
    · intro hlt
      have hd := dispatchDefault_pos_ge doc e σ' t1.2.2.1
      have hb := (bookkeep_fields doc (dispatchDefault doc e σ')).1
      simp only [forward]
      rw [hb]
      omega
  | again σ' =>
    rw [hsw] at t1 p1
    simp only [SwitchRes.st] at t1 p1
    dsimp only
    have hpe := a1 σ' hsw
    obtain ⟨t2, p2, c2, a2⟩ := switchOnce_tracks kw doc t1
    cases hsw2 : switchOnce kw doc e σ' with
    | cont σ'' =>
      rw [hsw2] at t2 p2
      simp only [SwitchRes.st] at t2 p2
      dsimp only
      refine ⟨t2, fun hlt => ?_⟩
      have := c2 σ'' hsw2 (by omega)
      omega
    | fall σ'' =>
      rw [hsw2] at t2 p2
      simp only [SwitchRes.st] at t2 p2
      dsimp only
      constructor
      · exact tracks_forward (tracks_bookkeep doc (tracks_dispatchDefault doc t2))
      · intro hlt
        have hd := dispatchDefault_pos_ge doc e σ'' t2.2.2.1
        have hb := (bookkeep_fields doc (dispatchDefault doc e σ'')).1
        simp only [forward]
        rw [hb]
        omega
    | again σ'' =>
      rw [hsw2] at t2 p2
      simp only [SwitchRes.st] at t2 p2
      dsimp only
      constructor
      · exact tracks_forward (tracks_bookkeep doc (tracks_dispatchDefault doc t2))
      · intro hlt
        have hd := dispatchDefault_pos_ge doc e σ'' t2.2.2.1
        have hb := (bookkeep_fields doc (dispatchDefault doc e σ'')).1
        simp only [forward]
        rw [hb]
        omega

/-- With fuel at least `e - pos`, the scanner loop halts exactly at the end of
the range, preserving the flush invariant. -/
lemma scanLoop_run (kw : List (List Char)) (doc : List Char) {s0 e : Nat} :
    ∀ (fuel : Nat) (σ : ScanState), Tracks s0 e σ → e ≤ σ.pos + fuel →
      Tracks s0 e (scanLoop kw doc e fuel σ) ∧ (scanLoop kw doc e fuel σ).pos = e := by
  intro fuel
  induction fuel with
  | zero =>
    intro σ h hf
    obtain ⟨-, -, h3, -⟩ := id h
    refine ⟨h, ?_⟩
    simp only [scanLoop]
    omega
  | succ n ih =>
    intro σ h hf
    obtain ⟨-, -, h3, -⟩ := id h
    unfold scanLoop
    by_cases hlt : σ.pos < e
    · rw [if_pos hlt]
      obtain ⟨h', hadv⟩ := scanStep_tracks kw doc h
      have hadv' := hadv hlt
      exact ih _ h' (by omega)
    · rw [if_neg hlt]
      exact ⟨h, by omega⟩

/-- A loop started at or past the end of the range does nothing. -/
lemma scanLoop_stuck (kw : List (List Char)) (doc : List Char) (e : Nat)
    (fuel : Nat) (σ : ScanState) (h : e ≤ σ.pos) :
    scanLoop kw doc e fuel σ = σ := by
  cases fuel with
  | zero => rfl
  | succ n =>
    unfold scanLoop
    rw [if_neg (by omega)]

lemma initScan_fields (doc : List Char) (s : Nat) (ist : Style) (store : LineStore) :
    (initScan doc s ist store).pos = s ∧ (initScan doc s ist store).segStart = s ∧
    (initScan doc s ist store).styles = [] ∧
    (initScan doc s ist store).lineStates = store := by
  unfold initScan
  dsimp only
  repeat' split
  all_goals exact ⟨rfl, rfl, rfl, rfl⟩

/-- The scanner styles exactly the requested range: one style per byte. -/
lemma ColouriseNSISDoc_styles_length (kw : List (List Char)) (doc : List Char)
    (startPos lengthDoc : Nat) (initStyle : Style) (store : LineStore) :
    (ColouriseNSISDoc kw doc startPos lengthDoc initStyle store).styles.length =
      min (startPos + lengthDoc) doc.length - startPos := by
  unfold ColouriseNSISDoc
  dsimp only
  obtain ⟨f1, f2, f3, -⟩ := initScan_fields doc startPos initStyle store
  by_cases hs : startPos ≤ min (startPos + lengthDoc) doc.length
  · have h0 : Tracks startPos (min (startPos + lengthDoc) doc.length)
        (initScan doc startPos initStyle store) := by
      refine ⟨?_, ?_, ?_, ?_⟩
      · rw [f2]
      · rw [f1, f2]
      · rw [f1]; exact hs
      · rw [f2, f3]; simp
    obtain ⟨ht, hpe⟩ := scanLoop_run kw doc
      (min (startPos + lengthDoc) doc.length - startPos)
      (initScan doc startPos initStyle store) h0 (by rw [f1]; omega)
    obtain ⟨k1, k2, k3, k4⟩ := ht
    simp only [completeScan, setState]
    simp
    omega
  · have hstk := scanLoop_stuck kw doc (min (startPos + lengthDoc) doc.length)
      (min (startPos + lengthDoc) doc.length - startPos)
      (initScan doc startPos initStyle store) (by rw [f1]; omega)
    rw [hstk]
    simp only [completeScan, setState]
    rw [f3, f1, f2]
    simp
    omega

/-- Number of newline bytes among positions `[a, a + n)`. -/
def nlCount (doc : List Char) : Nat → Nat → Nat
  | _, 0 => 0
  | a, n + 1 => (if charAt doc a = '\n' then 1 else 0) + nlCount doc (a + 1) n

lemma lineOf_zero (doc : List Char) : lineOf doc 0 = 0 := rfl

lemma lineOf_cons (c : Char) (rest : List Char) (i : Nat) :
    lineOf (c :: rest) (i + 1) = (if c = '\n' then 1 else 0) + lineOf rest i := by
  simp only [lineOf, List.take_succ_cons, List.filter_cons]
  by_cases hc : c = '\n' <;> simp [hc] <;> omega

lemma charAt_cons_succ (c : Char) (rest : List Char) (i : Nat) :
    charAt (c :: rest) (i + 1) = charAt rest i := rfl

lemma lineStartIdx_zero (doc : List Char) : lineStartIdx doc 0 = 0 := by
  cases doc <;> rfl

lemma lineStartIdx_cons (c : Char) (rest : List Char) (l : Nat) :
    lineStartIdx (c :: rest) (l + 1) =
      1 + lineStartIdx rest (if c = '\n' then l else l + 1) := rfl

/-- F2: the next line starts strictly after `i`. -/
lemma lineStartIdx_next_gt (doc : List Char) :
    ∀ i, i < doc.length → i + 1 ≤ lineStartIdx doc (lineOf doc i + 1) := by
  induction doc with
  | nil => intro i hi; simp at hi
  | cons c rest ih =>
    intro i hi
    cases i with
    | zero =>
      rw [lineOf_zero, Nat.zero_add, show (1 : Nat) = 0 + 1 from rfl, lineStartIdx_cons]
      omega
    | succ i =>
      have hi' : i < rest.length := by simpa using hi
      have hih := ih i hi'
      rw [lineOf_cons]
      by_cases hc : c = '\n'
      · simp only [hc, reduceIte]
        rw [lineStartIdx_cons]
        simp only [reduceIte]
        rw [Nat.add_comm 1 (lineOf rest i)]
        omega
      · simp only [hc, reduceIte, if_neg hc]
        rw [Nat.zero_add, lineStartIdx_cons, if_neg hc]
        omega

/-- F1a: at a newline byte, the next line starts exactly one position later. -/
lemma lineStartIdx_next_at_nl (doc : List Char) :
    ∀ i, i < doc.length → charAt doc i = '\n' →
      lineStartIdx doc (lineOf doc i + 1) = i + 1 := by
  induction doc with
  | nil => intro i hi; simp at hi
  | cons c rest ih =>
    intro i hi hnl
    cases i with
    | zero =>
      have hc : c = '\n' := hnl
      rw [lineOf_zero, Nat.zero_add, show (1 : Nat) = 0 + 1 from rfl, lineStartIdx_cons,
        if_pos hc, lineStartIdx_zero]
    | succ i =>
      have hi' : i < rest.length := by simpa using hi
      have hnl' : charAt rest i = '\n' := hnl
      have hih := ih i hi' hnl'
      rw [lineOf_cons]
      by_cases hc : c = '\n'
      · simp only [hc, reduceIte]
        rw [lineStartIdx_cons]
        simp only [reduceIte]
        rw [Nat.add_comm 1 (lineOf rest i), hih]
        omega
      · simp only [if_neg hc]
        rw [Nat.zero_add, lineStartIdx_cons, if_neg hc, hih]
        omega

/-- F1b: at a non-newline byte that is not the document's last, the next line
starts at least two positions later. -/
lemma lineStartIdx_next_not_nl (doc : List Char) :
    ∀ i, i + 1 < doc.length → charAt doc i ≠ '\n' →
      i + 2 ≤ lineStartIdx doc (lineOf doc i + 1) := by
  induction doc with
  | nil => intro i hi; simp at hi
  | cons c rest ih =>
    intro i hi hnl
    cases i with
    | zero =>
      have hc : c ≠ '\n' := hnl
      rw [lineOf_zero, Nat.zero_add, show (1 : Nat) = 0 + 1 from rfl, lineStartIdx_cons,
        if_neg hc]
      cases rest with
      | nil => simp at hi
      | cons d rest' =>
        rw [show (1 : Nat) = 0 + 1 from rfl, lineStartIdx_cons]
        omega
    | succ i =>
      have hi' : i + 1 < rest.length := by simpa using hi
      have hnl' : charAt rest i ≠ '\n' := hnl
      have hih := ih i hi' hnl'
      rw [lineOf_cons]
      by_cases hc : c = '\n'
      · simp only [hc, reduceIte]
        rw [lineStartIdx_cons]
        simp only [reduceIte]
        rw [Nat.add_comm 1 (lineOf rest i)]
        omega
      · simp only [if_neg hc]
        rw [Nat.zero_add, lineStartIdx_cons, if_neg hc]
        omega

/-- F3: crossing one byte bumps the line number exactly at a newline. -/
lemma lineOf_succ (doc : List Char) :
    ∀ i, i < doc.length →
      lineOf doc (i + 1) = lineOf doc i + (if charAt doc i = '\n' then 1 else 0) := by
  induction doc with
  | nil => intro i hi; simp at hi
  | cons c rest ih =>
    intro i hi
    cases i with
    | zero =>
      rw [lineOf_zero, lineOf_cons, lineOf_zero]
      by_cases hc : c = '\n' <;> simp [hc, charAt]
    | succ i =>
      have hi' : i < rest.length := by simpa using hi
      rw [lineOf_cons, lineOf_cons, charAt_cons_succ, ih i hi']
      omega

/-- The accumulation stage of one fold iteration (lines 223–259): style shift
plus Word/Preprocessor word capture and Comment level deltas. -/
def foldAccum (doc : List Char) (styleAt : Nat → Style) (fs : FoldState) : FoldState :=
  let stylePrev := fs.style
  let style := fs.styleNext
  let styleNext := styleAt (fs.i + 1)
  let fs1 : FoldState := { fs with style := style, styleNext := styleNext }
  if style = SCE_NSIS_WORD ∨ style = SCE_NSIS_PREPROCESSOR then
    let fs1 : FoldState :=
      if fs1.wordLen < MaxFoldWordLength then
        { fs1 with buf := fs1.buf ++ [MakeLowerCase (charAt doc fs1.i)],
                   wordLen := fs1.wordLen + 1 }
      else fs1
    if styleNext ≠ style then
      { fs1 with levelNext := fs1.levelNext + nsisFoldWordDelta style fs1.buf fs1.wordLen,
                 buf := [], wordLen := 0 }
    else fs1
  else if style = SCE_NSIS_COMMENT then
    if stylePrev ≠ style then { fs1 with levelNext := fs1.levelNext + 1 }
    else if styleNext ≠ style then { fs1 with levelNext := fs1.levelNext - 1 }
    else fs1
  else fs1

/-- The line-boundary stage of one fold iteration (lines 261–282) followed by
the `i++` increment. -/
def foldBoundary (doc : List Char) (store : LineStore) (endPos : Nat)
    (fs2 : FoldState) : FoldState :=
  if fs2.i = fs2.lineEndPos then
    let lineTypeNext := getLineState store (fs2.lineCurrent + 1) &&& NsisLineTypeMask
    let levelNext :=
      if fs2.lineTypeCurrent ≠ 0 then
        fs2.levelNext + ((if lineTypeNext = fs2.lineTypeCurrent then (1 : Int) else 0) -
          (if fs2.lineTypePrev = fs2.lineTypeCurrent then (1 : Int) else 0))
      else fs2.levelNext
    let newRec : FoldRecord :=
      { line := fs2.lineCurrent, levelUse := fs2.levelCurrent, levelNext := levelNext,
        header := decide (fs2.levelCurrent < levelNext) }
    let lineCurrent := fs2.lineCurrent + 1
    let lineStartNext := lineStartIdx doc (lineCurrent + 1)
    { fs2 with
      i := fs2.i + 1
      records := fs2.records ++ [newRec]
      lineCurrent := lineCurrent
      lineStartNext := lineStartNext
      lineEndPos := min lineStartNext endPos - 1
      levelCurrent := levelNext
      levelNext := levelNext
      lineTypePrev := fs2.lineTypeCurrent
      lineTypeCurrent := lineTypeNext }
  else { fs2 with i := fs2.i + 1 }

/-- One fold iteration splits into accumulation followed by the boundary check. -/
lemma foldStep_eq_accum (doc : List Char) (styleAt : Nat → Style) (store : LineStore)
    (endPos : Nat) (fs : FoldState) :
    foldStep doc styleAt store endPos fs =
      foldBoundary doc store endPos (foldAccum doc styleAt fs) := rfl

/-- The accumulation stage leaves position, line tracking and records unchanged. -/
lemma foldAccum_fields (doc : List Char) (styleAt : Nat → Style) (fs : FoldState) :
    (foldAccum doc styleAt fs).i = fs.i ∧
    (foldAccum doc styleAt fs).lineEndPos = fs.lineEndPos ∧
    (foldAccum doc styleAt fs).lineCurrent = fs.lineCurrent ∧
    (foldAccum doc styleAt fs).lineStartNext = fs.lineStartNext ∧
    (foldAccum doc styleAt fs).records = fs.records := by
  refine ⟨?_, ?_, ?_, ?_, ?_⟩ <;>
    (unfold foldAccum; dsimp only; repeat' split) <;> rfl

/-- What the boundary stage does to position, records and line tracking. -/
lemma foldBoundary_tracking (doc : List Char) (store : LineStore) (endPos : Nat)
    (fs2 : FoldState) :
    (foldBoundary doc store endPos fs2).i = fs2.i + 1 ∧
    (fs2.i = fs2.lineEndPos →
      (foldBoundary doc store endPos fs2).records.length = fs2.records.length + 1 ∧
      (foldBoundary doc store endPos fs2).lineCurrent = fs2.lineCurrent + 1 ∧
      (foldBoundary doc store endPos fs2).lineStartNext =
        lineStartIdx doc (fs2.lineCurrent + 1 + 1) ∧
      (foldBoundary doc store endPos fs2).lineEndPos =
        min (lineStartIdx doc (fs2.lineCurrent + 1 + 1)) endPos - 1) ∧
    (fs2.i ≠ fs2.lineEndPos →
      (foldBoundary doc store endPos fs2).records.length = fs2.records.length ∧
      (foldBoundary doc store endPos fs2).lineCurrent = fs2.lineCurrent ∧
      (foldBoundary doc store endPos fs2).lineStartNext = fs2.lineStartNext ∧
      (foldBoundary doc store endPos fs2).lineEndPos = fs2.lineEndPos) := by
  unfold foldBoundary
  by_cases hb : fs2.i = fs2.lineEndPos
  · rw [if_pos hb]
    exact ⟨rfl, fun _ => ⟨by simp, rfl, rfl, rfl⟩, fun hn => absurd hb hn⟩
  · rw [if_neg hb]
    exact ⟨rfl, fun h => absurd h hb, fun _ => ⟨rfl, rfl, rfl, rfl⟩⟩

/-- What one fold iteration does to the position, record list and line tracking. -/
lemma foldStep_tracking (doc : List Char) (styleAt : Nat → Style) (store : LineStore)
    (endPos : Nat) (fs : FoldState) :
    (foldStep doc styleAt store endPos fs).i = fs.i + 1 ∧
    (fs.i = fs.lineEndPos →
      (foldStep doc styleAt store endPos fs).records.length = fs.records.length + 1 ∧
      (foldStep doc styleAt store endPos fs).lineCurrent = fs.lineCurrent + 1 ∧
      (foldStep doc styleAt store endPos fs).lineStartNext =
        lineStartIdx doc (fs.lineCurrent + 1 + 1) ∧
      (foldStep doc styleAt store endPos fs).lineEndPos =
        min (lineStartIdx doc (fs.lineCurrent + 1 + 1)) endPos - 1) ∧
    (fs.i ≠ fs.lineEndPos →
      (foldStep doc styleAt store endPos fs).records.length = fs.records.length ∧
      (foldStep doc styleAt store endPos fs).lineCurrent = fs.lineCurrent ∧
      (foldStep doc styleAt store endPos fs).lineStartNext = fs.lineStartNext ∧
      (foldStep doc styleAt store endPos fs).lineEndPos = fs.lineEndPos) := by
  obtain ⟨a1, a2, a3, a4, a5⟩ := foldAccum_fields doc styleAt fs
  obtain ⟨b1, b2, b3⟩ := foldBoundary_tracking doc store endPos (foldAccum doc styleAt fs)
  rw [foldStep_eq_accum]
  refine ⟨by rw [b1, a1], ?_, ?_⟩
  · intro hE
    obtain ⟨c1, c2, c3, c4⟩ := b2 (by rw [a1, a2]; exact hE)
    exact ⟨by rw [c1, a5], by rw [c2, a3], by rw [c3, a3], by rw [c4, a3]⟩
  · intro hE
    obtain ⟨c1, c2, c3, c4⟩ := b3 (by rw [a1, a2]; exact hE)
    exact ⟨by rw [c1, a5], by rw [c2, a3], by rw [c3, a4], by rw [c4, a2]⟩

/-- The fold loop emits one record per line boundary: with correct line
tracking, running `fuel` bytes to the end of the range appends
`nlCount + 1` records (`+1` for the final, possibly cut, line). -/
lemma foldLoop_records_len (doc : List Char) (styleAt : Nat → Style)
    (store : LineStore) (endPos : Nat) (hde : endPos ≤ doc.length) :
    ∀ (fuel : Nat) (fs : FoldState),
      fs.i + fuel = endPos →
      fs.lineCurrent = lineOf doc fs.i →
      fs.lineStartNext = lineStartIdx doc (fs.lineCurrent + 1) →
      fs.lineEndPos = min fs.lineStartNext endPos - 1 →
      (foldLoop doc styleAt store endPos fuel fs).records.length =
        fs.records.length + nlCount doc fs.i (fuel - 1) + (if fuel = 0 then 0 else 1) := by
  intro fuel
  induction fuel with
  | zero =>
    intro fs hif hlc hsn hep
    simp [foldLoop, nlCount]
  | succ n ih =>
    intro fs hif hlc hsn hep
    have hi_lt : fs.i < endPos := by omega
    have hi_doc : fs.i < doc.length := by omega
    have hF2 := lineStartIdx_next_gt doc fs.i hi_doc
    obtain ⟨g1, g2, g3⟩ := foldStep_tracking doc styleAt store endPos fs
    have hboundary : (fs.i = fs.lineEndPos) ↔
        (charAt doc fs.i = '\n' ∨ n = 0) := by
      rw [hep, hsn, hlc]
      constructor
      · intro hE
        by_cases hn : n = 0
        · exact Or.inr hn
        · left
          by_contra hnl
          have hi1 : fs.i + 1 < doc.length := by omega
          have := lineStartIdx_next_not_nl doc fs.i hi1 hnl
          omega
      · rintro (hnl | hn)
        · have := lineStartIdx_next_at_nl doc fs.i hi_doc hnl
          omega
        · omega
    unfold foldLoop
    by_cases hE : fs.i = fs.lineEndPos
    · obtain ⟨r1, r2, r3, r4⟩ := g2 hE
      by_cases hn : n = 0
      · subst hn
        simp only [foldLoop]
        rw [r1]
        simp [nlCount]
      · have hnl : charAt doc fs.i = '\n' := by
          rcases hboundary.mp hE with h | h
          · exact h
          · exact absurd h hn
        have hrec := ih (foldStep doc styleAt store endPos fs)
          (by rw [g1]; omega)
          (by rw [r2, g1, lineOf_succ doc fs.i hi_doc, if_pos hnl, hlc])
          (by rw [r3, r2])
          (by rw [r4, r3])
        rw [hrec, r1]
        have hcount : nlCount doc fs.i (n + 1 - 1) =
            1 + nlCount doc (fs.i + 1) (n - 1) := by
          obtain ⟨m, hm⟩ : ∃ m, n = m + 1 := ⟨n - 1, by omega⟩
          subst hm
          simp [nlCount, hnl]
        rw [g1, hcount]
        simp only [if_neg hn]
        simp
        omega
    · have hn : ¬ (n = 0) := by
        intro hn0
        exact hE (hboundary.mpr (Or.inr hn0))
      have hnl : charAt doc fs.i ≠ '\n' := by
        intro hnl
        exact hE (hboundary.mpr (Or.inl hnl))
      obtain ⟨r1, r2, r3, r4⟩ := g3 hE
      have hrec := ih (foldStep doc styleAt store endPos fs)
        (by rw [g1]; omega)
        (by rw [r2, g1, lineOf_succ doc fs.i hi_doc, if_neg hnl, hlc]; simp)
        (by rw [r3, hsn, r2])
        (by rw [r4, hep, r3])
      rw [hrec, r1]
      have hcount : nlCount doc fs.i (n + 1 - 1) =
          nlCount doc (fs.i + 1) (n - 1) := by
        obtain ⟨m, hm⟩ : ∃ m, n = m + 1 := ⟨n - 1, by omega⟩
        subst hm
        simp [nlCount, hnl]
      rw [g1, hcount]
      simp [hn]

/-- The fold pass emits exactly one record per line of the range. -/
lemma FoldNSISDoc_records_length (doc : List Char) (styleAt : Nat → Style)
    (store : LineStore) (startPos lengthDoc : Nat) (initStyle : Style)
    (levelPrev : Int) (hde : startPos + lengthDoc ≤ doc.length) :
    (FoldNSISDoc doc styleAt store startPos lengthDoc initStyle levelPrev).length =
      nlCount doc startPos (lengthDoc - 1) + (if lengthDoc = 0 then 0 else 1) := by
  have h := foldLoop_records_len doc styleAt store (startPos + lengthDoc) hde
    ((startPos + lengthDoc) - startPos)
    { i := startPos
      lineCurrent := lineOf doc startPos
      lineStartNext := lineStartIdx doc (lineOf doc startPos + 1)
      lineEndPos := min (lineStartIdx doc (lineOf doc startPos + 1))
        (startPos + lengthDoc) - 1
      levelCurrent := if lineOf doc startPos > 0 then levelPrev else SC_FOLDLEVELBASE
      levelNext := if lineOf doc startPos > 0 then levelPrev else SC_FOLDLEVELBASE
      lineTypePrev := if lineOf doc startPos > 0 then
        getLineState store (lineOf doc startPos - 1) &&& NsisLineTypeMask else 0
      lineTypeCurrent := getLineState store (lineOf doc startPos) &&& NsisLineTypeMask
      buf := []
      wordLen := 0
      style := initStyle
      styleNext := styleAt startPos
      records := [] }
    (by show startPos + (startPos + lengthDoc - startPos) = startPos + lengthDoc; omega)
    rfl rfl rfl
  unfold FoldNSISDoc
  dsimp only
  rw [h]
  have harith : startPos + lengthDoc - startPos = lengthDoc := by omega
  rw [harith]
  simp

/-- Malformed probe input for the totality claim: an unterminated
double-quoted string on line 0 and an unterminated block comment with a
dangling `$` at end-of-range. -/
def nsisC9Doc : List Char := ("\"abc\n/* $").toList

/-- Style lookup over the cold scan of the malformed probe input. -/
def nsisC9StyleAt : Nat → Style := styleOf (scanDoc [] nsisC9Doc)

/-- **C9.** Both passes are total functions whose outputs cover the whole
requested range, malformed input included: the scanner emits exactly one style
per byte offset of the range, and the fold pass emits exactly one fold record
per line touched by the range (one per newline inside it, plus one for the
final, possibly unterminated, line). -/
theorem nsis_C9_total_coverage (kw : List (List Char)) (doc : List Char)
    (startPos lengthDoc : Nat) (initStyle : Style) (store : LineStore)
    (styleAt : Nat → Style) (foldInit : Style) (levelPrev : Int)
    (hrange : startPos + lengthDoc ≤ doc.length) :
    (ColouriseNSISDoc kw doc startPos lengthDoc initStyle store).styles.length =
      lengthDoc ∧
    (FoldNSISDoc doc styleAt store startPos lengthDoc foldInit levelPrev).length =
      nlCount doc startPos (lengthDoc - 1) + (if lengthDoc = 0 then 0 else 1) := by
  constructor
  · rw [ColouriseNSISDoc_styles_length]
    omega
  · exact FoldNSISDoc_records_length doc styleAt store startPos lengthDoc
      foldInit levelPrev hrange

/-- C9 at a concrete malformed input: unterminated string, unterminated block
comment, dangling `$`. -/
theorem nsis_C9_total_coverage_witness :
    0 + 9 ≤ nsisC9Doc.length ∧
    ((ColouriseNSISDoc [] nsisC9Doc 0 9 SCE_NSIS_DEFAULT
        (scanDoc [] nsisC9Doc).lineStates).styles.length = 9 ∧
     (FoldNSISDoc nsisC9Doc nsisC9StyleAt (scanDoc [] nsisC9Doc).lineStates 0 9
        SCE_NSIS_DEFAULT 0).length =
       nlCount nsisC9Doc 0 (9 - 1) + (if (9 : Nat) = 0 then 0 else 1)) :=
  ⟨by decide,
   nsis_C9_total_coverage [] nsisC9Doc 0 9 SCE_NSIS_DEFAULT
     (scanDoc [] nsisC9Doc).lineStates nsisC9StyleAt SCE_NSIS_DEFAULT 0 (by decide)⟩

/-! ## C1: split resumability of the scanner -/

/-! ## Small character, bit and store lemmas used by the resumability proof -/

/-- An identifier character is not whitespace. -/
lemma identChar_not_space {c : Char} (h : IsIdentifierChar c = true) :
    isspacechar c = false := by
  have hb : (65 ≤ c.toNat ∧ c.toNat ≤ 90) ∨ (97 ≤ c.toNat ∧ c.toNat ≤ 122) ∨
      (48 ≤ c.toNat ∧ c.toNat ≤ 57) ∨ c.toNat = 95 := by
    simp only [IsIdentifierChar, Char.isAlphanum, Char.isAlpha, Char.isUpper,
      Char.isLower, Char.isDigit, Bool.or_eq_true, Bool.and_eq_true,
      decide_eq_true_eq, ge_iff_le] at h
    rcases h with ((⟨h1, h2⟩ | ⟨h1, h2⟩) | ⟨h1, h2⟩) | h1
    · exact Or.inl ⟨h1, h2⟩
    · exact Or.inr (Or.inl ⟨h1, h2⟩)
    · exact Or.inr (Or.inr (Or.inl ⟨h1, h2⟩))
    · subst h1; exact Or.inr (Or.inr (Or.inr (by decide)))
  simp only [isspacechar, Bool.or_eq_false_iff, Bool.and_eq_false_iff,
    decide_eq_false_iff_not]
  refine ⟨fun hc => ?_, by omega⟩
  subst hc
  revert hb
  decide

/-- An identifier-start character is not whitespace. -/
lemma identStart_not_space {c : Char} (h : IsIdentifierStart c = true) :
    isspacechar c = false := by
  have hb : (65 ≤ c.toNat ∧ c.toNat ≤ 90) ∨ (97 ≤ c.toNat ∧ c.toNat ≤ 122) ∨
      c.toNat = 95 := by
    simp only [IsIdentifierStart, Char.isAlpha, Char.isUpper,
      Char.isLower, Bool.or_eq_true, Bool.and_eq_true,
      decide_eq_true_eq, ge_iff_le] at h
    rcases h with (⟨h1, h2⟩ | ⟨h1, h2⟩) | h1
    · exact Or.inl ⟨h1, h2⟩
    · exact Or.inr (Or.inl ⟨h1, h2⟩)
    · subst h1; exact Or.inr (Or.inr (by decide))
  simp only [isspacechar, Bool.or_eq_false_iff, Bool.and_eq_false_iff,
    decide_eq_false_iff_not]
  refine ⟨fun hc => ?_, by omega⟩
  subst hc
  revert hb
  decide

/-- An escape-target character is not whitespace. -/
lemma escapeChar_not_space {c : Char} (h : IsEscapeChar c = true) :
    isspacechar c = false := by
  simp only [IsEscapeChar, Bool.or_eq_true, decide_eq_true_eq] at h
  rcases h with ((((h | h) | h) | h) | h) | h <;> subst h <;> decide

/-- A non-whitespace character is not the newline. -/
lemma not_space_ne_nl {c : Char} (h : isspacechar c = false) : c ≠ '\n' := by
  intro hc
  subst hc
  exact absurd h (by decide)

/-- A digit is not whitespace. -/
lemma numberStart_not_space {c d : Char} (h : IsNumberStart c d = true) :
    isspacechar c = false := by
  simp only [IsNumberStart, Char.isDigit, Bool.and_eq_true, decide_eq_true_eq,
    ge_iff_le] at h
  obtain ⟨h1, h2⟩ := h
  have hb : 48 ≤ c.toNat ∧ c.toNat ≤ 57 := ⟨h1, h2⟩
  simp only [isspacechar, Bool.or_eq_false_iff, Bool.and_eq_false_iff,
    decide_eq_false_iff_not]
  refine ⟨fun hc => ?_, by omega⟩
  subst hc
  revert hb
  decide

/-- Bit arithmetic of a persisted line-state word whose type part is below 8. -/
lemma lineword_bits {t : Nat} (ht : t < 8) :
    ((16 ||| t) &&& 16 ≠ 0) ∧ ((16 ||| t) &&& 7 = t) ∧ (t &&& 16 = 0) ∧
      (t &&& 7 = t) ∧ ((0 : Nat) ||| t = t) := by
  interval_cases t <;> decide

/-- Reading back the line state just written. -/
lemma getLineState_set (store : LineStore) (l v : Nat) :
    getLineState (setLineState store l v) l = v := by
  simp [getLineState, setLineState, List.find?]

/-! ## Geometry of a line's tail: `lineStartOf` and `LineEndsWith` -/

/-- No newline strictly inside `[lineStartOf p, p)`. -/
lemma lineStartOf_no_nl (doc : List Char) (p q : Nat)
    (h1 : lineStartOf doc p ≤ q) (h2 : q < p) : charAt doc q ≠ '\n' := by
  by_cases hq : q < doc.length
  case neg =>
    unfold charAt
    rw [List.getD_eq_default _ _ (by omega)]
    decide
  intro hnl
  have hnl' : doc[q] = '\n' := by
    unfold charAt at hnl
    rwa [List.getD_eq_getElem _ _ hq] at hnl
  have hlsp : lineStartOf doc p =
      p - ((doc.take p).reverse.takeWhile (fun c => c ≠ '\n')).length := rfl
  set l := doc.take p with hl
  set m := (l.reverse.takeWhile (fun c => c ≠ '\n')).length with hm
  have hll : l.length = min p doc.length := by rw [hl, List.length_take]
  have hql : q < l.length := by omega
  have hml : m ≤ l.length := by
    rw [hm]
    calc (l.reverse.takeWhile (fun c => c ≠ '\n')).length
        ≤ l.reverse.length := (List.takeWhile_prefix _).length_le
      _ = l.length := List.length_reverse l
  rw [hlsp] at h1
  have hi : l.length - 1 - q < m := by omega
  have hirev : l.length - 1 - q < l.reverse.length := by
    rw [List.length_reverse]
    omega
  have e1 : l.reverse[l.length - 1 - q] = l[q] := by
    rw [List.getElem_reverse]
    congr 1
    omega
  have e2 : l[q] = doc[q] := List.getElem_take doc
  have hitw : l.length - 1 - q <
      (l.reverse.takeWhile (fun c => c ≠ '\n')).length := hi
  have e3 : (l.reverse.takeWhile (fun c => c ≠ '\n'))[l.length - 1 - q] =
      l.reverse[l.length - 1 - q] :=
    (List.takeWhile_prefix _).getElem hitw
  have hmem := List.getElem_mem hitw
  have hpred := List.mem_takeWhile_imp hmem
  rw [e3, e1, e2, hnl'] at hpred
  simp at hpred

/-- Unpacking `LineEndsWith`: the line's last non-whitespace character sits at a
position `q0` of the line, and everything after it up to `p` is whitespace. -/
lemma LineEndsWith_spec (doc : List Char) (p : Nat) (c0 : Char) (hp : p < doc.length)
    (h : LineEndsWith doc p c0 = true) :
    ∃ q0, lineStartOf doc p ≤ q0 ∧ q0 ≤ p ∧ charAt doc q0 = c0 ∧
      ∀ r, q0 < r → r ≤ p → isspacechar (charAt doc r) = true := by
  unfold LineEndsWith at h
  simp only [decide_eq_true_eq] at h
  set seg := (doc.take (p + 1)).drop (lineStartOf doc p) with hseg
  set T := seg.reverse.takeWhile isspacechar with hT
  set R := seg.reverse.dropWhile isspacechar with hR
  have hTR : T ++ R = seg.reverse := List.takeWhile_append_dropWhile _ _
  cases hR2 : R with
  | nil =>
    rw [hR2] at h
    simp at h
  | cons c R' =>
    have hc : c = c0 := by
      rw [hR2] at h
      simpa using h
    have hR2' : R = c0 :: R' := by rw [hR2, hc]
    have hseg_eq : seg = R'.reverse ++ c0 :: T.reverse := by
      have h4 := congrArg List.reverse hTR
      rw [hR2'] at h4
      simp only [List.reverse_append, List.reverse_cons, List.reverse_reverse] at h4
      rw [← h4]
      simp
    have hlsp_le : lineStartOf doc p ≤ p := Nat.sub_le _ _
    have hseglen : seg.length = p + 1 - lineStartOf doc p := by
      rw [hseg, List.length_drop, List.length_take]
      omega
    have hsplit : R'.reverse.length + (1 + T.reverse.length) = seg.length := by
      rw [hseg_eq]
      simp only [List.length_append, List.length_cons, List.length_reverse]
      omega
    have hseg_doc : ∀ i, (hi : i < seg.length) →
        ∃ hd : lineStartOf doc p + i < doc.length,
          seg[i] = doc[lineStartOf doc p + i] := by
      intro i hi
      refine ⟨by omega, ?_⟩
      simp only [hseg, List.getElem_drop, List.getElem_take]
    refine ⟨lineStartOf doc p + R'.reverse.length, Nat.le_add_right _ _, by omega,
      ?_, ?_⟩
    · have hi : R'.reverse.length < seg.length := by omega
      obtain ⟨hd, he⟩ := hseg_doc R'.reverse.length hi
      have hv : seg[R'.reverse.length] = c0 := by
        simp only [hseg_eq]
        rw [List.getElem_append_right (Nat.le_refl _)]
        simp
      unfold charAt
      rw [List.getD_eq_getElem _ _ hd, ← he, hv]
    · intro r hr1 hr2
      have hj1 : lineStartOf doc p ≤ r := by omega
      have hj : r - lineStartOf doc p < seg.length := by omega
      have hjA : R'.reverse.length < r - lineStartOf doc p := by omega
      obtain ⟨hd, he⟩ := hseg_doc (r - lineStartOf doc p) hj
      have hrd : r < doc.length := by omega
      have hv : isspacechar (seg[r - lineStartOf doc p]) = true := by
        simp only [hseg_eq]
        rw [List.getElem_append_right (by omega)]
        rw [List.getElem_cons]
        rw [dif_neg (by omega : ¬ (r - lineStartOf doc p - R'.reverse.length = 0))]
        have hb : r - lineStartOf doc p - R'.reverse.length - 1 <
            T.reverse.length := by omega
        have hm2 : T.reverse[r - lineStartOf doc p - R'.reverse.length - 1] ∈ T :=
          List.mem_reverse.mp (List.getElem_mem hb)
        exact List.mem_takeWhile_imp (p := isspacechar) (l := seg.reverse) hm2
      unfold charAt
      rw [List.getD_eq_getElem _ _ hrd]
      have hee : doc[r] = seg[r - lineStartOf doc p] := by
        rw [he]
        congr 1
        omega
      rw [hee]
      exact hv

/-! ## The visible-character soundness invariant -/

/-- A backslash-then-whitespace at `q` before `p` with no newline strictly
between `q` and `p` forces a counted visible character. -/
def JProp (doc : List Char) (p v : Nat) : Prop :=
  ∀ q, q < p → charAt doc q = '\\' → isspacechar (charAt doc (q + 1)) = true →
    (∃ r, q < r ∧ r < p ∧ charAt doc r = '\n') ∨ 1 ≤ v

/-- No backslash-then-whitespace occurrence inside `[a, b)`. -/
def SpanOK (doc : List Char) (a b : Nat) : Prop :=
  ∀ q, a ≤ q → q < b → charAt doc q = '\\' → isspacechar (charAt doc (q + 1)) = false

/-- Soundness of `visibleChars` against the continuation flag. -/
def JInv (doc : List Char) (e : Nat) (σ : ScanState) : Prop :=
  (σ.lineContinuation = true → 1 ≤ σ.visibleChars) ∧
  (σ.pos < e → JProp doc σ.pos σ.visibleChars)

lemma jprop_mono_v {doc : List Char} {p v v' : Nat} (h : JProp doc p v)
    (hv : v ≤ v') : JProp doc p v' := by
  intro q h1 h2 h3
  rcases h q h1 h2 h3 with hr | hv1
  · exact Or.inl hr
  · exact Or.inr (le_trans hv1 hv)

lemma jprop_step {doc : List Char} {p p' v : Nat} (h : JProp doc p v)
    (hskip : SpanOK doc p p') (hpp : p ≤ p') : JProp doc p' v := by
  intro q hq hbs hsp
  by_cases hqp : q < p
  · rcases h q hqp hbs hsp with ⟨r, h1, h2, h3⟩ | hv
    · exact Or.inl ⟨r, h1, by omega, h3⟩
    · exact Or.inr hv
  · rw [hskip q (by omega) hq hbs] at hsp
    exact absurd hsp (by decide)

lemma spanOK_refl (doc : List Char) (a : Nat) : SpanOK doc a a := by
  intro q h1 h2
  omega

/-- A line end sits inside the document. -/
lemma atLineEnd_lt (doc : List Char) (p : Nat) (h : atLineEnd doc p = true) :
    p < doc.length := by
  simp only [atLineEnd, Bool.or_eq_true, decide_eq_true_eq] at h
  rcases h with h | h
  · by_contra hp
    unfold charAt at h
    rw [List.getD_eq_default _ _ (by omega)] at h
    exact absurd h (by decide)
  · omega

lemma forward_fields (e : Nat) (σ : ScanState) :
    (forward e σ).pos = min (σ.pos + 1) e ∧
    (forward e σ).visibleChars = σ.visibleChars ∧
    (forward e σ).lineContinuation = σ.lineContinuation ∧
    (forward e σ).state = σ.state ∧
    (forward e σ).segStart = σ.segStart ∧
    (forward e σ).styles = σ.styles ∧
    (forward e σ).lineStateLineType = σ.lineStateLineType ∧
    (forward e σ).variableOuter = σ.variableOuter ∧
    (forward e σ).lineStates = σ.lineStates :=
  ⟨rfl, rfl, rfl, rfl, rfl, rfl, rfl, rfl, rfl⟩

/-- The continuation flag and visible count after one bookkeeping pass. -/
lemma bookkeep_vc (doc : List Char) (σ : ScanState) :
    (atLineEnd doc σ.pos = false →
      (bookkeep doc σ).lineContinuation = σ.lineContinuation ∧
      (bookkeep doc σ).visibleChars = σ.visibleChars +
        (if isspacechar (charAt doc σ.pos) = true then 0 else 1) ∧
      (bookkeep doc σ).lineStateLineType = σ.lineStateLineType ∧
      (bookkeep doc σ).lineStates = σ.lineStates) ∧
    (atLineEnd doc σ.pos = true →
      (bookkeep doc σ).lineContinuation = LineEndsWith doc σ.pos '\\' ∧
      (bookkeep doc σ).visibleChars =
        (if LineEndsWith doc σ.pos '\\' = true then
          σ.visibleChars + (if isspacechar (charAt doc σ.pos) = true then 0 else 1)
         else 0) ∧
      (bookkeep doc σ).lineStateLineType =
        (if LineEndsWith doc σ.pos '\\' = true then σ.lineStateLineType else 0) ∧
      (bookkeep doc σ).lineStates = setLineState σ.lineStates (lineOf doc σ.pos)
        ((if LineEndsWith doc σ.pos '\\' = true then NsisLineStateLineContinuation
          else 0) ||| σ.lineStateLineType)) := by
  unfold bookkeep
  dsimp only
  by_cases hle : atLineEnd doc σ.pos = true
  · rw [if_pos hle]
    refine ⟨fun hko => by rw [hko] at hle; exact absurd hle (by simp), fun _ => ?_⟩
    by_cases hcont : LineEndsWith doc σ.pos '\\' = true
    · rw [if_pos hcont]
      by_cases hsp : isspacechar (charAt doc σ.pos) = true
      · rw [if_pos hsp, if_pos hcont, if_pos hcont, if_pos hcont, if_pos hsp]
        exact ⟨rfl, by show σ.visibleChars = σ.visibleChars + 0; omega, rfl, rfl⟩
      · rw [if_neg hsp, if_pos hcont, if_pos hcont, if_pos hcont, if_neg hsp]
        exact ⟨rfl, rfl, rfl, rfl⟩
    · rw [if_neg hcont]
      by_cases hsp : isspacechar (charAt doc σ.pos) = true
      · rw [if_pos hsp, if_neg hcont, if_neg hcont, if_neg hcont]
        exact ⟨rfl, rfl, rfl, rfl⟩
      · rw [if_neg hsp, if_neg hcont, if_neg hcont, if_neg hcont]
        exact ⟨rfl, rfl, rfl, rfl⟩
  · rw [if_neg hle]
    refine ⟨fun _ => ?_, fun hko => absurd hko hle⟩
    by_cases hsp : isspacechar (charAt doc σ.pos) = true
    · rw [if_pos hsp, if_pos hsp]
      exact ⟨rfl, by show σ.visibleChars = σ.visibleChars + 0; omega, rfl, rfl⟩
    · rw [if_neg hsp, if_neg hsp]
      exact ⟨rfl, rfl, rfl, rfl⟩

/-- The bookkeeping-then-advance tail of a loop iteration preserves the
visible-character invariant. -/
lemma bkfwd_jinv (doc : List Char) (e : Nat) (σ : ScanState)
    (hed : e ≤ doc.length)
    (hc : σ.lineContinuation = true → 1 ≤ σ.visibleChars)
    (hJ : JProp doc σ.pos σ.visibleChars) :
    JInv doc e (forward e (bookkeep doc σ)) := by
  obtain ⟨hbp, -, -, -⟩ := bookkeep_fields doc σ
  obtain ⟨hb1, hb2⟩ := bookkeep_vc doc σ
  obtain ⟨hf1, hf2, hf3, -⟩ := forward_fields e (bookkeep doc σ)
  have hv1 : atLineEnd doc σ.pos = true → LineEndsWith doc σ.pos '\\' = true →
      1 ≤ σ.visibleChars + (if isspacechar (charAt doc σ.pos) = true then 0 else 1) := by
    intro hle hcont
    have hpd : σ.pos < doc.length := atLineEnd_lt doc σ.pos hle
    obtain ⟨hq1, hq2, hq3, hq4⟩ :=
      (LineEndsWith_spec doc σ.pos '\\' hpd hcont).choose_spec
    set q0 := (LineEndsWith_spec doc σ.pos '\\' hpd hcont).choose with hq0def
    by_cases hq0 : q0 = σ.pos
    · have hns : isspacechar (charAt doc σ.pos) = false := by
        rw [← hq0, hq3]
        decide
      have hval : σ.visibleChars +
          (if isspacechar (charAt doc σ.pos) = true then 0 else 1) =
          σ.visibleChars + 1 := by
        rw [hns]
        simp
      rw [hval]
      omega
    · have hq5 : q0 < σ.pos := by omega
      have hsp1 : isspacechar (charAt doc (q0 + 1)) = true :=
        hq4 (q0 + 1) (by omega) (by omega)
      have hge : 1 ≤ σ.visibleChars := by
        rcases hJ q0 hq5 hq3 hsp1 with ⟨r, hr1, hr2, hr3⟩ | hv
        · exact absurd hr3 (lineStartOf_no_nl doc σ.pos r (by omega) hr2)
        · exact hv
      omega
  constructor
  · rw [hf3, hf2]
    by_cases hle : atLineEnd doc σ.pos = true
    · obtain ⟨hc1, hc2, -, -⟩ := hb2 hle
      rw [hc1, hc2]
      intro hcont
      rw [if_pos hcont]
      exact hv1 hle hcont
    · obtain ⟨hc1, hc2, -, -⟩ := hb1 (by simpa using hle)
      rw [hc1, hc2]
      intro hk
      have := hc hk
      omega
  · rw [hf1, hf2, hbp]
    intro hpe
    have hpp : σ.pos + 1 < e := by omega
    have hpeq : min (σ.pos + 1) e = σ.pos + 1 := by omega
    rw [hpeq]
    by_cases hle : atLineEnd doc σ.pos = true
    · obtain ⟨-, hc2, -, -⟩ := hb2 hle
      rw [hc2]
      by_cases hcont : LineEndsWith doc σ.pos '\\' = true
      · rw [if_pos hcont]
        intro q hq hbs hsp
        exact Or.inr (hv1 hle hcont)
      · rw [if_neg hcont]
        have hnl : charAt doc σ.pos = '\n' := by
          simp only [atLineEnd, Bool.or_eq_true, decide_eq_true_eq] at hle
          rcases hle with h | h
          · exact h
          · omega
        intro q hq hbs hsp
        by_cases hqp : q < σ.pos
        · exact Or.inl ⟨σ.pos, by omega, by omega, hnl⟩
        · have hqq : q = σ.pos := by omega
          rw [hqq] at hbs
          rw [hbs] at hnl
          exact absurd hnl (by decide)
    · obtain ⟨-, hc2, -, -⟩ := hb1 (by simpa using hle)
      rw [hc2]
      intro q hq hbs hsp
      by_cases hqp : q < σ.pos
      · rcases hJ q hqp hbs hsp with ⟨r, h1, h2, h3⟩ | hv
        · exact Or.inl ⟨r, h1, by omega, h3⟩
        · exact Or.inr (by omega)
      · have hqq : q = σ.pos := by omega
        have hns : isspacechar (charAt doc σ.pos) = false := by
          rw [← hqq, hbs]
          decide
        have hval : σ.visibleChars +
            (if isspacechar (charAt doc σ.pos) = true then 0 else 1) =
            σ.visibleChars + 1 := by
          rw [hns]
          simp
        rw [hval]
        exact Or.inr (by omega)

lemma setState_fields (σ : ScanState) (st : Style) :
    (setState σ st).pos = σ.pos ∧
    (setState σ st).visibleChars = σ.visibleChars ∧
    (setState σ st).lineContinuation = σ.lineContinuation ∧
    (setState σ st).lineStateLineType = σ.lineStateLineType ∧
    (setState σ st).variableOuter = σ.variableOuter ∧
    (setState σ st).lineStates = σ.lineStates ∧
    (setState σ st).state = st ∧
    (setState σ st).segStart = σ.pos ∧
    (setState σ st).styles =
      σ.styles ++ List.replicate (σ.pos - σ.segStart) σ.state :=
  ⟨rfl, rfl, rfl, rfl, rfl, rfl, rfl, rfl, rfl⟩

lemma identClose_jfields (kw : List (List Char)) (doc : List Char) (σ : ScanState) :
    (identClose kw doc σ).pos = σ.pos ∧
    (identClose kw doc σ).visibleChars = σ.visibleChars ∧
    (identClose kw doc σ).lineContinuation = σ.lineContinuation ∧
    (identClose kw doc σ).lineStates = σ.lineStates := by
  unfold identClose
  dsimp only
  repeat' split
  all_goals exact ⟨rfl, rfl, rfl, rfl⟩

lemma dispatchDefault_jfields (doc : List Char) (e : Nat) (σ : ScanState) :
    (dispatchDefault doc e σ).visibleChars = σ.visibleChars ∧
    (dispatchDefault doc e σ).lineContinuation = σ.lineContinuation ∧
    (dispatchDefault doc e σ).lineStates = σ.lineStates ∧
    ((dispatchDefault doc e σ).pos = σ.pos ∨
     ((dispatchDefault doc e σ).pos = min (σ.pos + 1) e ∧
      charAt doc σ.pos = '/')) ∧
    ((dispatchDefault doc e σ).lineStateLineType = σ.lineStateLineType ∨
     (dispatchDefault doc e σ).lineStateLineType = NsisLineTypeComment) := by
  unfold dispatchDefault
  by_cases h0 : σ.state = SCE_NSIS_DEFAULT
  case neg =>
    rw [if_neg h0]
    exact ⟨rfl, rfl, rfl, Or.inl rfl, Or.inl rfl⟩
  rw [if_pos h0]
  by_cases c1 : charAt doc σ.pos = ';' ∨ charAt doc σ.pos = '#'
  · rw [if_pos c1]
    by_cases cv : σ.visibleChars = 0
    · rw [if_pos cv]; exact ⟨rfl, rfl, rfl, Or.inl rfl, Or.inr rfl⟩
    · rw [if_neg cv]; exact ⟨rfl, rfl, rfl, Or.inl rfl, Or.inl rfl⟩
  rw [if_neg c1]
  by_cases c2 : charAt doc σ.pos = '/' ∧ charAt doc (σ.pos + 1) = '*'
  · rw [if_pos c2]
    exact ⟨rfl, rfl, rfl, Or.inr ⟨rfl, c2.1⟩, Or.inl rfl⟩
  rw [if_neg c2]
  by_cases c3 : charAt doc σ.pos = '\''
  · rw [if_pos c3]; exact ⟨rfl, rfl, rfl, Or.inl rfl, Or.inl rfl⟩
  rw [if_neg c3]
  by_cases c4 : charAt doc σ.pos = '"'
  · rw [if_pos c4]; exact ⟨rfl, rfl, rfl, Or.inl rfl, Or.inl rfl⟩
  rw [if_neg c4]
  by_cases c5 : charAt doc σ.pos = '`'
  · rw [if_pos c5]; exact ⟨rfl, rfl, rfl, Or.inl rfl, Or.inl rfl⟩
  rw [if_neg c5]
  by_cases c6 : IsNumberStart (charAt doc σ.pos) (charAt doc (σ.pos + 1)) = true
  · rw [if_pos c6]; exact ⟨rfl, rfl, rfl, Or.inl rfl, Or.inl rfl⟩
  rw [if_neg c6]
  by_cases c7 : charAt doc σ.pos = '$' ∧ IsIdentifierChar (charAt doc (σ.pos + 1)) = true
  · rw [if_pos c7]; exact ⟨rfl, rfl, rfl, Or.inl rfl, Or.inl rfl⟩
  rw [if_neg c7]
  by_cases c8 : charAt doc σ.pos = '$' ∧
      (charAt doc (σ.pos + 1) = '{' ∨ charAt doc (σ.pos + 1) = '(')
  · rw [if_pos c8]; exact ⟨rfl, rfl, rfl, Or.inl rfl, Or.inl rfl⟩
  rw [if_neg c8]
  by_cases c9 : (σ.visibleChars = 0 ∧ charAt doc σ.pos = '!') ∨
      IsIdentifierStart (charAt doc σ.pos) = true
  · rw [if_pos c9]; exact ⟨rfl, rfl, rfl, Or.inl rfl, Or.inl rfl⟩
  rw [if_neg c9]
  by_cases c10 : isoperator (charAt doc σ.pos) = true
  · rw [if_pos c10]; exact ⟨rfl, rfl, rfl, Or.inl rfl, Or.inl rfl⟩
  rw [if_neg c10]
  exact ⟨rfl, rfl, rfl, Or.inl rfl, Or.inl rfl⟩

lemma handleStringState_jinv (doc : List Char) (e : Nat) (σ : ScanState)
    (hpe : σ.pos < e)
    (hc : σ.lineContinuation = true → 1 ≤ σ.visibleChars)
    (hJ : JProp doc σ.pos σ.visibleChars) :
    (∀ σ', handleStringState doc e σ = .cont σ' → JInv doc e σ') ∧
    (∀ σ', handleStringState doc e σ = .fall σ' →
      σ'.visibleChars = σ.visibleChars ∧
      σ'.lineContinuation = σ.lineContinuation ∧
      σ.pos ≤ σ'.pos ∧ SpanOK doc σ.pos σ'.pos) ∧
    (∀ σ', handleStringState doc e σ = .again σ' → False) := by
  unfold handleStringState
  dsimp only
  by_cases h1 : charAt doc σ.pos = '$'
  · rw [if_pos h1]
    by_cases h2 : charAt doc (σ.pos + 1) = '$' ∨
        (charAt doc (σ.pos + 1) = '\\' ∧ IsEscapeChar (charAt doc (σ.pos + 2)) = true)
    · rw [if_pos h2]
      refine ⟨?_, fun σ' heq => SwitchRes.noConfusion heq,
        fun σ' heq => SwitchRes.noConfusion heq⟩
      intro σ' heq
      injection heq with h
      subst h
      by_cases hb : charAt doc (σ.pos + 1) = '\\'
      · rw [if_pos hb]
        refine ⟨hc, ?_⟩
        show min (min (min (σ.pos + 1) e + 1) e + 1) e < e →
          JProp doc (min (min (min (σ.pos + 1) e + 1) e + 1) e) σ.visibleChars
        intro hlt
        have h3 : min (min (min (σ.pos + 1) e + 1) e + 1) e = σ.pos + 3 := by omega
        rw [h3]
        refine jprop_step hJ ?_ (by omega)
        intro q hq1 hq2 hbs
        have hesc : IsEscapeChar (charAt doc (σ.pos + 2)) = true := by
          rcases h2 with h2a | ⟨h2a, h2b⟩
          · rw [h2a] at hb; exact absurd hb (by decide)
          · exact h2b
        have hq3 : q = σ.pos ∨ q = σ.pos + 1 ∨ q = σ.pos + 2 := by omega
        rcases hq3 with hq | hq | hq
        · rw [hq, h1] at hbs; exact absurd hbs (by decide)
        · rw [hq]
          exact escapeChar_not_space hesc
        · rw [hq] at hbs
          rw [hbs] at hesc
          exact absurd hesc (by decide)
      · rw [if_neg hb]
        refine ⟨hc, ?_⟩
        show min (min (σ.pos + 1) e + 1) e < e →
          JProp doc (min (min (σ.pos + 1) e + 1) e) σ.visibleChars
        intro hlt
        have h3 : min (min (σ.pos + 1) e + 1) e = σ.pos + 2 := by omega
        rw [h3]
        refine jprop_step hJ ?_ (by omega)
        intro q hq1 hq2 hbs
        have h2a : charAt doc (σ.pos + 1) = '$' := by
          rcases h2 with h2a | ⟨h2a, -⟩
          · exact h2a
          · exact absurd h2a hb
        have hq3 : q = σ.pos ∨ q = σ.pos + 1 := by omega
        rcases hq3 with hq | hq
        · rw [hq, h1] at hbs; exact absurd hbs (by decide)
        · rw [hq, h2a] at hbs; exact absurd hbs (by decide)
    · rw [if_neg h2]
      by_cases h3 : charAt doc (σ.pos + 1) = '{' ∨ charAt doc (σ.pos + 1) = '('
      · rw [if_pos h3]
        refine ⟨fun σ' heq => SwitchRes.noConfusion heq, ?_,
          fun σ' heq => SwitchRes.noConfusion heq⟩
        intro σ' heq
        injection heq with h
        subst h
        exact ⟨rfl, rfl, le_refl _, spanOK_refl doc σ.pos⟩
      · rw [if_neg h3]
        by_cases h4 : IsIdentifierChar (charAt doc (σ.pos + 1)) = true
        · rw [if_pos h4]
          refine ⟨fun σ' heq => SwitchRes.noConfusion heq, ?_,
          fun σ' heq => SwitchRes.noConfusion heq⟩
          intro σ' heq
          injection heq with h
          subst h
          exact ⟨rfl, rfl, le_refl _, spanOK_refl doc σ.pos⟩
        · rw [if_neg h4]
          refine ⟨fun σ' heq => SwitchRes.noConfusion heq, ?_,
          fun σ' heq => SwitchRes.noConfusion heq⟩
          intro σ' heq
          injection heq with h
          subst h
          exact ⟨rfl, rfl, le_refl _, spanOK_refl doc σ.pos⟩
  · rw [if_neg h1]
    by_cases h5 : atLineStart doc σ.pos = true
    · rw [if_pos h5]
      by_cases h6 : σ.lineContinuation = true
      · rw [if_pos h6]
        refine ⟨fun σ' heq => SwitchRes.noConfusion heq, ?_,
          fun σ' heq => SwitchRes.noConfusion heq⟩
        intro σ' heq
        injection heq with h
        subst h
        exact ⟨rfl, rfl, le_refl _, spanOK_refl doc σ.pos⟩
      · rw [if_neg h6]
        refine ⟨fun σ' heq => SwitchRes.noConfusion heq, ?_,
          fun σ' heq => SwitchRes.noConfusion heq⟩
        intro σ' heq
        injection heq with h
        subst h
        exact ⟨rfl, rfl, le_refl _, spanOK_refl doc σ.pos⟩
    · rw [if_neg h5]
      by_cases h7 : (σ.state = SCE_NSIS_STRINGSQ ∧ charAt doc σ.pos = '\'') ∨
          (σ.state = SCE_NSIS_STRINGDQ ∧ charAt doc σ.pos = '"') ∨
          (σ.state = SCE_NSIS_STRINGBT ∧ charAt doc σ.pos = '`')
      · rw [if_pos h7]
        refine ⟨fun σ' heq => SwitchRes.noConfusion heq, ?_,
          fun σ' heq => SwitchRes.noConfusion heq⟩
        intro σ' heq
        injection heq with h
        subst h
        refine ⟨rfl, rfl, by show σ.pos ≤ min (σ.pos + 1) e; omega, ?_⟩
        show SpanOK doc σ.pos (min (σ.pos + 1) e)
        intro q hq1 hq2 hbs
        have hq : q = σ.pos := by omega
        rcases h7 with ⟨-, hch⟩ | ⟨-, hch⟩ | ⟨-, hch⟩ <;>
          (rw [hq, hch] at hbs; exact absurd hbs (by decide))
      · rw [if_neg h7]
        refine ⟨fun σ' heq => SwitchRes.noConfusion heq, ?_,
          fun σ' heq => SwitchRes.noConfusion heq⟩
        intro σ' heq
        injection heq with h
        subst h
        exact ⟨rfl, rfl, le_refl _, spanOK_refl doc σ.pos⟩

lemma switchOnce_jinv (kw : List (List Char)) (doc : List Char) (e : Nat)
    (σ : ScanState) (hpe : σ.pos < e)
    (hc : σ.lineContinuation = true → 1 ≤ σ.visibleChars)
    (hJ : JProp doc σ.pos σ.visibleChars) :
    (∀ σ', switchOnce kw doc e σ = .cont σ' → JInv doc e σ') ∧
    (∀ σ', switchOnce kw doc e σ = .fall σ' →
      σ'.visibleChars = σ.visibleChars ∧
      σ'.lineContinuation = σ.lineContinuation ∧
      σ.pos ≤ σ'.pos ∧ SpanOK doc σ.pos σ'.pos) ∧
    (∀ σ', switchOnce kw doc e σ = .again σ' →
      σ'.visibleChars = σ.visibleChars ∧
      σ'.lineContinuation = σ.lineContinuation ∧
      σ'.pos = σ.pos) := by
  unfold switchOnce
  dsimp only
  by_cases s1 : σ.state = SCE_NSIS_OPERATOR
  · rw [if_pos s1]
    refine ⟨fun σ' heq => SwitchRes.noConfusion heq, ?_,
      fun σ' heq => SwitchRes.noConfusion heq⟩
    intro σ' heq
    injection heq with h
    subst h
    exact ⟨rfl, rfl, le_refl _, spanOK_refl doc σ.pos⟩
  rw [if_neg s1]
  by_cases s2 : σ.state = SCE_NSIS_NUMBER
  · rw [if_pos s2]
    by_cases d1 : IsDecimalNumber (if σ.pos = 0 then ' ' else charAt doc (σ.pos - 1))
        (charAt doc σ.pos) (charAt doc (σ.pos + 1)) = true
    · rw [if_pos d1]
      refine ⟨fun σ' heq => SwitchRes.noConfusion heq, ?_,
        fun σ' heq => SwitchRes.noConfusion heq⟩
      intro σ' heq
      injection heq with h
      subst h
      exact ⟨rfl, rfl, le_refl _, spanOK_refl doc σ.pos⟩
    · rw [if_neg d1]
      by_cases dp : charAt doc σ.pos = '%'
      · rw [if_pos dp]
        refine ⟨fun σ' heq => SwitchRes.noConfusion heq, ?_,
          fun σ' heq => SwitchRes.noConfusion heq⟩
        intro σ' heq
        injection heq with h
        subst h
        refine ⟨rfl, rfl, by show σ.pos ≤ min (σ.pos + 1) e; omega, ?_⟩
        show SpanOK doc σ.pos (min (σ.pos + 1) e)
        intro q hq1 hq2 hbs
        have hq : q = σ.pos := by omega
        rw [hq, dp] at hbs
        exact absurd hbs (by decide)
      · rw [if_neg dp]
        refine ⟨fun σ' heq => SwitchRes.noConfusion heq, ?_,
          fun σ' heq => SwitchRes.noConfusion heq⟩
        intro σ' heq
        injection heq with h
        subst h
        exact ⟨rfl, rfl, le_refl _, spanOK_refl doc σ.pos⟩
  rw [if_neg s2]
  by_cases s3 : σ.state = SCE_NSIS_IDENTIFIER
  · rw [if_pos s3]
    by_cases d2 : IsIdentifierChar (charAt doc σ.pos) = true
    · rw [if_pos d2]
      refine ⟨fun σ' heq => SwitchRes.noConfusion heq, ?_,
        fun σ' heq => SwitchRes.noConfusion heq⟩
      intro σ' heq
      injection heq with h
      subst h
      exact ⟨rfl, rfl, le_refl _, spanOK_refl doc σ.pos⟩
    · rw [if_neg d2]
      refine ⟨fun σ' heq => SwitchRes.noConfusion heq, ?_,
        fun σ' heq => SwitchRes.noConfusion heq⟩
      intro σ' heq
      injection heq with h
      subst h
      obtain ⟨j1, j2, j3, -⟩ := identClose_jfields kw doc σ
      rw [j1, j2, j3]
      exact ⟨rfl, rfl, le_refl _, spanOK_refl doc σ.pos⟩
  rw [if_neg s3]
  by_cases s4 : isStringStyle σ.state = true
  · rw [if_pos s4]
    obtain ⟨ha, hb, hcx⟩ := handleStringState_jinv doc e σ hpe hc hJ
    exact ⟨ha, hb, fun σ' heq => (hcx σ' heq).elim⟩
  rw [if_neg s4]
  by_cases s5 : σ.state = SCE_NSIS_VARIABLE
  · rw [if_pos s5]
    by_cases d3 : IsIdentifierChar (charAt doc σ.pos) = true
    · rw [if_pos d3]
      refine ⟨fun σ' heq => SwitchRes.noConfusion heq, ?_,
        fun σ' heq => SwitchRes.noConfusion heq⟩
      intro σ' heq
      injection heq with h
      subst h
      exact ⟨rfl, rfl, le_refl _, spanOK_refl doc σ.pos⟩
    · rw [if_neg d3]
      refine ⟨fun σ' heq => SwitchRes.noConfusion heq,
        fun σ' heq => SwitchRes.noConfusion heq, ?_⟩
      intro σ' heq
      injection heq with h
      subst h
      exact ⟨rfl, rfl, rfl⟩
  rw [if_neg s5]
  by_cases s6 : σ.state = SCE_NSIS_VARIABLE_BRACE ∨ σ.state = SCE_NSIS_VARIABLE_PAREN
  · rw [if_pos s6]
    by_cases d4 : (σ.state = SCE_NSIS_VARIABLE_BRACE ∧ charAt doc σ.pos = '}') ∨
        (σ.state = SCE_NSIS_VARIABLE_PAREN ∧ charAt doc σ.pos = ')')
    · rw [if_pos d4]
      refine ⟨?_, fun σ' heq => SwitchRes.noConfusion heq,
        fun σ' heq => SwitchRes.noConfusion heq⟩
      intro σ' heq
      injection heq with h
      subst h
      refine ⟨hc, ?_⟩
      show min (σ.pos + 1) e < e → JProp doc (min (σ.pos + 1) e) σ.visibleChars
      intro hlt
      have h3 : min (σ.pos + 1) e = σ.pos + 1 := by omega
      rw [h3]
      refine jprop_step hJ ?_ (by omega)
      intro q hq1 hq2 hbs
      have hq : q = σ.pos := by omega
      rcases d4 with ⟨-, hch⟩ | ⟨-, hch⟩ <;>
        (rw [hq, hch] at hbs; exact absurd hbs (by decide))
    · rw [if_neg d4]
      refine ⟨fun σ' heq => SwitchRes.noConfusion heq, ?_,
        fun σ' heq => SwitchRes.noConfusion heq⟩
      intro σ' heq
      injection heq with h
      subst h
      exact ⟨rfl, rfl, le_refl _, spanOK_refl doc σ.pos⟩
  rw [if_neg s6]
  by_cases s7 : σ.state = SCE_NSIS_COMMENTLINE
  · rw [if_pos s7]
    by_cases d5 : atLineStart doc σ.pos = true ∧ ¬ σ.lineContinuation = true
    · rw [if_pos d5]
      refine ⟨fun σ' heq => SwitchRes.noConfusion heq, ?_,
        fun σ' heq => SwitchRes.noConfusion heq⟩
      intro σ' heq
      injection heq with h
      subst h
      exact ⟨rfl, rfl, le_refl _, spanOK_refl doc σ.pos⟩
    · rw [if_neg d5]
      refine ⟨fun σ' heq => SwitchRes.noConfusion heq, ?_,
        fun σ' heq => SwitchRes.noConfusion heq⟩
      intro σ' heq
      injection heq with h
      subst h
      exact ⟨rfl, rfl, le_refl _, spanOK_refl doc σ.pos⟩
  rw [if_neg s7]
  by_cases s8 : σ.state = SCE_NSIS_COMMENT
  · rw [if_pos s8]
    by_cases d6 : charAt doc σ.pos = '*' ∧ charAt doc (σ.pos + 1) = '/'
    · rw [if_pos d6]
      refine ⟨fun σ' heq => SwitchRes.noConfusion heq, ?_,
        fun σ' heq => SwitchRes.noConfusion heq⟩
      intro σ' heq
      injection heq with h
      subst h
      refine ⟨rfl, rfl, by show σ.pos ≤ min (min (σ.pos + 1) e + 1) e; omega, ?_⟩
      show SpanOK doc σ.pos (min (min (σ.pos + 1) e + 1) e)
      intro q hq1 hq2 hbs
      have hq : q = σ.pos ∨ q = σ.pos + 1 := by omega
      rcases hq with hq | hq
      · rw [hq, d6.1] at hbs; exact absurd hbs (by decide)
      · rw [hq, d6.2] at hbs; exact absurd hbs (by decide)
    · rw [if_neg d6]
      refine ⟨fun σ' heq => SwitchRes.noConfusion heq, ?_,
        fun σ' heq => SwitchRes.noConfusion heq⟩
      intro σ' heq
      injection heq with h
      subst h
      exact ⟨rfl, rfl, le_refl _, spanOK_refl doc σ.pos⟩
  rw [if_neg s8]
  refine ⟨fun σ' heq => SwitchRes.noConfusion heq, ?_,
    fun σ' heq => SwitchRes.noConfusion heq⟩
  intro σ' heq
  injection heq with h
  subst h
  exact ⟨rfl, rfl, le_refl _, spanOK_refl doc σ.pos⟩

/-- One scanner iteration preserves the visible-character invariant. -/
lemma scanStep_jinv (kw : List (List Char)) (doc : List Char) (e : Nat)
    (σ : ScanState) (hed : e ≤ doc.length) (hpe : σ.pos < e)
    (h : JInv doc e σ) : JInv doc e (scanStep kw doc e σ) := by
  obtain ⟨hc, hJg⟩ := h
  have hJ : JProp doc σ.pos σ.visibleChars := hJg hpe
  have hfin : ∀ τ : ScanState, τ.visibleChars = σ.visibleChars →
      τ.lineContinuation = σ.lineContinuation → σ.pos ≤ τ.pos →
      SpanOK doc σ.pos τ.pos →
      JInv doc e (forward e (bookkeep doc (dispatchDefault doc e τ))) := by
    intro τ ht1 ht2 ht3 ht4
    obtain ⟨g1, g2, -, g4, -⟩ := dispatchDefault_jfields doc e τ
    have hspan : SpanOK doc σ.pos (dispatchDefault doc e τ).pos := by
      rcases g4 with hp | ⟨hp, hsl⟩
      · rw [hp]; exact ht4
      · rw [hp]
        intro q hq1 hq2 hbs
        by_cases hqt : q < τ.pos
        · exact ht4 q hq1 hqt hbs
        · have hqq : q = τ.pos := by omega
          rw [hqq, hsl] at hbs
          exact absurd hbs (by decide)
    have hle : σ.pos ≤ (dispatchDefault doc e τ).pos := by
      rcases g4 with hp | ⟨hp, -⟩
      · rw [hp]; exact ht3
      · rw [hp]; omega
    refine bkfwd_jinv doc e (dispatchDefault doc e τ) hed ?_ ?_
    · rw [g1, g2, ht1, ht2]; exact hc
    · rw [g1, ht1]
      exact jprop_step hJ hspan hle
  obtain ⟨g1, g2, g3⟩ := switchOnce_jinv kw doc e σ hpe hc hJ
  unfold scanStep
  dsimp only
  cases hsw : switchOnce kw doc e σ with
  | cont σ' =>
    dsimp only
    exact g1 σ' hsw
  | fall σ' =>
    dsimp only
    obtain ⟨f1, f2, f3, f4⟩ := g2 σ' hsw
    exact hfin σ' f1 f2 f3 f4
  | again σ' =>
    dsimp only
    obtain ⟨a1, a2, a3⟩ := g3 σ' hsw
    obtain ⟨g1', g2', g3'⟩ := switchOnce_jinv kw doc e σ' (by omega)
      (by rw [a1, a2]; exact hc) (by rw [a1, a3]; exact hJ)
    cases hsw2 : switchOnce kw doc e σ' with
    | cont σ'' =>
      dsimp only
      exact g1' σ'' hsw2
    | fall σ'' =>
      dsimp only
      obtain ⟨f1, f2, f3, f4⟩ := g2' σ'' hsw2
      refine hfin σ'' (by rw [f1, a1]) (by rw [f2, a2]) (by omega) ?_
      rw [← a3]
      exact f4
    | again σ'' =>
      dsimp only
      obtain ⟨b1, b2, b3⟩ := g3' σ'' hsw2
      refine hfin σ'' (by rw [b1, a1]) (by rw [b2, a2]) (by omega) ?_
      rw [b3, a3]
      exact spanOK_refl doc σ.pos

/-- The scanner loop preserves the visible-character invariant. -/
lemma scanLoop_jinv (kw : List (List Char)) (doc : List Char) (e : Nat)
    (hed : e ≤ doc.length) :
    ∀ (fuel : Nat) (σ : ScanState), JInv doc e σ →
      JInv doc e (scanLoop kw doc e fuel σ) := by
  intro fuel
  induction fuel with
  | zero => exact fun σ h => h
  | succ n ih =>
    intro σ h
    unfold scanLoop
    split
    · exact ih _ (scanStep_jinv kw doc e σ hed (by assumption) h)
    · exact h

/-- A scan started at a line start satisfies the visible-character invariant. -/
lemma initScan_jinv (doc : List Char) (s : Nat) (ist : Style) (store : LineStore)
    (e : Nat) (hs : atLineStart doc s = true) :
    JInv doc e (initScan doc s ist store) := by
  have hJ0 : ∀ v, JProp doc s v := by
    intro v q hq hbs hsp
    simp only [atLineStart, Bool.or_eq_true, decide_eq_true_eq] at hs
    rcases hs with hs | hs
    · omega
    · by_cases hq1 : q = s - 1
      · rw [hq1, hs] at hbs
        exact absurd hbs (by decide)
      · exact Or.inl ⟨s - 1, by omega, by omega, hs⟩
  unfold initScan
  dsimp only
  by_cases h1 : lineOf doc s > 0
  · rw [if_pos h1]
    by_cases h2 : getLineState store (lineOf doc s - 1) &&&
        NsisLineStateLineContinuation ≠ 0
    · rw [if_pos h2]
      exact ⟨fun _ => Nat.le_refl 1, fun _ => hJ0 1⟩
    · rw [if_neg h2]
      exact ⟨fun hk => Bool.noConfusion hk, fun _ => hJ0 0⟩
  · rw [if_neg h1]
    exact ⟨fun hk => Bool.noConfusion hk, fun _ => hJ0 0⟩

/-! ## The line-type bound: `lineStateLineType` stays below 8 -/

lemma identClose_typelt (kw : List (List Char)) (doc : List Char) (σ : ScanState)
    (h : σ.lineStateLineType < 8) :
    (identClose kw doc σ).lineStateLineType < 8 := by
  unfold identClose
  dsimp only
  repeat' split
  all_goals first | exact h | (simp only [setState, changeState]; decide)

lemma handleStringState_typelt (doc : List Char) (e : Nat) (σ : ScanState)
    (h : σ.lineStateLineType < 8) :
    (handleStringState doc e σ).st.lineStateLineType < 8 := by
  unfold handleStringState
  dsimp only
  repeat' split
  all_goals exact h

lemma switchOnce_typelt (kw : List (List Char)) (doc : List Char) (e : Nat)
    (σ : ScanState) (h : σ.lineStateLineType < 8) :
    (switchOnce kw doc e σ).st.lineStateLineType < 8 := by
  unfold switchOnce
  dsimp only
  repeat' split
  all_goals first
    | exact h
    | exact identClose_typelt kw doc σ h
    | exact handleStringState_typelt doc e σ h

lemma dispatchDefault_typelt (doc : List Char) (e : Nat) (σ : ScanState)
    (h : σ.lineStateLineType < 8) :
    (dispatchDefault doc e σ).lineStateLineType < 8 := by
  rcases (dispatchDefault_jfields doc e σ).2.2.2.2 with ht | ht <;> rw [ht]
  · exact h
  · decide

lemma bookkeep_typelt (doc : List Char) (σ : ScanState)
    (h : σ.lineStateLineType < 8) :
    (bookkeep doc σ).lineStateLineType < 8 := by
  unfold bookkeep
  dsimp only
  repeat' split
  all_goals first | exact h | simp

lemma scanStep_typelt (kw : List (List Char)) (doc : List Char) (e : Nat)
    (σ : ScanState) (h : σ.lineStateLineType < 8) :
    (scanStep kw doc e σ).lineStateLineType < 8 := by
  unfold scanStep
  dsimp only
  have h1 := switchOnce_typelt kw doc e σ h
  cases hsw : switchOnce kw doc e σ with
  | cont σ' =>
    rw [hsw] at h1
    simp only [SwitchRes.st] at h1
    dsimp only
    exact h1
  | fall σ' =>
    rw [hsw] at h1
    simp only [SwitchRes.st] at h1
    dsimp only
    exact bookkeep_typelt doc _ (dispatchDefault_typelt doc e σ' h1)
  | again σ' =>
    rw [hsw] at h1
    simp only [SwitchRes.st] at h1
    dsimp only
    have h2 := switchOnce_typelt kw doc e σ' h1
    cases hsw2 : switchOnce kw doc e σ' with
    | cont σ'' =>
      rw [hsw2] at h2
      simp only [SwitchRes.st] at h2
      dsimp only
      exact h2
    | fall σ'' =>
      rw [hsw2] at h2
      simp only [SwitchRes.st] at h2
      dsimp only
      exact bookkeep_typelt doc _ (dispatchDefault_typelt doc e σ'' h2)
    | again σ'' =>
      rw [hsw2] at h2
      simp only [SwitchRes.st] at h2
      dsimp only
      exact bookkeep_typelt doc _ (dispatchDefault_typelt doc e σ'' h2)

lemma scanLoop_typelt (kw : List (List Char)) (doc : List Char) (e : Nat) :
    ∀ (fuel : Nat) (σ : ScanState), σ.lineStateLineType < 8 →
      (scanLoop kw doc e fuel σ).lineStateLineType < 8 := by
  intro fuel
  induction fuel with
  | zero => exact fun σ h => h
  | succ n ih =>
    intro σ h
    unfold scanLoop
    split
    · exact ih _ (scanStep_typelt kw doc e σ h)
    · exact h

lemma initScan_typelt (doc : List Char) (s : Nat) (ist : Style)
    (store : LineStore) : (initScan doc s ist store).lineStateLineType < 8 := by
  unfold initScan
  dsimp only
  by_cases h1 : lineOf doc s > 0
  · rw [if_pos h1]
    by_cases h2 : getLineState store (lineOf doc s - 1) &&&
        NsisLineStateLineContinuation ≠ 0
    · rw [if_pos h2]
      show getLineState store (lineOf doc s - 1) &&& NsisLineTypeMask < 8
      exact lt_of_le_of_lt Nat.and_le_right (by decide)
    · rw [if_neg h2]
      show (0 : Nat) < 8
      decide
  · rw [if_neg h1]
    show (0 : Nat) < 8
    decide

/-! ## Truncation: a run clipped at an interior line start agrees with the
full run up to that point -/

lemma forward_congr (k e : Nat) (σ : ScanState) (h1 : σ.pos + 1 ≤ k)
    (h2 : k ≤ e) : forward k σ = forward e σ := by
  unfold forward
  rw [min_eq_left (by omega), min_eq_left (by omega)]

lemma scanLoop_succ (kw : List (List Char)) (doc : List Char) (e : Nat)
    (n : Nat) (σ : ScanState) :
    scanLoop kw doc e (n + 1) σ =
      if σ.pos < e then scanLoop kw doc e n (scanStep kw doc e σ) else σ := rfl

lemma scanLoop_add (kw : List (List Char)) (doc : List Char) (e : Nat) :
    ∀ (f g : Nat) (σ : ScanState),
      scanLoop kw doc e (f + g) σ = scanLoop kw doc e g (scanLoop kw doc e f σ) := by
  intro f
  induction f with
  | zero =>
    intro g σ
    rw [Nat.zero_add]
    rfl
  | succ n ih =>
    intro g σ
    rw [show n + 1 + g = (n + g) + 1 from by omega]
    rw [scanLoop_succ, scanLoop_succ]
    by_cases hp : σ.pos < e
    · rw [if_pos hp, if_pos hp]
      exact ih g (scanStep kw doc e σ)
    · rw [if_neg hp, if_neg hp]
      exact (scanLoop_stuck kw doc e g σ (by omega)).symm

lemma scanLoop_fuel_irrel (kw : List (List Char)) (doc : List Char)
    {s0 e : Nat} (σ : ScanState) (h : Tracks s0 e σ) (f g : Nat)
    (hf : e ≤ σ.pos + f) (hg : e ≤ σ.pos + g) :
    scanLoop kw doc e f σ = scanLoop kw doc e g σ := by
  have habs : ∀ a d : Nat, e ≤ σ.pos + a →
      scanLoop kw doc e (a + d) σ = scanLoop kw doc e a σ := by
    intro a d ha
    rw [scanLoop_add]
    exact scanLoop_stuck kw doc e d _
      (le_of_eq (scanLoop_run kw doc a σ h ha).2.symm)
  rcases Nat.le_total f g with hfg | hfg
  · rw [show g = f + (g - f) from by omega, habs f (g - f) hf]
  · rw [show f = g + (f - g) from by omega, habs g (f - g) hg]

lemma handleStringState_no_again (doc : List Char) (E : Nat) (σ : ScanState) :
    ∀ σ', handleStringState doc E σ ≠ .again σ' := by
  unfold handleStringState
  dsimp only
  repeat' split
  all_goals intro σ' heq
  all_goals exact SwitchRes.noConfusion heq

lemma switchOnce_again_pos (kw : List (List Char)) (doc : List Char) (E : Nat)
    (σ : ScanState) :
    ∀ σ', switchOnce kw doc E σ = .again σ' → σ'.pos = σ.pos := by
  unfold switchOnce
  dsimp only
  repeat' split
  all_goals intro σ' heq
  all_goals first
    | exact SwitchRes.noConfusion heq
    | (injection heq with h; subst h; rfl)
    | exact absurd heq (handleStringState_no_again doc E σ σ')

lemma handleStringState_endPos_irrel (doc : List Char) (k e : Nat)
    (σ : ScanState) (hpk : σ.pos < k) (hnl : charAt doc (k - 1) = '\n')
    (hke : k ≤ e) : handleStringState doc k σ = handleStringState doc e σ := by
  unfold handleStringState
  dsimp only
  by_cases h1 : charAt doc σ.pos = '$'
  case neg =>
    simp only [if_neg h1]
    by_cases h5 : atLineStart doc σ.pos = true
    · simp only [if_pos h5]
    simp only [if_neg h5]
    by_cases h7 : (σ.state = SCE_NSIS_STRINGSQ ∧ charAt doc σ.pos = '\'') ∨
        (σ.state = SCE_NSIS_STRINGDQ ∧ charAt doc σ.pos = '"') ∨
        (σ.state = SCE_NSIS_STRINGBT ∧ charAt doc σ.pos = '`')
    · simp only [if_pos h7]
      unfold forwardSetState
      rw [forward_congr k e σ (by omega) hke]
    · simp only [if_neg h7]
  simp only [if_pos h1]
  have hlt2 : σ.pos + 2 ≤ k := by
    by_contra hx
    have hkp : k - 1 = σ.pos := by omega
    rw [hkp, h1] at hnl
    exact absurd hnl (by decide)
  by_cases h2 : charAt doc (σ.pos + 1) = '$' ∨
      (charAt doc (σ.pos + 1) = '\\' ∧ IsEscapeChar (charAt doc (σ.pos + 2)) = true)
  case neg => simp only [if_neg h2]
  simp only [if_pos h2]
  have hf1 : forward k (setState σ SCE_NSIS_ESCAPECHAR) =
      forward e (setState σ SCE_NSIS_ESCAPECHAR) :=
    forward_congr k e _ (by show σ.pos + 1 ≤ k; omega) hke
  by_cases hb : charAt doc (σ.pos + 1) = '\\'
  · simp only [if_pos hb]
    have hlt3 : σ.pos + 3 ≤ k := by
      by_contra hx
      have hkp : k - 1 = σ.pos + 1 := by omega
      rw [hkp, hb] at hnl
      exact absurd hnl (by decide)
    have hf2 : forward k (forward k (setState σ SCE_NSIS_ESCAPECHAR)) =
        forward e (forward e (setState σ SCE_NSIS_ESCAPECHAR)) := by
      rw [hf1]
      exact forward_congr k e _ (by show min (σ.pos + 1) e + 1 ≤ k; omega) hke
    unfold forwardSetState
    rw [hf2, forward_congr k e _
      (by show min (min (σ.pos + 1) e + 1) e + 1 ≤ k; omega) hke]
  · simp only [if_neg hb]
    unfold forwardSetState
    rw [hf1, forward_congr k e _
      (by show min (σ.pos + 1) e + 1 ≤ k; omega) hke]

lemma switchOnce_endPos_irrel (kw : List (List Char)) (doc : List Char)
    (k e : Nat) (σ : ScanState) (hpk : σ.pos < k)
    (hnl : charAt doc (k - 1) = '\n') (hke : k ≤ e) :
    switchOnce kw doc k σ = switchOnce kw doc e σ := by
  unfold switchOnce
  dsimp only
  by_cases s1 : σ.state = SCE_NSIS_OPERATOR
  · simp only [if_pos s1]
  simp only [if_neg s1]
  by_cases s2 : σ.state = SCE_NSIS_NUMBER
  · simp only [if_pos s2]
    by_cases d1 : IsDecimalNumber (if σ.pos = 0 then ' ' else charAt doc (σ.pos - 1))
        (charAt doc σ.pos) (charAt doc (σ.pos + 1)) = true
    · simp only [if_pos d1]
    simp only [if_neg d1]
    by_cases dp : charAt doc σ.pos = '%'
    · simp only [if_pos dp]
      rw [forward_congr k e σ (by omega) hke]
    · simp only [if_neg dp]
  simp only [if_neg s2]
  by_cases s3 : σ.state = SCE_NSIS_IDENTIFIER
  · simp only [if_pos s3]
  simp only [if_neg s3]
  by_cases s4 : isStringStyle σ.state = true
  · simp only [if_pos s4]
    exact handleStringState_endPos_irrel doc k e σ hpk hnl hke
  simp only [if_neg s4]
  by_cases s5 : σ.state = SCE_NSIS_VARIABLE
  · simp only [if_pos s5]
  simp only [if_neg s5]
  by_cases s6 : σ.state = SCE_NSIS_VARIABLE_BRACE ∨ σ.state = SCE_NSIS_VARIABLE_PAREN
  · simp only [if_pos s6]
    by_cases d4 : (σ.state = SCE_NSIS_VARIABLE_BRACE ∧ charAt doc σ.pos = '}') ∨
        (σ.state = SCE_NSIS_VARIABLE_PAREN ∧ charAt doc σ.pos = ')')
    · simp only [if_pos d4]
      unfold forwardSetState
      rw [forward_congr k e σ (by omega) hke]
    · simp only [if_neg d4]
  simp only [if_neg s6]
  by_cases s7 : σ.state = SCE_NSIS_COMMENTLINE
  · simp only [if_pos s7]
  simp only [if_neg s7]
  by_cases s8 : σ.state = SCE_NSIS_COMMENT
  · simp only [if_pos s8]
    by_cases d6 : charAt doc σ.pos = '*' ∧ charAt doc (σ.pos + 1) = '/'
    · simp only [if_pos d6]
      have hlt2 : σ.pos + 2 ≤ k := by
        by_contra hx
        have hkp : k - 1 = σ.pos := by omega
        rw [hkp, d6.1] at hnl
        exact absurd hnl (by decide)
      have hf1 : forward k σ = forward e σ := forward_congr k e σ (by omega) hke
      unfold forwardSetState
      rw [hf1, forward_congr k e _
        (by show min (σ.pos + 1) e + 1 ≤ k; omega) hke]
    · simp only [if_neg d6]
  simp only [if_neg s8]

lemma dispatchDefault_endPos_irrel (doc : List Char) (k e : Nat) (σ : ScanState)
    (hpk : σ.pos < k) (hke : k ≤ e) :
    dispatchDefault doc k σ = dispatchDefault doc e σ := by
  unfold dispatchDefault
  by_cases h0 : σ.state = SCE_NSIS_DEFAULT
  case neg => simp only [if_neg h0]
  simp only [if_pos h0]
  by_cases c1 : charAt doc σ.pos = ';' ∨ charAt doc σ.pos = '#'
  · simp only [if_pos c1]
  simp only [if_neg c1]
  by_cases c2 : charAt doc σ.pos = '/' ∧ charAt doc (σ.pos + 1) = '*'
  · simp only [if_pos c2]
    rw [forward_congr k e _ (by show σ.pos + 1 ≤ k; omega) hke]
  simp only [if_neg c2]

lemma handleStringState_fall_pos_lt (doc : List Char) (E k : Nat)
    (σ : ScanState) (hpk : σ.pos < k) (hnl : charAt doc (k - 1) = '\n') :
    ∀ σ', handleStringState doc E σ = .fall σ' → σ'.pos < k := by
  unfold handleStringState
  dsimp only
  by_cases h1 : charAt doc σ.pos = '$'
  · rw [if_pos h1]
    by_cases h2 : charAt doc (σ.pos + 1) = '$' ∨
        (charAt doc (σ.pos + 1) = '\\' ∧ IsEscapeChar (charAt doc (σ.pos + 2)) = true)
    · rw [if_pos h2]
      intro σ' heq
      exact SwitchRes.noConfusion heq
    rw [if_neg h2]
    by_cases h3 : charAt doc (σ.pos + 1) = '{' ∨ charAt doc (σ.pos + 1) = '('
    · rw [if_pos h3]
      intro σ' heq
      injection heq with h
      subst h
      exact hpk
    rw [if_neg h3]
    by_cases h4 : IsIdentifierChar (charAt doc (σ.pos + 1)) = true
    · rw [if_pos h4]
      intro σ' heq
      injection heq with h
      subst h
      exact hpk
    · rw [if_neg h4]
      intro σ' heq
      injection heq with h
      subst h
      exact hpk
  rw [if_neg h1]
  by_cases h5 : atLineStart doc σ.pos = true
  · rw [if_pos h5]
    by_cases h6 : σ.lineContinuation = true
    · rw [if_pos h6]
      intro σ' heq
      injection heq with h
      subst h
      exact hpk
    · rw [if_neg h6]
      intro σ' heq
      injection heq with h
      subst h
      exact hpk
  rw [if_neg h5]
  by_cases h7 : (σ.state = SCE_NSIS_STRINGSQ ∧ charAt doc σ.pos = '\'') ∨
      (σ.state = SCE_NSIS_STRINGDQ ∧ charAt doc σ.pos = '"') ∨
      (σ.state = SCE_NSIS_STRINGBT ∧ charAt doc σ.pos = '`')
  · rw [if_pos h7]
    intro σ' heq
    injection heq with h
    subst h
    have hq : σ.pos + 1 < k := by
      by_contra hx
      have hkp : k - 1 = σ.pos := by omega
      rcases h7 with ⟨-, hch⟩ | ⟨-, hch⟩ | ⟨-, hch⟩ <;>
        (rw [hkp, hch] at hnl; exact absurd hnl (by decide))
    show min (σ.pos + 1) E < k
    omega
  · rw [if_neg h7]
    intro σ' heq
    injection heq with h
    subst h
    exact hpk

lemma switchOnce_fall_pos_lt (kw : List (List Char)) (doc : List Char)
    (k E : Nat) (σ : ScanState) (hpk : σ.pos < k)
    (hnl : charAt doc (k - 1) = '\n') :
    ∀ σ', switchOnce kw doc E σ = .fall σ' → σ'.pos < k := by
  unfold switchOnce
  dsimp only
  by_cases s1 : σ.state = SCE_NSIS_OPERATOR
  · rw [if_pos s1]
    intro σ' heq
    injection heq with h
    subst h
    exact hpk
  rw [if_neg s1]
  by_cases s2 : σ.state = SCE_NSIS_NUMBER
  · rw [if_pos s2]
    by_cases d1 : IsDecimalNumber (if σ.pos = 0 then ' ' else charAt doc (σ.pos - 1))
        (charAt doc σ.pos) (charAt doc (σ.pos + 1)) = true
    · rw [if_pos d1]
      intro σ' heq
      injection heq with h
      subst h
      exact hpk
    rw [if_neg d1]
    by_cases dp : charAt doc σ.pos = '%'
    · rw [if_pos dp]
      intro σ' heq
      injection heq with h
      subst h
      have hq : σ.pos + 1 < k := by
        by_contra hx
        have hkp : k - 1 = σ.pos := by omega
        rw [hkp, dp] at hnl
        exact absurd hnl (by decide)
      show min (σ.pos + 1) E < k
      omega
    · rw [if_neg dp]
      intro σ' heq
      injection heq with h
      subst h
      exact hpk
  rw [if_neg s2]
  by_cases s3 : σ.state = SCE_NSIS_IDENTIFIER
  · rw [if_pos s3]
    by_cases d2 : IsIdentifierChar (charAt doc σ.pos) = true
    · rw [if_pos d2]
      intro σ' heq
      injection heq with h
      subst h
      exact hpk
    · rw [if_neg d2]
      intro σ' heq
      injection heq with h
      subst h
      obtain ⟨j1, -⟩ := identClose_jfields kw doc σ
      rw [j1]
      exact hpk
  rw [if_neg s3]
  by_cases s4 : isStringStyle σ.state = true
  · rw [if_pos s4]
    exact handleStringState_fall_pos_lt doc E k σ hpk hnl
  rw [if_neg s4]
  by_cases s5 : σ.state = SCE_NSIS_VARIABLE
  · rw [if_pos s5]
    by_cases d3 : IsIdentifierChar (charAt doc σ.pos) = true
    · rw [if_pos d3]
      intro σ' heq
      injection heq with h
      subst h
      exact hpk
    · rw [if_neg d3]
      intro σ' heq
      exact SwitchRes.noConfusion heq
  rw [if_neg s5]
  by_cases s6 : σ.state = SCE_NSIS_VARIABLE_BRACE ∨ σ.state = SCE_NSIS_VARIABLE_PAREN
  · rw [if_pos s6]
    by_cases d4 : (σ.state = SCE_NSIS_VARIABLE_BRACE ∧ charAt doc σ.pos = '}') ∨
        (σ.state = SCE_NSIS_VARIABLE_PAREN ∧ charAt doc σ.pos = ')')
    · rw [if_pos d4]
      intro σ' heq
      exact SwitchRes.noConfusion heq
    · rw [if_neg d4]
      intro σ' heq
      injection heq with h
      subst h
      exact hpk
  rw [if_neg s6]
  by_cases s7 : σ.state = SCE_NSIS_COMMENTLINE
  · rw [if_pos s7]
    by_cases d5 : atLineStart doc σ.pos = true ∧ ¬ σ.lineContinuation = true
    · rw [if_pos d5]
      intro σ' heq
      injection heq with h
      subst h
      exact hpk
    · rw [if_neg d5]
      intro σ' heq
      injection heq with h
      subst h
      exact hpk
  rw [if_neg s7]
  by_cases s8 : σ.state = SCE_NSIS_COMMENT
  · rw [if_pos s8]
    by_cases d6 : charAt doc σ.pos = '*' ∧ charAt doc (σ.pos + 1) = '/'
    · rw [if_pos d6]
      intro σ' heq
      injection heq with h
      subst h
      have hq1 : σ.pos + 1 < k := by
        by_contra hx
        have hkp : k - 1 = σ.pos := by omega
        rw [hkp, d6.1] at hnl
        exact absurd hnl (by decide)
      have hq2 : σ.pos + 2 < k := by
        by_contra hx
        have hkp : k - 1 = σ.pos + 1 := by omega
        rw [hkp, d6.2] at hnl
        exact absurd hnl (by decide)
      show min (min (σ.pos + 1) E + 1) E < k
      omega
    · rw [if_neg d6]
      intro σ' heq
      injection heq with h
      subst h
      exact hpk
  rw [if_neg s8]
  intro σ' heq
  injection heq with h
  subst h
  exact hpk

lemma scanStep_endPos_irrel (kw : List (List Char)) (doc : List Char)
    (k e : Nat) (σ : ScanState) (hpk : σ.pos < k)
    (hnl : charAt doc (k - 1) = '\n') (hke : k ≤ e) :
    scanStep kw doc k σ = scanStep kw doc e σ := by
  have hfin : ∀ τ : ScanState, τ.pos < k →
      forward k (bookkeep doc (dispatchDefault doc k τ)) =
      forward e (bookkeep doc (dispatchDefault doc e τ)) := by
    intro τ hτ
    rw [dispatchDefault_endPos_irrel doc k e τ hτ hke]
    apply forward_congr _ _ _ ?_ hke
    obtain ⟨hbp, -, -, -⟩ := bookkeep_fields doc (dispatchDefault doc e τ)
    rw [hbp]
    obtain ⟨-, -, -, g4, -⟩ := dispatchDefault_jfields doc e τ
    rcases g4 with hp | ⟨hp, hsl⟩
    · rw [hp]; omega
    · rw [hp]
      have hq : τ.pos + 1 < k := by
        by_contra hx
        have hkp : k - 1 = τ.pos := by omega
        rw [hkp, hsl] at hnl
        exact absurd hnl (by decide)
      omega
  unfold scanStep
  dsimp only
  rw [← switchOnce_endPos_irrel kw doc k e σ hpk hnl hke]
  cases hsw : switchOnce kw doc k σ with
  | cont σ' => rfl
  | fall σ' =>
    dsimp only
    exact hfin σ' (switchOnce_fall_pos_lt kw doc k k σ hpk hnl σ' hsw)
  | again σ' =>
    dsimp only
    have ha : σ'.pos = σ.pos := switchOnce_again_pos kw doc k σ σ' hsw
    rw [← switchOnce_endPos_irrel kw doc k e σ' (by omega) hnl hke]
    cases hsw2 : switchOnce kw doc k σ' with
    | cont σ'' => rfl
    | fall σ'' =>
      dsimp only
      exact hfin σ'' (switchOnce_fall_pos_lt kw doc k k σ' (by omega) hnl σ'' hsw2)
    | again σ'' =>
      dsimp only
      have hb : σ''.pos = σ'.pos := switchOnce_again_pos kw doc k σ' σ'' hsw2
      exact hfin σ'' (by omega)

/-- Splitting a fuelled run at an interior line start: the combined run equals
the clipped run followed by the remainder. -/
lemma scanLoop_resume (kw : List (List Char)) (doc : List Char) (s0 k e : Nat)
    (hke : k ≤ e) (hnl : charAt doc (k - 1) = '\n') :
    ∀ (f g : Nat) (σ : ScanState), Tracks s0 k σ → k ≤ σ.pos + f → e ≤ k + g →
      scanLoop kw doc e (f + g) σ = scanLoop kw doc e g (scanLoop kw doc k f σ) := by
  intro f
  induction f with
  | zero =>
    intro g σ ht hkf heg
    rw [Nat.zero_add]
    rfl
  | succ n ih =>
    intro g σ ht hkf heg
    obtain ⟨-, -, hpk, -⟩ := id ht
    by_cases hp : σ.pos < k
    · have hstep := scanStep_endPos_irrel kw doc k e σ hp hnl hke
      obtain ⟨ht', hlt⟩ := scanStep_tracks kw doc ht
      rw [show n + 1 + g = (n + g) + 1 from by omega]
      rw [scanLoop_succ kw doc e (n + g) σ, if_pos (by omega)]
      rw [scanLoop_succ kw doc k n σ, if_pos hp]
      rw [← hstep]
      refine ih g (scanStep kw doc k σ) ht' ?_ heg
      have := hlt hp
      omega
    · have hpe : σ.pos = k := by omega
      rw [scanLoop_stuck kw doc k (n + 1) σ (by omega)]
      have hte : Tracks s0 e σ := by
        obtain ⟨a, b, c, d⟩ := ht
        exact ⟨a, b, by omega, d⟩
      exact scanLoop_fuel_irrel kw doc σ hte (n + 1 + g) g (by omega) (by omega)

/-- A fuelled run that ends exactly at the end of its range factors through a
final step taken from strictly inside the range. -/
lemma scanLoop_last (kw : List (List Char)) (doc : List Char) (e : Nat) :
    ∀ (f : Nat) (σ : ScanState), σ.pos < e →
      (scanLoop kw doc e f σ).pos = e →
      ∃ m, (scanLoop kw doc e m σ).pos < e ∧
        scanLoop kw doc e f σ = scanStep kw doc e (scanLoop kw doc e m σ) := by
  intro f
  induction f with
  | zero =>
    intro σ h1 h2
    simp only [scanLoop] at h2
    omega
  | succ n ih =>
    intro σ h1 h2
    rw [scanLoop_succ kw doc e n σ, if_pos h1] at h2 ⊢
    by_cases hp : (scanStep kw doc e σ).pos < e
    · obtain ⟨m, hm1, hm2⟩ := ih _ hp h2
      refine ⟨m + 1, ?_, ?_⟩
      · rw [scanLoop_succ kw doc e m σ, if_pos h1]
        exact hm1
      · rw [hm2, scanLoop_succ kw doc e m σ, if_pos h1]
    · rw [scanLoop_stuck kw doc e n _ (by omega)] at h2 ⊢
      exact ⟨0, h1, rfl⟩

lemma identClose_state (kw : List (List Char)) (doc : List Char) (σ : ScanState) :
    (identClose kw doc σ).state = SCE_NSIS_DEFAULT := by
  unfold identClose
  dsimp only
  repeat' split
  all_goals rfl

lemma dispatchDefault_nop (doc : List Char) (e : Nat) (σ : ScanState)
    (h : ¬ σ.state = SCE_NSIS_DEFAULT) : dispatchDefault doc e σ = σ := by
  unfold dispatchDefault
  rw [if_neg h]

/-- If the dispatch leaves the identifier state behind, it either was already
there or entered it on a `!`/identifier-start byte without moving. -/
lemma dispatchDefault_id_char (doc : List Char) (e : Nat) (σ : ScanState)
    (h : (dispatchDefault doc e σ).state = SCE_NSIS_IDENTIFIER) :
    (dispatchDefault doc e σ).pos = σ.pos ∧
    (σ.state = SCE_NSIS_IDENTIFIER ∨ charAt doc σ.pos = '!' ∨
      IsIdentifierStart (charAt doc σ.pos) = true) := by
  by_cases h0 : σ.state = SCE_NSIS_DEFAULT
  case neg =>
    rw [dispatchDefault_nop doc e σ h0] at h ⊢
    exact ⟨rfl, Or.inl h⟩
  revert h
  unfold dispatchDefault
  rw [if_pos h0]
  by_cases c1 : charAt doc σ.pos = ';' ∨ charAt doc σ.pos = '#'
  · rw [if_pos c1]
    by_cases cv : σ.visibleChars = 0
    · rw [if_pos cv]; intro h; simp only [setState, forward] at h; exact absurd h (by decide)
    · rw [if_neg cv]; intro h; simp only [setState, forward] at h; exact absurd h (by decide)
  rw [if_neg c1]
  by_cases c2 : charAt doc σ.pos = '/' ∧ charAt doc (σ.pos + 1) = '*'
  · rw [if_pos c2]; intro h; simp only [setState, forward] at h; exact absurd h (by decide)
  rw [if_neg c2]
  by_cases c3 : charAt doc σ.pos = '\''
  · rw [if_pos c3]; intro h; simp only [setState, forward] at h; exact absurd h (by decide)
  rw [if_neg c3]
  by_cases c4 : charAt doc σ.pos = '"'
  · rw [if_pos c4]; intro h; simp only [setState, forward] at h; exact absurd h (by decide)
  rw [if_neg c4]
  by_cases c5 : charAt doc σ.pos = '`'
  · rw [if_pos c5]; intro h; simp only [setState, forward] at h; exact absurd h (by decide)
  rw [if_neg c5]
  by_cases c6 : IsNumberStart (charAt doc σ.pos) (charAt doc (σ.pos + 1)) = true
  · rw [if_pos c6]; intro h; simp only [setState, forward] at h; exact absurd h (by decide)
  rw [if_neg c6]
  by_cases c7 : charAt doc σ.pos = '$' ∧ IsIdentifierChar (charAt doc (σ.pos + 1)) = true
  · rw [if_pos c7]; intro h; simp only [setState, forward] at h; exact absurd h (by decide)
  rw [if_neg c7]
  by_cases c8 : charAt doc σ.pos = '$' ∧
      (charAt doc (σ.pos + 1) = '{' ∨ charAt doc (σ.pos + 1) = '(')
  · rw [if_pos c8]
    by_cases c8b : charAt doc (σ.pos + 1) = '{'
    · rw [if_pos c8b]; intro h; simp only [setState, forward] at h; exact absurd h (by decide)
    · rw [if_neg c8b]; intro h; simp only [setState, forward] at h; exact absurd h (by decide)
  rw [if_neg c8]
  by_cases c9 : (σ.visibleChars = 0 ∧ charAt doc σ.pos = '!') ∨
      IsIdentifierStart (charAt doc σ.pos) = true
  · rw [if_pos c9]
    intro h
    refine ⟨rfl, Or.inr ?_⟩
    rcases c9 with ⟨-, hb⟩ | hb
    · exact Or.inl hb
    · exact Or.inr hb
  rw [if_neg c9]
  by_cases c10 : isoperator (charAt doc σ.pos) = true
  · rw [if_pos c10]; intro h; simp only [setState, forward] at h; exact absurd h (by decide)
  rw [if_neg c10]
  intro h
  rw [show (σ : ScanState).state = SCE_NSIS_DEFAULT from h0] at h
  exact absurd h (by decide)

/-- A fall out of the string handler never carries the identifier state. -/
lemma handleStringState_fall_state (doc : List Char) (E : Nat) (σ : ScanState)
    (hstr : isStringStyle σ.state = true) :
    ∀ σ', handleStringState doc E σ = .fall σ' →
      σ'.state ≠ SCE_NSIS_IDENTIFIER := by
  have hsne : σ.state ≠ SCE_NSIS_IDENTIFIER := by
    simp only [isStringStyle, Bool.or_eq_true, decide_eq_true_eq] at hstr
    rcases hstr with (h | h) | h <;> (rw [h]; decide)
  unfold handleStringState
  dsimp only
  repeat' split
  all_goals intro σ' heq
  all_goals first
    | exact SwitchRes.noConfusion heq
    | (injection heq with h; subst h; exact hsne)
    | (injection heq with h; subst h; intro hx;
       simp only [setState, forward, forwardSetState] at hx;
       exact absurd hx (by decide))

/-- A fall out of the switch is in the identifier state only on the identifier
stay branch, whose byte is an identifier character. -/
lemma switchOnce_fall_id (kw : List (List Char)) (doc : List Char) (E : Nat)
    (σ : ScanState) :
    ∀ σ', switchOnce kw doc E σ = .fall σ' →
      σ'.state = SCE_NSIS_IDENTIFIER →
      IsIdentifierChar (charAt doc σ'.pos) = true := by
  unfold switchOnce
  dsimp only
  by_cases s1 : σ.state = SCE_NSIS_OPERATOR
  · rw [if_pos s1]
    intro σ' heq
    injection heq with h
    subst h
    intro hx
    simp only [setState] at hx
    exact absurd hx (by decide)
  rw [if_neg s1]
  by_cases s2 : σ.state = SCE_NSIS_NUMBER
  · rw [if_pos s2]
    by_cases d1 : IsDecimalNumber (if σ.pos = 0 then ' ' else charAt doc (σ.pos - 1))
        (charAt doc σ.pos) (charAt doc (σ.pos + 1)) = true
    · rw [if_pos d1]
      intro σ' heq
      injection heq with h
      subst h
      intro hx
      rw [s2] at hx
      exact absurd hx (by decide)
    rw [if_neg d1]
    by_cases dp : charAt doc σ.pos = '%'
    · rw [if_pos dp]
      intro σ' heq
      injection heq with h
      subst h
      intro hx
      simp only [setState] at hx
      exact absurd hx (by decide)
    · rw [if_neg dp]
      intro σ' heq
      injection heq with h
      subst h
      intro hx
      simp only [setState] at hx
      exact absurd hx (by decide)
  rw [if_neg s2]
  by_cases s3 : σ.state = SCE_NSIS_IDENTIFIER
  · rw [if_pos s3]
    by_cases d2 : IsIdentifierChar (charAt doc σ.pos) = true
    · rw [if_pos d2]
      intro σ' heq
      injection heq with h
      subst h
      intro hx
      exact d2
    · rw [if_neg d2]
      intro σ' heq
      injection heq with h
      subst h
      intro hx
      rw [identClose_state kw doc σ] at hx
      exact absurd hx (by decide)
  rw [if_neg s3]
  by_cases s4 : isStringStyle σ.state = true
  · rw [if_pos s4]
    intro σ' heq hx
    exact absurd hx (handleStringState_fall_state doc E σ s4 σ' heq)
  rw [if_neg s4]
  by_cases s5 : σ.state = SCE_NSIS_VARIABLE
  · rw [if_pos s5]
    by_cases d3 : IsIdentifierChar (charAt doc σ.pos) = true
    · rw [if_pos d3]
      intro σ' heq
      injection heq with h
      subst h
      intro hx
      rw [s5] at hx
      exact absurd hx (by decide)
    · rw [if_neg d3]
      intro σ' heq
      exact SwitchRes.noConfusion heq
  rw [if_neg s5]
  by_cases s6 : σ.state = SCE_NSIS_VARIABLE_BRACE ∨ σ.state = SCE_NSIS_VARIABLE_PAREN
  · rw [if_pos s6]
    by_cases d4 : (σ.state = SCE_NSIS_VARIABLE_BRACE ∧ charAt doc σ.pos = '}') ∨
        (σ.state = SCE_NSIS_VARIABLE_PAREN ∧ charAt doc σ.pos = ')')
    · rw [if_pos d4]
      intro σ' heq
      exact SwitchRes.noConfusion heq
    · rw [if_neg d4]
      intro σ' heq
      injection heq with h
      subst h
      intro hx
      rcases s6 with h6 | h6 <;> (rw [h6] at hx; exact absurd hx (by decide))
  rw [if_neg s6]
  by_cases s7 : σ.state = SCE_NSIS_COMMENTLINE
  · rw [if_pos s7]
    by_cases d5 : atLineStart doc σ.pos = true ∧ ¬ σ.lineContinuation = true
    · rw [if_pos d5]
      intro σ' heq
      injection heq with h
      subst h
      intro hx
      simp only [setState] at hx
      exact absurd hx (by decide)
    · rw [if_neg d5]
      intro σ' heq
      injection heq with h
      subst h
      intro hx
      rw [s7] at hx
      exact absurd hx (by decide)
  rw [if_neg s7]
  by_cases s8 : σ.state = SCE_NSIS_COMMENT
  · rw [if_pos s8]
    by_cases d6 : charAt doc σ.pos = '*' ∧ charAt doc (σ.pos + 1) = '/'
    · rw [if_pos d6]
      intro σ' heq
      injection heq with h
      subst h
      intro hx
      simp only [forwardSetState, setState, forward] at hx
      exact absurd hx (by decide)
    · rw [if_neg d6]
      intro σ' heq
      injection heq with h
      subst h
      intro hx
      rw [s8] at hx
      exact absurd hx (by decide)
  rw [if_neg s8]
  intro σ' heq
  injection heq with h
  subst h
  intro hx
  exact absurd hx s3

/-- A `continue` out of the string handler (the `$`-escape path) lands strictly
before an interior line start: none of its advances steps over a newline. -/
lemma handleStringState_cont_pos_lt (doc : List Char) (k : Nat)
    (σ : ScanState) (hpk : σ.pos < k) (hnl : charAt doc (k - 1) = '\n') :
    ∀ σ', handleStringState doc k σ = .cont σ' → σ'.pos < k := by
  have hchar : ∀ (d : Nat) (c : Char), charAt doc (σ.pos + d) = c → c ≠ '\n' →
      k - 1 ≠ σ.pos + d := by
    intro d c hc hne hx
    rw [hx, hc] at hnl
    exact hne hnl
  unfold handleStringState
  dsimp only
  by_cases h1 : charAt doc σ.pos = '$'
  · rw [if_pos h1]
    by_cases h2 : charAt doc (σ.pos + 1) = '$' ∨
        (charAt doc (σ.pos + 1) = '\\' ∧ IsEscapeChar (charAt doc (σ.pos + 2)) = true)
    · rw [if_pos h2]
      intro σ' heq
      injection heq with h
      subst h
      by_cases hb : charAt doc (σ.pos + 1) = '\\'
      · rw [if_pos hb]
        have he2 : IsEscapeChar (charAt doc (σ.pos + 2)) = true := by
          rcases h2 with ha | ⟨-, hb2⟩
          · rw [ha] at hb; exact absurd hb (by decide)
          · exact hb2
        have hr1 : k - 1 ≠ σ.pos := hchar 0 '$' h1 (by decide)
        have hr2 : k - 1 ≠ σ.pos + 1 := hchar 1 '\\' hb (by decide)
        have hr3 : k - 1 ≠ σ.pos + 2 := by
          intro hx
          rw [hx] at hnl
          rw [hnl] at he2
          exact absurd he2 (by decide)
        show min (min (min (σ.pos + 1) k + 1) k + 1) k < k
        omega
      · rw [if_neg hb]
        have ha : charAt doc (σ.pos + 1) = '$' := by
          rcases h2 with ha | ⟨ha, -⟩
          · exact ha
          · exact absurd ha hb
        have hr1 : k - 1 ≠ σ.pos := hchar 0 '$' h1 (by decide)
        have hr2 : k - 1 ≠ σ.pos + 1 := hchar 1 '$' ha (by decide)
        show min (min (σ.pos + 1) k + 1) k < k
        omega
    rw [if_neg h2]
    by_cases h3 : charAt doc (σ.pos + 1) = '{' ∨ charAt doc (σ.pos + 1) = '('
    · rw [if_pos h3]
      intro σ' heq
      exact SwitchRes.noConfusion heq
    rw [if_neg h3]
    by_cases h4 : IsIdentifierChar (charAt doc (σ.pos + 1)) = true
    · rw [if_pos h4]
      intro σ' heq
      exact SwitchRes.noConfusion heq
    · rw [if_neg h4]
      intro σ' heq
      exact SwitchRes.noConfusion heq
  rw [if_neg h1]
  by_cases h5 : atLineStart doc σ.pos = true
  · rw [if_pos h5]
    by_cases h6 : σ.lineContinuation = true
    · rw [if_pos h6]
      intro σ' heq
      exact SwitchRes.noConfusion heq
    · rw [if_neg h6]
      intro σ' heq
      exact SwitchRes.noConfusion heq
  rw [if_neg h5]
  by_cases h7 : (σ.state = SCE_NSIS_STRINGSQ ∧ charAt doc σ.pos = '\'') ∨
      (σ.state = SCE_NSIS_STRINGDQ ∧ charAt doc σ.pos = '"') ∨
      (σ.state = SCE_NSIS_STRINGBT ∧ charAt doc σ.pos = '`')
  · rw [if_pos h7]
    intro σ' heq
    exact SwitchRes.noConfusion heq
  · rw [if_neg h7]
    intro σ' heq
    exact SwitchRes.noConfusion heq

/-- A `continue` out of the switch lands strictly before an interior line
start (its final advance never reaches the byte after a newline). -/
lemma switchOnce_cont_pos_lt (kw : List (List Char)) (doc : List Char)
    (k : Nat) (σ : ScanState) (hpk : σ.pos < k)
    (hnl : charAt doc (k - 1) = '\n') :
    ∀ σ', switchOnce kw doc k σ = .cont σ' → σ'.pos < k := by
  unfold switchOnce
  dsimp only
  by_cases s1 : σ.state = SCE_NSIS_OPERATOR
  · rw [if_pos s1]
    intro σ' heq
    exact SwitchRes.noConfusion heq
  rw [if_neg s1]
  by_cases s2 : σ.state = SCE_NSIS_NUMBER
  · rw [if_pos s2]
    by_cases d1 : IsDecimalNumber (if σ.pos = 0 then ' ' else charAt doc (σ.pos - 1))
        (charAt doc σ.pos) (charAt doc (σ.pos + 1)) = true
    · rw [if_pos d1]
      intro σ' heq
      exact SwitchRes.noConfusion heq
    rw [if_neg d1]
    by_cases dp : charAt doc σ.pos = '%'
    · rw [if_pos dp]
      intro σ' heq
      exact SwitchRes.noConfusion heq
    · rw [if_neg dp]
      intro σ' heq
      exact SwitchRes.noConfusion heq
  rw [if_neg s2]
  by_cases s3 : σ.state = SCE_NSIS_IDENTIFIER
  · rw [if_pos s3]
    by_cases d2 : IsIdentifierChar (charAt doc σ.pos) = true
    · rw [if_pos d2]
      intro σ' heq
      exact SwitchRes.noConfusion heq
    · rw [if_neg d2]
      intro σ' heq
      exact SwitchRes.noConfusion heq
  rw [if_neg s3]
  by_cases s4 : isStringStyle σ.state = true
  · rw [if_pos s4]
    exact handleStringState_cont_pos_lt doc k σ hpk hnl
  rw [if_neg s4]
  by_cases s5 : σ.state = SCE_NSIS_VARIABLE
  · rw [if_pos s5]
    by_cases d3 : IsIdentifierChar (charAt doc σ.pos) = true
    · rw [if_pos d3]
      intro σ' heq
      exact SwitchRes.noConfusion heq
    · rw [if_neg d3]
      intro σ' heq
      exact SwitchRes.noConfusion heq
  rw [if_neg s5]
  by_cases s6 : σ.state = SCE_NSIS_VARIABLE_BRACE ∨ σ.state = SCE_NSIS_VARIABLE_PAREN
  · rw [if_pos s6]
    by_cases d4 : (σ.state = SCE_NSIS_VARIABLE_BRACE ∧ charAt doc σ.pos = '}') ∨
        (σ.state = SCE_NSIS_VARIABLE_PAREN ∧ charAt doc σ.pos = ')')
    · rw [if_pos d4]
      intro σ' heq
      injection heq with h
      subst h
      have hq : σ.pos + 1 < k := by
        by_contra hx
        have hkp : k - 1 = σ.pos := by omega
        rcases d4 with ⟨-, hc⟩ | ⟨-, hc⟩ <;>
          (rw [hkp, hc] at hnl; exact absurd hnl (by decide))
      show min (σ.pos + 1) k < k
      omega
    · rw [if_neg d4]
      intro σ' heq
      exact SwitchRes.noConfusion heq
  rw [if_neg s6]
  by_cases s7 : σ.state = SCE_NSIS_COMMENTLINE
  · rw [if_pos s7]
    by_cases d5 : atLineStart doc σ.pos = true ∧ ¬ σ.lineContinuation = true
    · rw [if_pos d5]
      intro σ' heq
      exact SwitchRes.noConfusion heq
    · rw [if_neg d5]
      intro σ' heq
      exact SwitchRes.noConfusion heq
  rw [if_neg s7]
  by_cases s8 : σ.state = SCE_NSIS_COMMENT
  · rw [if_pos s8]
    by_cases d6 : charAt doc σ.pos = '*' ∧ charAt doc (σ.pos + 1) = '/'
    · rw [if_pos d6]
      intro σ' heq
      exact SwitchRes.noConfusion heq
    · rw [if_neg d6]
      intro σ' heq
      exact SwitchRes.noConfusion heq
  rw [if_neg s8]
  intro σ' heq
  exact SwitchRes.noConfusion heq

/-- The payload of an `again` is the switch state restored to `variableOuter`;
its position, counters and saved outer state are untouched. -/
lemma switchOnce_again_fields (kw : List (List Char)) (doc : List Char)
    (E : Nat) (σ : ScanState) :
    ∀ σ', switchOnce kw doc E σ = .again σ' →
      σ'.state = σ.variableOuter ∧ σ'.variableOuter = σ.variableOuter := by
  unfold switchOnce
  dsimp only
  repeat' split
  all_goals intro σ' heq
  all_goals first
    | exact SwitchRes.noConfusion heq
    | (injection heq with h; subst h; exact ⟨rfl, rfl⟩)
    | exact absurd heq (handleStringState_no_again doc E σ σ')

/-! ## What a run guarantees when it lands exactly on an interior line start -/

/-- After the step that crosses the newline at `k - 1`, the line bookkeeping has
run: the continuation flag matches `LineEndsWith`, the line state of the crossed
line has just been written, the counters are reset on a non-continued line, and
the classification state is never the identifier state. -/
def Landing (doc : List Char) (k : Nat) (ρ : ScanState) : Prop :=
  ∃ t, t < 8 ∧
    ρ.state ≠ SCE_NSIS_IDENTIFIER ∧
    ρ.lineContinuation = LineEndsWith doc (k - 1) '\\' ∧
    (ρ.lineContinuation = true → ρ.lineStateLineType = t) ∧
    (ρ.lineContinuation = false → ρ.visibleChars = 0 ∧ ρ.lineStateLineType = 0) ∧
    getLineState ρ.lineStates (lineOf doc (k - 1)) =
      (if ρ.lineContinuation = true then NsisLineStateLineContinuation else 0) ||| t

lemma finLanding (doc : List Char) (k : Nat) (σd : ScanState)
    (hd : σd.pos = k - 1) (hnl : charAt doc (k - 1) = '\n')
    (ht8 : σd.lineStateLineType < 8)
    (hnid : σd.state ≠ SCE_NSIS_IDENTIFIER) :
    Landing doc k (forward k (bookkeep doc σd)) := by
  have hle : atLineEnd doc σd.pos = true := by
    rw [hd]
    simp [atLineEnd, hnl]
  obtain ⟨hc, hv, ht, hls⟩ := (bookkeep_vc doc σd).2 hle
  obtain ⟨-, -, -, hbst⟩ := bookkeep_fields doc σd
  obtain ⟨-, hfv, hfc, hfst, -, -, hft, -, hfls⟩ := forward_fields k (bookkeep doc σd)
  rw [hd] at hc hv ht hls
  refine ⟨σd.lineStateLineType, ht8, ?_, ?_, ?_, ?_, ?_⟩
  · rw [hfst, hbst]
    exact hnid
  · rw [hfc]
    exact hc
  · intro hcon
    rw [hfc, hc] at hcon
    rw [hft, ht, if_pos hcon]
  · intro hcon
    rw [hfc, hc] at hcon
    constructor
    · rw [hfv, hv]
      simp [hcon]
    · rw [hft, ht]
      simp [hcon]
  · rw [hfls, hls, getLineState_set, hfc, hc]

lemma dispatchLanding (doc : List Char) (k : Nat) (σc : ScanState)
    (hp : σc.pos < k) (hnl : charAt doc (k - 1) = '\n')
    (ht8 : σc.lineStateLineType < 8)
    (hidc : σc.state = SCE_NSIS_IDENTIFIER →
      IsIdentifierChar (charAt doc σc.pos) = true)
    (hland : (forward k (bookkeep doc (dispatchDefault doc k σc))).pos = k) :
    Landing doc k (forward k (bookkeep doc (dispatchDefault doc k σc))) := by
  obtain ⟨-, -, -, hdp, -⟩ := dispatchDefault_jfields doc k σc
  obtain ⟨hbp, -, -, -⟩ := bookkeep_fields doc (dispatchDefault doc k σc)
  have hfp : (forward k (bookkeep doc (dispatchDefault doc k σc))).pos =
      min ((dispatchDefault doc k σc).pos + 1) k := by
    rw [(forward_fields k _).1, hbp]
  rw [hfp] at hland
  have hd : (dispatchDefault doc k σc).pos = k - 1 := by
    rcases hdp with hdp | ⟨hdp, hsl⟩
    · rw [hdp] at hland ⊢
      omega
    · have hne : σc.pos ≠ k - 1 := by
        intro hx
        rw [hx, hnl] at hsl
        exact absurd hsl (by decide)
      rw [hdp] at hland ⊢
      omega
  have hnid : (dispatchDefault doc k σc).state ≠ SCE_NSIS_IDENTIFIER := by
    intro hid
    obtain ⟨hpe, hcase⟩ := dispatchDefault_id_char doc k σc hid
    rw [hpe] at hd
    rcases hcase with hcase | hcase | hcase
    · have := hidc hcase
      rw [hd, hnl] at this
      exact absurd this (by decide)
    · rw [hd, hnl] at hcase
      exact absurd hcase (by decide)
    · rw [hd, hnl] at hcase
      exact absurd hcase (by decide)
  have hd' : (dispatchDefault doc k σc).pos = k - 1 := by
    rcases hdp with hdp | ⟨hdp, hsl⟩
    · rw [hdp] at hland ⊢
      omega
    · have hne : σc.pos ≠ k - 1 := by
        intro hx
        rw [hx, hnl] at hsl
        exact absurd hsl (by decide)
      rw [hdp] at hland ⊢
      omega
  exact finLanding doc k _ hd' hnl (dispatchDefault_typelt doc k σc ht8) hnid

lemma scanStep_landing (kw : List (List Char)) (doc : List Char) (k : Nat)
    (σ : ScanState) (hp : σ.pos < k) (hnl : charAt doc (k - 1) = '\n')
    (ht8 : σ.lineStateLineType < 8) (hvo : VarOuterOK σ)
    (hland : (scanStep kw doc k σ).pos = k) :
    Landing doc k (scanStep kw doc k σ) := by
  have htsw := switchOnce_typelt kw doc k σ ht8
  have hvsw := switchOnce_vo kw doc k σ hvo
  revert hland
  unfold scanStep
  dsimp only
  cases hsw : switchOnce kw doc k σ with
  | cont σ' =>
    dsimp only
    intro hland
    have := switchOnce_cont_pos_lt kw doc k σ hp hnl σ' hsw
    omega
  | fall σ' =>
    dsimp only
    rw [hsw] at htsw
    simp only [SwitchRes.st] at htsw
    intro hland
    exact dispatchLanding doc k σ' (switchOnce_fall_pos_lt kw doc k k σ hp hnl σ' hsw)
      hnl htsw (switchOnce_fall_id kw doc k σ σ' hsw) hland
  | again σ' =>
    dsimp only
    rw [hsw] at htsw hvsw
    simp only [SwitchRes.st] at htsw hvsw
    have hap : σ'.pos = σ.pos := switchOnce_again_pos kw doc k σ σ' hsw
    have hp' : σ'.pos < k := by omega
    have htsw2 := switchOnce_typelt kw doc k σ' htsw
    cases hsw2 : switchOnce kw doc k σ' with
    | cont σ'' =>
      dsimp only
      intro hland
      have := switchOnce_cont_pos_lt kw doc k σ' hp' hnl σ'' hsw2
      omega
    | fall σ'' =>
      dsimp only
      rw [hsw2] at htsw2
      simp only [SwitchRes.st] at htsw2
      intro hland
      exact dispatchLanding doc k σ''
        (switchOnce_fall_pos_lt kw doc k k σ' hp' hnl σ'' hsw2)
        hnl htsw2 (switchOnce_fall_id kw doc k σ' σ'' hsw2) hland
    | again σ'' =>
      dsimp only
      rw [hsw2] at htsw2
      simp only [SwitchRes.st] at htsw2
      have hap2 : σ''.pos = σ'.pos := switchOnce_again_pos kw doc k σ' σ'' hsw2
      obtain ⟨hst2, -⟩ := switchOnce_again_fields kw doc k σ' σ'' hsw2
      intro hland
      refine dispatchLanding doc k σ'' (by omega) hnl htsw2 ?_ hland
      intro hid
      rw [hst2] at hid
      rcases hvsw with hvd | hvs
      · rw [hvd] at hid
        exact absurd hid (by decide)
      · rw [hid] at hvs
        exact absurd hvs (by decide)

/-! ## The split-resume simulation relation -/

/-- Style-buffer relation between the full run (`σf`) and the resumed run
(`σr`, restarted at line start `k` with an empty buffer): either the two
buffers are in lockstep (`pre` is exactly the styles the resumed run is
missing), or the resumed run has not flushed yet and the full run still
carries a pending segment opened before `k` (whose state is never the
identifier state, since a run never lands on a line start inside one). -/
def StylesRel (k : Nat) (pre : List Style) (σf σr : ScanState) : Prop :=
  (σr.segStart = σf.segStart ∧ pre ++ σr.styles = σf.styles) ∨
  (σr.segStart = k ∧ σr.styles = [] ∧ σf.segStart ≤ k ∧ k ≤ σf.pos ∧
   pre = σf.styles ++ List.replicate (k - σf.segStart) σf.state ∧
   σf.state ≠ SCE_NSIS_IDENTIFIER)

/-- Visible-character relation: the resumed run seeds the counter with `1` on a
continued line, so the counts agree only up to magnitude until the next reset;
while positive on both sides they are indistinguishable, and inside an
identifier both strictly dominate the pending-segment length. -/
def VRel (σf σr : ScanState) : Prop :=
  σr.visibleChars = σf.visibleChars ∨
  (1 ≤ σr.visibleChars ∧ σr.visibleChars ≤ σf.visibleChars ∧
   (σf.state = SCE_NSIS_IDENTIFIER →
     σf.pos - σf.segStart < σr.visibleChars))

/-- The full simulation relation between the full run and the resumed run. -/
def SplitRel (k : Nat) (pre : List Style) (σf σr : ScanState) : Prop :=
  σr.pos = σf.pos ∧
  σr.state = σf.state ∧
  σr.lineContinuation = σf.lineContinuation ∧
  σr.lineStateLineType = σf.lineStateLineType ∧
  σr.lineStates = σf.lineStates ∧
  VRel σf σr ∧
  StylesRel k pre σf σr ∧
  ((σf.state = SCE_NSIS_VARIABLE ∨ σf.state = SCE_NSIS_VARIABLE_BRACE ∨
    σf.state = SCE_NSIS_VARIABLE_PAREN) → σr.variableOuter = σf.variableOuter)

lemma string_ne_var {s : Style} (hs : isStringStyle s = true) :
    ¬ (s = SCE_NSIS_VARIABLE ∨ s = SCE_NSIS_VARIABLE_BRACE ∨
       s = SCE_NSIS_VARIABLE_PAREN) := by
  simp only [isStringStyle, Bool.or_eq_true, decide_eq_true_eq] at hs
  intro hmem
  rcases hs with (h | h) | h <;> rcases hmem with hm | hm | hm <;>
    (rw [h] at hm; exact absurd hm (by decide))

lemma string_ne_id {s : Style} (hs : isStringStyle s = true) :
    s ≠ SCE_NSIS_IDENTIFIER := by
  simp only [isStringStyle, Bool.or_eq_true, decide_eq_true_eq] at hs
  rcases hs with (h | h) | h <;> (rw [h]; decide)

lemma vrel_zero {σf σr : ScanState} (h : VRel σf σr) :
    (σr.visibleChars = 0) ↔ (σf.visibleChars = 0) := by
  rcases h with h | ⟨h1, h2, -⟩
  · rw [h]
  · constructor <;> intro hx <;> omega

lemma rel_setState (k : Nat) (pre : List Style) (σf σr : ScanState) (st : Style)
    (h : SplitRel k pre σf σr)
    (hvo : (st = SCE_NSIS_VARIABLE ∨ st = SCE_NSIS_VARIABLE_BRACE ∨
      st = SCE_NSIS_VARIABLE_PAREN) → σr.variableOuter = σf.variableOuter) :
    SplitRel k pre (setState σf st) (setState σr st) := by
  obtain ⟨hpos, hst, hcont, htype, hls, hv, hsty, hvout⟩ := h
  refine ⟨hpos, rfl, hcont, htype, hls, ?_, ?_, fun hm => hvo hm⟩
  · rcases hv with hveq | ⟨h1, h2, h3⟩
    · exact Or.inl hveq
    · refine Or.inr ⟨h1, h2, fun _ => ?_⟩
      show σf.pos - σf.pos < σr.visibleChars
      omega
  · rcases hsty with ⟨hss, hsty2⟩ | ⟨h1, h2, h3, h4, h5, h6⟩
    · refine Or.inl ⟨hpos, ?_⟩
      show pre ++ (σr.styles ++ List.replicate (σr.pos - σr.segStart) σr.state) =
        σf.styles ++ List.replicate (σf.pos - σf.segStart) σf.state
      rw [hpos, hss, hst, ← List.append_assoc, hsty2]
    · refine Or.inl ⟨hpos, ?_⟩
      show pre ++ (σr.styles ++ List.replicate (σr.pos - σr.segStart) σr.state) =
        σf.styles ++ List.replicate (σf.pos - σf.segStart) σf.state
      rw [h2, h1, hpos, hst, List.nil_append, h5, List.append_assoc,
        ← List.replicate_add]
      have harith : k - σf.segStart + (σf.pos - k) = σf.pos - σf.segStart := by
        omega
      rw [harith]

lemma rel_setVouter (k : Nat) (pre : List Style) (σf σr : ScanState) (c : Style)
    (h : SplitRel k pre σf σr) :
    SplitRel k pre { σf with variableOuter := c } { σr with variableOuter := c } := by
  obtain ⟨hpos, hst, hcont, htype, hls, hv, hsty, -⟩ := h
  exact ⟨hpos, hst, hcont, htype, hls, hv, hsty, fun _ => rfl⟩

lemma rel_setVouter2 (k : Nat) (pre : List Style) (σf σr : ScanState)
    (cf cr : Style) (h : SplitRel k pre σf σr) (hc : cr = cf) :
    SplitRel k pre { σf with variableOuter := cf }
      { σr with variableOuter := cr } := by
  obtain ⟨hpos, hst, hcont, htype, hls, hv, hsty, -⟩ := h
  exact ⟨hpos, hst, hcont, htype, hls, hv, hsty, fun _ => hc⟩

lemma rel_setType (k : Nat) (pre : List Style) (σf σr : ScanState) (c : Nat)
    (h : SplitRel k pre σf σr) :
    SplitRel k pre { σf with lineStateLineType := c }
      { σr with lineStateLineType := c } := by
  obtain ⟨hpos, hst, hcont, -, hls, hv, hsty, hvout⟩ := h
  exact ⟨hpos, hst, hcont, rfl, hls, hv, hsty, fun hm => hvout hm⟩

lemma rel_changeState (k : Nat) (pre : List Style) (σf σr : ScanState) (st : Style)
    (h : SplitRel k pre σf σr)
    (hsync : σr.segStart = σf.segStart ∧ pre ++ σr.styles = σf.styles)
    (hnid : st ≠ SCE_NSIS_IDENTIFIER)
    (hvo : (st = SCE_NSIS_VARIABLE ∨ st = SCE_NSIS_VARIABLE_BRACE ∨
      st = SCE_NSIS_VARIABLE_PAREN) → σr.variableOuter = σf.variableOuter) :
    SplitRel k pre (changeState σf st) (changeState σr st) := by
  obtain ⟨hpos, hst, hcont, htype, hls, hv, -, -⟩ := h
  refine ⟨hpos, rfl, hcont, htype, hls, ?_, Or.inl hsync, fun hm => hvo hm⟩
  rcases hv with hveq | ⟨h1, h2, h3⟩
  · exact Or.inl hveq
  · exact Or.inr ⟨h1, h2, fun hx => absurd hx hnid⟩

lemma rel_forward (k : Nat) (pre : List Style) (e : Nat) (σf σr : ScanState)
    (h : SplitRel k pre σf σr) (hke : k ≤ e)
    (hnid : σf.state ≠ SCE_NSIS_IDENTIFIER) :
    SplitRel k pre (forward e σf) (forward e σr) := by
  obtain ⟨hpos, hst, hcont, htype, hls, hv, hsty, hvout⟩ := h
  refine ⟨?_, hst, hcont, htype, hls, ?_, ?_, fun hm => hvout hm⟩
  · show min (σr.pos + 1) e = min (σf.pos + 1) e
    rw [hpos]
  · rcases hv with hveq | ⟨h1, h2, h3⟩
    · exact Or.inl hveq
    · exact Or.inr ⟨h1, h2, fun hx => absurd hx hnid⟩
  · rcases hsty with ⟨hss, hsty2⟩ | ⟨h1, h2, h3, h4, h5, h6⟩
    · exact Or.inl ⟨hss, hsty2⟩
    · refine Or.inr ⟨h1, h2, h3, ?_, h5, h6⟩
      show k ≤ min (σf.pos + 1) e
      omega

lemma bookkeep_vouter (doc : List Char) (σ : ScanState) :
    (bookkeep doc σ).variableOuter = σ.variableOuter := by
  unfold bookkeep
  dsimp only
  repeat' split
  all_goals rfl

lemma rel_fin (k : Nat) (pre : List Style) (e : Nat) (doc : List Char)
    (σf σr : ScanState) (h : SplitRel k pre σf σr) (hke : k ≤ e)
    (hid : σf.state = SCE_NSIS_IDENTIFIER →
      isspacechar (charAt doc σf.pos) = false) :
    SplitRel k pre (forward e (bookkeep doc σf)) (forward e (bookkeep doc σr)) := by
  obtain ⟨hpos, hst, hcont, htype, hls, hv, hsty, hvout⟩ := h
  obtain ⟨hbpf, hbsf, hbstf, hbstatef⟩ := bookkeep_fields doc σf
  obtain ⟨hbpr, hbsr, hbstr, hbstater⟩ := bookkeep_fields doc σr
  obtain ⟨hfpf, hfvf, hfcf, hfstf, hfssf, hfstyf, hftf, hfvof, hflsf⟩ :=
    forward_fields e (bookkeep doc σf)
  obtain ⟨hfpr, hfvr, hfcr, hfstr, hfssr, hfstyr, hftr, hfvor, hflsr⟩ :=
    forward_fields e (bookkeep doc σr)
  have hPos : (forward e (bookkeep doc σr)).pos = (forward e (bookkeep doc σf)).pos := by
    rw [hfpf, hfpr, hbpf, hbpr, hpos]
  have hState : (forward e (bookkeep doc σr)).state =
      (forward e (bookkeep doc σf)).state := by
    rw [hfstf, hfstr, hbstatef, hbstater, hst]
  have hSty : StylesRel k pre (forward e (bookkeep doc σf))
      (forward e (bookkeep doc σr)) := by
    rcases hsty with ⟨hss, hsty2⟩ | ⟨h1, h2, h3, h4, h5, h6⟩
    · refine Or.inl ⟨?_, ?_⟩
      · rw [hfssr, hfssf, hbsr, hbsf, hss]
      · rw [hfstyr, hfstyf, hbstr, hbstf, hsty2]
    · refine Or.inr ⟨?_, ?_, ?_, ?_, ?_, ?_⟩
      · rw [hfssr, hbsr, h1]
      · rw [hfstyr, hbstr, h2]
      · rw [hfssf, hbsf]
        exact h3
      · rw [hfpf, hbpf]
        omega
      · rw [hfstyf, hfssf, hfstf, hbstf, hbsf, hbstatef]
        exact h5
      · rw [hfstf, hbstatef]
        exact h6
  have hVout : ((forward e (bookkeep doc σf)).state = SCE_NSIS_VARIABLE ∨
      (forward e (bookkeep doc σf)).state = SCE_NSIS_VARIABLE_BRACE ∨
      (forward e (bookkeep doc σf)).state = SCE_NSIS_VARIABLE_PAREN) →
      (forward e (bookkeep doc σr)).variableOuter =
        (forward e (bookkeep doc σf)).variableOuter := by
    intro hmem
    rw [hfvor, hfvof, bookkeep_vouter, bookkeep_vouter]
    apply hvout
    rw [hfstf, hbstatef] at hmem
    exact hmem
  cases hle : atLineEnd doc σf.pos with
  | true =>
    obtain ⟨hcf, hvf, htf, hlsf⟩ := (bookkeep_vc doc σf).2 hle
    obtain ⟨hcr, hvr, htr, hlsr⟩ := (bookkeep_vc doc σr).2 (by rw [hpos]; exact hle)
    rw [hpos] at hcr hvr htr hlsr
    refine ⟨hPos, hState, ?_, ?_, ?_, ?_, hSty, hVout⟩
    · rw [hfcf, hfcr, hcf, hcr]
    · rw [hftf, hftr, htf, htr, htype]
    · rw [hflsf, hflsr, hlsf, hlsr, hls, htype]
    · by_cases hcont2 : LineEndsWith doc σf.pos '\\' = true
      · rcases hv with hveq | ⟨h1, h2, h3⟩
        · refine Or.inl ?_
          rw [hfvf, hfvr, hvf, hvr, if_pos hcont2, if_pos hcont2, hveq]
        · refine Or.inr ⟨?_, ?_, ?_⟩
          · rw [hfvr, hvr, if_pos hcont2]
            split <;> omega
          · rw [hfvf, hfvr, hvf, hvr, if_pos hcont2, if_pos hcont2]
            split <;> omega
          · intro hx
            rw [hfstf, hbstatef] at hx
            have hsp := hid hx
            have h4 := h3 hx
            rw [hfvr, hvr, if_pos hcont2, hsp, if_neg Bool.false_ne_true,
              hfpf, hfssf, hbpf, hbsf]
            omega
      · rcases hv with hveq | ⟨h1, h2, h3⟩ <;> refine Or.inl ?_ <;>
          rw [hfvf, hfvr, hvf, hvr, if_neg hcont2, if_neg hcont2]
  | false =>
    obtain ⟨hcf, hvf, htf, hlsf⟩ := (bookkeep_vc doc σf).1 hle
    obtain ⟨hcr, hvr, htr, hlsr⟩ := (bookkeep_vc doc σr).1 (by rw [hpos]; exact hle)
    rw [hpos] at hvr
    refine ⟨hPos, hState, ?_, ?_, ?_, ?_, hSty, hVout⟩
    · rw [hfcf, hfcr, hcf, hcr, hcont]
    · rw [hftf, hftr, htf, htr, htype]
    · rw [hflsf, hflsr, hlsf, hlsr, hls]
    · rcases hv with hveq | ⟨h1, h2, h3⟩
      · refine Or.inl ?_
        rw [hfvf, hfvr, hvf, hvr, hveq]
      · refine Or.inr ⟨?_, ?_, ?_⟩
        · rw [hfvr, hvr]
          split <;> omega
        · rw [hfvf, hfvr, hvf, hvr]
          split <;> omega
        · intro hx
          rw [hfstf, hbstatef] at hx
          have hsp := hid hx
          have h4 := h3 hx
          rw [hfvr, hvr, hsp, if_neg Bool.false_ne_true,
            hfpf, hfssf, hbpf, hbsf]
          omega

lemma rel_identClose (k : Nat) (pre : List Style) (kw : List (List Char))
    (doc : List Char) (σf σr : ScanState) (h : SplitRel k pre σf σr)
    (hidf : σf.state = SCE_NSIS_IDENTIFIER) :
    SplitRel k pre (identClose kw doc σf) (identClose kw doc σr) := by
  obtain ⟨hpos, hst, hcont, htype, hls, hv, hsty, hvout⟩ := id h
  have hsync : σr.segStart = σf.segStart ∧ pre ++ σr.styles = σf.styles := by
    rcases hsty with hs | ⟨-, -, -, -, -, h6⟩
    · exact hs
    · exact absurd hidf h6
  have hcap : capturedWord doc σr = capturedWord doc σf := by
    unfold capturedWord
    rw [hpos, hsync.1]
  have hvtest : (σr.visibleChars = σf.pos - σf.segStart) ↔
      (σf.visibleChars = σf.pos - σf.segStart) := by
    rcases hv with hveq | ⟨h1, h2, h3⟩
    · rw [hveq]
    · have h4 := h3 hidf
      constructor <;> intro hx <;> omega
  have hnv : ∀ st : Style, st = SCE_NSIS_PREPROCESSOR ∨ st = SCE_NSIS_WORD ∨
      st = SCE_NSIS_LABEL ∨ st = SCE_NSIS_INSTRUCTION →
      ¬ (st = SCE_NSIS_VARIABLE ∨ st = SCE_NSIS_VARIABLE_BRACE ∨
         st = SCE_NSIS_VARIABLE_PAREN) := by
    intro st hst1 hm
    rcases hst1 with h1 | h1 | h1 | h1 <;> rcases hm with hm | hm | hm <;>
      (rw [h1] at hm; exact absurd hm (by decide))
  have hni : ∀ st : Style, st = SCE_NSIS_PREPROCESSOR ∨ st = SCE_NSIS_WORD ∨
      st = SCE_NSIS_LABEL ∨ st = SCE_NSIS_INSTRUCTION →
      st ≠ SCE_NSIS_IDENTIFIER := by
    intro st hst1
    rcases hst1 with h1 | h1 | h1 | h1 <;> (rw [h1]; decide)
  unfold identClose
  dsimp only
  rw [hcap, hpos, hsync.1]
  by_cases c1 : (capturedWord doc σf).head? = some '!'
  · rw [if_pos c1, if_pos c1]
    have hrelC : SplitRel k pre (changeState σf SCE_NSIS_PREPROCESSOR)
        (changeState σr SCE_NSIS_PREPROCESSOR) :=
      rel_changeState k pre σf σr SCE_NSIS_PREPROCESSOR h hsync
        (hni _ (Or.inl rfl)) (fun hm => absurd hm (hnv _ (Or.inl rfl)))
    by_cases c2 : capturedWord doc σf = "!include".toList
    · rw [if_pos c2, if_pos c2]
      exact rel_setState k pre _ _ _ (rel_setType k pre _ _ _ hrelC)
        (fun hm => absurd hm (by decide))
    rw [if_neg c2, if_neg c2]
    by_cases c3 : capturedWord doc σf = "!define".toList
    · rw [if_pos c3, if_pos c3]
      exact rel_setState k pre _ _ _ (rel_setType k pre _ _ _ hrelC)
        (fun hm => absurd hm (by decide))
    · rw [if_neg c3, if_neg c3]
      exact rel_setState k pre _ _ _ hrelC (fun hm => absurd hm (by decide))
  rw [if_neg c1, if_neg c1]
  by_cases c4 : σf.visibleChars = σf.pos - σf.segStart
  · rw [if_pos c4, if_pos (hvtest.mpr c4)]
    by_cases c5 : kw.contains (capturedWord doc σf) = true
    · rw [if_pos c5, if_pos c5]
      exact rel_setState k pre _ _ _
        (rel_changeState k pre σf σr SCE_NSIS_WORD h hsync
          (hni _ (Or.inr (Or.inl rfl))) (fun hm => absurd hm (hnv _ (Or.inr (Or.inl rfl)))))
        (fun hm => absurd hm (by decide))
    rw [if_neg c5, if_neg c5]
    by_cases c6 : charAt doc σf.pos = ':' ∧ charAt doc (σf.pos + 1) ≠ ':'
    · rw [if_pos c6, if_pos c6]
      exact rel_setState k pre _ _ _
        (rel_changeState k pre σf σr SCE_NSIS_LABEL h hsync
          (hni _ (Or.inr (Or.inr (Or.inl rfl))))
          (fun hm => absurd hm (hnv _ (Or.inr (Or.inr (Or.inl rfl))))))
        (fun hm => absurd hm (by decide))
    · rw [if_neg c6, if_neg c6]
      exact rel_setState k pre _ _ _
        (rel_changeState k pre σf σr SCE_NSIS_INSTRUCTION h hsync
          (hni _ (Or.inr (Or.inr (Or.inr rfl))))
          (fun hm => absurd hm (hnv _ (Or.inr (Or.inr (Or.inr rfl))))))
        (fun hm => absurd hm (by decide))
  · rw [if_neg c4, if_neg (fun hx => c4 (hvtest.mp hx))]
    exact rel_setState k pre σf σr SCE_NSIS_DEFAULT h (fun hm => absurd hm (by decide))

lemma rel_dispatchDefault (k : Nat) (pre : List Style) (e : Nat) (doc : List Char)
    (σf σr : ScanState) (h : SplitRel k pre σf σr) (hke : k ≤ e) :
    SplitRel k pre (dispatchDefault doc e σf) (dispatchDefault doc e σr) := by
  obtain ⟨hpos, hst, hcont, htype, hls, hv, hsty, hvout⟩ := id h
  have hvz := vrel_zero hv
  unfold dispatchDefault
  by_cases h0 : σf.state = SCE_NSIS_DEFAULT
  case neg =>
    rw [if_neg h0, if_neg (show ¬ σr.state = SCE_NSIS_DEFAULT by rw [hst]; exact h0)]
    exact h
  rw [if_pos h0, if_pos (show σr.state = SCE_NSIS_DEFAULT by rw [hst]; exact h0)]
  by_cases c1 : charAt doc σf.pos = ';' ∨ charAt doc σf.pos = '#'
  · rw [if_pos c1, if_pos (show charAt doc σr.pos = ';' ∨ charAt doc σr.pos = '#' by
      rw [hpos]; exact c1)]
    by_cases cv : σf.visibleChars = 0
    · rw [if_pos cv, if_pos (hvz.mpr cv)]
      exact rel_setType k pre _ _ _
        (rel_setState k pre σf σr SCE_NSIS_COMMENTLINE h (fun hm => absurd hm (by decide)))
    · rw [if_neg cv, if_neg (fun hx => cv (hvz.mp hx))]
      exact rel_setState k pre σf σr SCE_NSIS_COMMENTLINE h (fun hm => absurd hm (by decide))
  rw [if_neg c1, if_neg (show ¬ (charAt doc σr.pos = ';' ∨ charAt doc σr.pos = '#') by
    rw [hpos]; exact c1)]
  by_cases c2 : charAt doc σf.pos = '/' ∧ charAt doc (σf.pos + 1) = '*'
  · rw [if_pos c2, if_pos (show charAt doc σr.pos = '/' ∧ charAt doc (σr.pos + 1) = '*' by
      rw [hpos]; exact c2)]
    refine rel_forward k pre e _ _
      (rel_setState k pre σf σr SCE_NSIS_COMMENT h (fun hm => absurd hm (by decide)))
      hke ?_
    show SCE_NSIS_COMMENT ≠ SCE_NSIS_IDENTIFIER
    decide
  rw [if_neg c2, if_neg (show ¬ (charAt doc σr.pos = '/' ∧ charAt doc (σr.pos + 1) = '*') by
    rw [hpos]; exact c2)]
  by_cases c3 : charAt doc σf.pos = '\''
  · rw [if_pos c3, if_pos (show charAt doc σr.pos = '\'' by rw [hpos]; exact c3)]
    exact rel_setState k pre σf σr SCE_NSIS_STRINGSQ h (fun hm => absurd hm (by decide))
  rw [if_neg c3, if_neg (show ¬ charAt doc σr.pos = '\'' by rw [hpos]; exact c3)]
  by_cases c4 : charAt doc σf.pos = '"'
  · rw [if_pos c4, if_pos (show charAt doc σr.pos = '"' by rw [hpos]; exact c4)]
    exact rel_setState k pre σf σr SCE_NSIS_STRINGDQ h (fun hm => absurd hm (by decide))
  rw [if_neg c4, if_neg (show ¬ charAt doc σr.pos = '"' by rw [hpos]; exact c4)]
  by_cases c5 : charAt doc σf.pos = '`'
  · rw [if_pos c5, if_pos (show charAt doc σr.pos = '`' by rw [hpos]; exact c5)]
    exact rel_setState k pre σf σr SCE_NSIS_STRINGBT h (fun hm => absurd hm (by decide))
  rw [if_neg c5, if_neg (show ¬ charAt doc σr.pos = '`' by rw [hpos]; exact c5)]
  by_cases c6 : IsNumberStart (charAt doc σf.pos) (charAt doc (σf.pos + 1)) = true
  · rw [if_pos c6, if_pos (show IsNumberStart (charAt doc σr.pos)
      (charAt doc (σr.pos + 1)) = true by rw [hpos]; exact c6)]
    exact rel_setState k pre σf σr SCE_NSIS_NUMBER h (fun hm => absurd hm (by decide))
  rw [if_neg c6, if_neg (show ¬ IsNumberStart (charAt doc σr.pos)
    (charAt doc (σr.pos + 1)) = true by rw [hpos]; exact c6)]
  by_cases c7 : charAt doc σf.pos = '$' ∧
      IsIdentifierChar (charAt doc (σf.pos + 1)) = true
  · rw [if_pos c7, if_pos (show charAt doc σr.pos = '$' ∧
      IsIdentifierChar (charAt doc (σr.pos + 1)) = true by rw [hpos]; exact c7)]
    exact rel_setState k pre _ _ SCE_NSIS_VARIABLE
      (rel_setVouter k pre σf σr SCE_NSIS_DEFAULT h) (fun _ => rfl)
  rw [if_neg c7, if_neg (show ¬ (charAt doc σr.pos = '$' ∧
    IsIdentifierChar (charAt doc (σr.pos + 1)) = true) by rw [hpos]; exact c7)]
  by_cases c8 : charAt doc σf.pos = '$' ∧
      (charAt doc (σf.pos + 1) = '{' ∨ charAt doc (σf.pos + 1) = '(')
  · rw [if_pos c8, if_pos (show charAt doc σr.pos = '$' ∧
      (charAt doc (σr.pos + 1) = '{' ∨ charAt doc (σr.pos + 1) = '(') by
      rw [hpos]; exact c8)]
    by_cases c8b : charAt doc (σf.pos + 1) = '{'
    · rw [if_pos c8b, if_pos (show charAt doc (σr.pos + 1) = '{' by rw [hpos]; exact c8b)]
      exact rel_setState k pre _ _ SCE_NSIS_VARIABLE_BRACE
        (rel_setVouter k pre σf σr SCE_NSIS_DEFAULT h) (fun _ => rfl)
    · rw [if_neg c8b, if_neg (show ¬ charAt doc (σr.pos + 1) = '{' by rw [hpos]; exact c8b)]
      exact rel_setState k pre _ _ SCE_NSIS_VARIABLE_PAREN
        (rel_setVouter k pre σf σr SCE_NSIS_DEFAULT h) (fun _ => rfl)
  rw [if_neg c8, if_neg (show ¬ (charAt doc σr.pos = '$' ∧
    (charAt doc (σr.pos + 1) = '{' ∨ charAt doc (σr.pos + 1) = '(')) by
    rw [hpos]; exact c8)]
  by_cases c9 : (σf.visibleChars = 0 ∧ charAt doc σf.pos = '!') ∨
      IsIdentifierStart (charAt doc σf.pos) = true
  · have c9r : (σr.visibleChars = 0 ∧ charAt doc σr.pos = '!') ∨
        IsIdentifierStart (charAt doc σr.pos) = true := by
      rw [hpos]
      rcases c9 with ⟨hz, hb⟩ | hb
      · exact Or.inl ⟨hvz.mpr hz, hb⟩
      · exact Or.inr hb
    rw [if_pos c9, if_pos c9r]
    exact rel_setState k pre σf σr SCE_NSIS_IDENTIFIER h (fun hm => absurd hm (by decide))
  · have c9r : ¬ ((σr.visibleChars = 0 ∧ charAt doc σr.pos = '!') ∨
        IsIdentifierStart (charAt doc σr.pos) = true) := by
      rw [hpos]
      intro hx
      apply c9
      rcases hx with ⟨hz, hb⟩ | hb
      · exact Or.inl ⟨hvz.mp hz, hb⟩
      · exact Or.inr hb
    rw [if_neg c9, if_neg c9r]
    by_cases c10 : isoperator (charAt doc σf.pos) = true
    · rw [if_pos c10, if_pos (show isoperator (charAt doc σr.pos) = true by
        rw [hpos]; exact c10)]
      exact rel_setState k pre σf σr SCE_NSIS_OPERATOR h (fun hm => absurd hm (by decide))
    · rw [if_neg c10, if_neg (show ¬ isoperator (charAt doc σr.pos) = true by
        rw [hpos]; exact c10)]
      exact h

lemma rel_handleString (k : Nat) (pre : List Style) (e : Nat) (doc : List Char)
    (σf σr : ScanState) (h : SplitRel k pre σf σr) (hke : k ≤ e)
    (hstr : isStringStyle σf.state = true) :
    (∃ a b, handleStringState doc e σf = .cont a ∧
      handleStringState doc e σr = .cont b ∧ SplitRel k pre a b) ∨
    (∃ a b, handleStringState doc e σf = .fall a ∧
      handleStringState doc e σr = .fall b ∧ SplitRel k pre a b) := by
  obtain ⟨hpos, hst, hcont, htype, hls, hv, hsty, hvout⟩ := id h
  unfold handleStringState
  dsimp only
  by_cases h1 : charAt doc σf.pos = '$'
  · rw [if_pos h1, if_pos (show charAt doc σr.pos = '$' by rw [hpos]; exact h1)]
    by_cases h2 : charAt doc (σf.pos + 1) = '$' ∨
        (charAt doc (σf.pos + 1) = '\\' ∧ IsEscapeChar (charAt doc (σf.pos + 2)) = true)
    · rw [if_pos h2, if_pos (show charAt doc (σr.pos + 1) = '$' ∨
        (charAt doc (σr.pos + 1) = '\\' ∧ IsEscapeChar (charAt doc (σr.pos + 2)) = true) by
        rw [hpos]; exact h2)]
      refine Or.inl ⟨_, _, rfl, rfl, ?_⟩
      by_cases hb : charAt doc (σf.pos + 1) = '\\'
      · rw [if_pos hb, if_pos (show charAt doc (σr.pos + 1) = '\\' by rw [hpos]; exact hb)]
        rw [hst]
        exact rel_setState k pre _ _ σf.state
          (rel_forward k pre e _ _
            (rel_forward k pre e _ _
              (rel_forward k pre e _ _
                (rel_setState k pre σf σr SCE_NSIS_ESCAPECHAR h
                  (fun hm => absurd hm (by decide)))
                hke (by show SCE_NSIS_ESCAPECHAR ≠ SCE_NSIS_IDENTIFIER; decide))
              hke (by show SCE_NSIS_ESCAPECHAR ≠ SCE_NSIS_IDENTIFIER; decide))
            hke (by show SCE_NSIS_ESCAPECHAR ≠ SCE_NSIS_IDENTIFIER; decide))
          (fun hm => absurd hm (string_ne_var hstr))
      · rw [if_neg hb, if_neg (show ¬ charAt doc (σr.pos + 1) = '\\' by rw [hpos]; exact hb)]
        rw [hst]
        exact rel_setState k pre _ _ σf.state
          (rel_forward k pre e _ _
            (rel_forward k pre e _ _
              (rel_setState k pre σf σr SCE_NSIS_ESCAPECHAR h
                (fun hm => absurd hm (by decide)))
              hke (by show SCE_NSIS_ESCAPECHAR ≠ SCE_NSIS_IDENTIFIER; decide))
            hke (by show SCE_NSIS_ESCAPECHAR ≠ SCE_NSIS_IDENTIFIER; decide))
          (fun hm => absurd hm (string_ne_var hstr))
    rw [if_neg h2, if_neg (show ¬ (charAt doc (σr.pos + 1) = '$' ∨
      (charAt doc (σr.pos + 1) = '\\' ∧ IsEscapeChar (charAt doc (σr.pos + 2)) = true)) by
      rw [hpos]; exact h2)]
    by_cases h3 : charAt doc (σf.pos + 1) = '{' ∨ charAt doc (σf.pos + 1) = '('
    · rw [if_pos h3, if_pos (show charAt doc (σr.pos + 1) = '{' ∨
        charAt doc (σr.pos + 1) = '(' by rw [hpos]; exact h3)]
      refine Or.inr ⟨_, _, rfl, rfl, ?_⟩
      by_cases h3b : charAt doc (σf.pos + 1) = '{'
      · rw [if_pos h3b, if_pos (show charAt doc (σr.pos + 1) = '{' by rw [hpos]; exact h3b)]
        exact rel_setState k pre _ _ SCE_NSIS_VARIABLE_BRACE
          (rel_setVouter2 k pre σf σr σf.state σr.state h hst) (fun _ => hst)
      · rw [if_neg h3b, if_neg (show ¬ charAt doc (σr.pos + 1) = '{' by rw [hpos]; exact h3b)]
        exact rel_setState k pre _ _ SCE_NSIS_VARIABLE_PAREN
          (rel_setVouter2 k pre σf σr σf.state σr.state h hst) (fun _ => hst)
    rw [if_neg h3, if_neg (show ¬ (charAt doc (σr.pos + 1) = '{' ∨
      charAt doc (σr.pos + 1) = '(') by rw [hpos]; exact h3)]
    by_cases h4 : IsIdentifierChar (charAt doc (σf.pos + 1)) = true
    · rw [if_pos h4, if_pos (show IsIdentifierChar (charAt doc (σr.pos + 1)) = true by
        rw [hpos]; exact h4)]
      exact Or.inr ⟨_, _, rfl, rfl,
        rel_setState k pre _ _ SCE_NSIS_VARIABLE
          (rel_setVouter2 k pre σf σr σf.state σr.state h hst) (fun _ => hst)⟩
    · rw [if_neg h4, if_neg (show ¬ IsIdentifierChar (charAt doc (σr.pos + 1)) = true by
        rw [hpos]; exact h4)]
      exact Or.inr ⟨_, _, rfl, rfl, h⟩
  rw [if_neg h1, if_neg (show ¬ charAt doc σr.pos = '$' by rw [hpos]; exact h1)]
  by_cases h5 : atLineStart doc σf.pos = true
  · rw [if_pos h5, if_pos (show atLineStart doc σr.pos = true by rw [hpos]; exact h5)]
    by_cases h6 : σf.lineContinuation = true
    · rw [if_pos h6, if_pos (show σr.lineContinuation = true by rw [hcont]; exact h6)]
      exact Or.inr ⟨_, _, rfl, rfl, h⟩
    · rw [if_neg h6, if_neg (show ¬ σr.lineContinuation = true by rw [hcont]; exact h6)]
      exact Or.inr ⟨_, _, rfl, rfl,
        rel_setState k pre σf σr SCE_NSIS_DEFAULT h (fun hm => absurd hm (by decide))⟩
  rw [if_neg h5, if_neg (show ¬ atLineStart doc σr.pos = true by rw [hpos]; exact h5)]
  by_cases h7 : (σf.state = SCE_NSIS_STRINGSQ ∧ charAt doc σf.pos = '\'') ∨
      (σf.state = SCE_NSIS_STRINGDQ ∧ charAt doc σf.pos = '"') ∨
      (σf.state = SCE_NSIS_STRINGBT ∧ charAt doc σf.pos = '`')
  · rw [if_pos h7, if_pos (show (σr.state = SCE_NSIS_STRINGSQ ∧ charAt doc σr.pos = '\'') ∨
      (σr.state = SCE_NSIS_STRINGDQ ∧ charAt doc σr.pos = '"') ∨
      (σr.state = SCE_NSIS_STRINGBT ∧ charAt doc σr.pos = '`') by
      rw [hst, hpos]; exact h7)]
    exact Or.inr ⟨_, _, rfl, rfl,
      rel_setState k pre _ _ SCE_NSIS_DEFAULT
        (rel_forward k pre e σf σr h hke (string_ne_id hstr))
        (fun hm => absurd hm (by decide))⟩
  · rw [if_neg h7, if_neg (show ¬ ((σr.state = SCE_NSIS_STRINGSQ ∧ charAt doc σr.pos = '\'') ∨
      (σr.state = SCE_NSIS_STRINGDQ ∧ charAt doc σr.pos = '"') ∨
      (σr.state = SCE_NSIS_STRINGBT ∧ charAt doc σr.pos = '`')) by
      rw [hst, hpos]; exact h7)]
    exact Or.inr ⟨_, _, rfl, rfl, h⟩

lemma rel_switchOnce (k : Nat) (pre : List Style) (kw : List (List Char))
    (doc : List Char) (e : Nat) (σf σr : ScanState)
    (h : SplitRel k pre σf σr) (hke : k ≤ e) :
    (∃ a b, switchOnce kw doc e σf = .cont a ∧
      switchOnce kw doc e σr = .cont b ∧ SplitRel k pre a b) ∨
    (∃ a b, switchOnce kw doc e σf = .fall a ∧
      switchOnce kw doc e σr = .fall b ∧ SplitRel k pre a b) ∨
    (∃ a b, switchOnce kw doc e σf = .again a ∧
      switchOnce kw doc e σr = .again b ∧ SplitRel k pre a b) := by
  obtain ⟨hpos, hst, hcont, htype, hls, hv, hsty, hvout⟩ := id h
  unfold switchOnce
  dsimp only
  by_cases s1 : σf.state = SCE_NSIS_OPERATOR
  · rw [if_pos s1, if_pos (show σr.state = SCE_NSIS_OPERATOR by rw [hst]; exact s1)]
    exact Or.inr (Or.inl ⟨_, _, rfl, rfl,
      rel_setState k pre σf σr SCE_NSIS_DEFAULT h (fun hm => absurd hm (by decide))⟩)
  rw [if_neg s1, if_neg (show ¬ σr.state = SCE_NSIS_OPERATOR by rw [hst]; exact s1)]
  by_cases s2 : σf.state = SCE_NSIS_NUMBER
  · rw [if_pos s2, if_pos (show σr.state = SCE_NSIS_NUMBER by rw [hst]; exact s2)]
    by_cases d1 : IsDecimalNumber (if σf.pos = 0 then ' ' else charAt doc (σf.pos - 1))
        (charAt doc σf.pos) (charAt doc (σf.pos + 1)) = true
    · rw [if_pos d1, if_pos (show IsDecimalNumber
        (if σr.pos = 0 then ' ' else charAt doc (σr.pos - 1))
        (charAt doc σr.pos) (charAt doc (σr.pos + 1)) = true by rw [hpos]; exact d1)]
      exact Or.inr (Or.inl ⟨_, _, rfl, rfl, h⟩)
    rw [if_neg d1, if_neg (show ¬ IsDecimalNumber
      (if σr.pos = 0 then ' ' else charAt doc (σr.pos - 1))
      (charAt doc σr.pos) (charAt doc (σr.pos + 1)) = true by rw [hpos]; exact d1)]
    by_cases dp : charAt doc σf.pos = '%'
    · rw [if_pos dp, if_pos (show charAt doc σr.pos = '%' by rw [hpos]; exact dp)]
      exact Or.inr (Or.inl ⟨_, _, rfl, rfl,
        rel_setState k pre _ _ SCE_NSIS_DEFAULT
          (rel_forward k pre e σf σr h hke (by rw [s2]; decide))
          (fun hm => absurd hm (by decide))⟩)
    · rw [if_neg dp, if_neg (show ¬ charAt doc σr.pos = '%' by rw [hpos]; exact dp)]
      exact Or.inr (Or.inl ⟨_, _, rfl, rfl,
        rel_setState k pre σf σr SCE_NSIS_DEFAULT h (fun hm => absurd hm (by decide))⟩)
  rw [if_neg s2, if_neg (show ¬ σr.state = SCE_NSIS_NUMBER by rw [hst]; exact s2)]
  by_cases s3 : σf.state = SCE_NSIS_IDENTIFIER
  · rw [if_pos s3, if_pos (show σr.state = SCE_NSIS_IDENTIFIER by rw [hst]; exact s3)]
    by_cases d2 : IsIdentifierChar (charAt doc σf.pos) = true
    · rw [if_pos d2, if_pos (show IsIdentifierChar (charAt doc σr.pos) = true by
        rw [hpos]; exact d2)]
      exact Or.inr (Or.inl ⟨_, _, rfl, rfl, h⟩)
    · rw [if_neg d2, if_neg (show ¬ IsIdentifierChar (charAt doc σr.pos) = true by
        rw [hpos]; exact d2)]
      exact Or.inr (Or.inl ⟨_, _, rfl, rfl, rel_identClose k pre kw doc σf σr h s3⟩)
  rw [if_neg s3, if_neg (show ¬ σr.state = SCE_NSIS_IDENTIFIER by rw [hst]; exact s3)]
  by_cases s4 : isStringStyle σf.state = true
  · rw [if_pos s4, if_pos (show isStringStyle σr.state = true by rw [hst]; exact s4)]
    rcases rel_handleString k pre e doc σf σr h hke s4 with
      ⟨a, b, haf, hbr, hab⟩ | ⟨a, b, haf, hbr, hab⟩
    · exact Or.inl ⟨a, b, haf, hbr, hab⟩
    · exact Or.inr (Or.inl ⟨a, b, haf, hbr, hab⟩)
  rw [if_neg s4, if_neg (show ¬ isStringStyle σr.state = true by rw [hst]; exact s4)]
  by_cases s5 : σf.state = SCE_NSIS_VARIABLE
  · rw [if_pos s5, if_pos (show σr.state = SCE_NSIS_VARIABLE by rw [hst]; exact s5)]
    by_cases d3 : IsIdentifierChar (charAt doc σf.pos) = true
    · rw [if_pos d3, if_pos (show IsIdentifierChar (charAt doc σr.pos) = true by
        rw [hpos]; exact d3)]
      exact Or.inr (Or.inl ⟨_, _, rfl, rfl, h⟩)
    · rw [if_neg d3, if_neg (show ¬ IsIdentifierChar (charAt doc σr.pos) = true by
        rw [hpos]; exact d3)]
      have hveq : σr.variableOuter = σf.variableOuter := hvout (Or.inl s5)
      refine Or.inr (Or.inr ⟨_, _, rfl, rfl, ?_⟩)
      rw [hveq]
      exact rel_setState k pre σf σr σf.variableOuter h (fun _ => hveq)
  rw [if_neg s5, if_neg (show ¬ σr.state = SCE_NSIS_VARIABLE by rw [hst]; exact s5)]
  by_cases s6 : σf.state = SCE_NSIS_VARIABLE_BRACE ∨ σf.state = SCE_NSIS_VARIABLE_PAREN
  · rw [if_pos s6, if_pos (show σr.state = SCE_NSIS_VARIABLE_BRACE ∨
      σr.state = SCE_NSIS_VARIABLE_PAREN by rw [hst]; exact s6)]
    have hveq : σr.variableOuter = σf.variableOuter :=
      hvout (s6.elim (fun h6 => Or.inr (Or.inl h6)) (fun h6 => Or.inr (Or.inr h6)))
    have hnid6 : σf.state ≠ SCE_NSIS_IDENTIFIER := by
      rcases s6 with h6 | h6 <;> (rw [h6]; decide)
    by_cases d4 : (σf.state = SCE_NSIS_VARIABLE_BRACE ∧ charAt doc σf.pos = '}') ∨
        (σf.state = SCE_NSIS_VARIABLE_PAREN ∧ charAt doc σf.pos = ')')
    · rw [if_pos d4, if_pos (show (σr.state = SCE_NSIS_VARIABLE_BRACE ∧
        charAt doc σr.pos = '}') ∨ (σr.state = SCE_NSIS_VARIABLE_PAREN ∧
        charAt doc σr.pos = ')') by rw [hst, hpos]; exact d4)]
      refine Or.inl ⟨_, _, rfl, rfl, ?_⟩
      rw [hveq]
      exact rel_setState k pre _ _ σf.variableOuter
        (rel_forward k pre e σf σr h hke hnid6) (fun _ => hveq)
    · rw [if_neg d4, if_neg (show ¬ ((σr.state = SCE_NSIS_VARIABLE_BRACE ∧
        charAt doc σr.pos = '}') ∨ (σr.state = SCE_NSIS_VARIABLE_PAREN ∧
        charAt doc σr.pos = ')')) by rw [hst, hpos]; exact d4)]
      exact Or.inr (Or.inl ⟨_, _, rfl, rfl, h⟩)
  rw [if_neg s6, if_neg (show ¬ (σr.state = SCE_NSIS_VARIABLE_BRACE ∨
    σr.state = SCE_NSIS_VARIABLE_PAREN) by rw [hst]; exact s6)]
  by_cases s7 : σf.state = SCE_NSIS_COMMENTLINE
  · rw [if_pos s7, if_pos (show σr.state = SCE_NSIS_COMMENTLINE by rw [hst]; exact s7)]
    by_cases d5 : atLineStart doc σf.pos = true ∧ ¬ σf.lineContinuation = true
    · rw [if_pos d5, if_pos (show atLineStart doc σr.pos = true ∧
        ¬ σr.lineContinuation = true by rw [hpos, hcont]; exact d5)]
      exact Or.inr (Or.inl ⟨_, _, rfl, rfl,
        rel_setState k pre σf σr SCE_NSIS_DEFAULT h (fun hm => absurd hm (by decide))⟩)
    · rw [if_neg d5, if_neg (show ¬ (atLineStart doc σr.pos = true ∧
        ¬ σr.lineContinuation = true) by rw [hpos, hcont]; exact d5)]
      exact Or.inr (Or.inl ⟨_, _, rfl, rfl, h⟩)
  rw [if_neg s7, if_neg (show ¬ σr.state = SCE_NSIS_COMMENTLINE by rw [hst]; exact s7)]
  by_cases s8 : σf.state = SCE_NSIS_COMMENT
  · rw [if_pos s8, if_pos (show σr.state = SCE_NSIS_COMMENT by rw [hst]; exact s8)]
    by_cases d6 : charAt doc σf.pos = '*' ∧ charAt doc (σf.pos + 1) = '/'
    · rw [if_pos d6, if_pos (show charAt doc σr.pos = '*' ∧
        charAt doc (σr.pos + 1) = '/' by rw [hpos]; exact d6)]
      exact Or.inr (Or.inl ⟨_, _, rfl, rfl,
        rel_setState k pre _ _ SCE_NSIS_DEFAULT
          (rel_forward k pre e _ _
            (rel_forward k pre e σf σr h hke (by rw [s8]; decide))
            hke (by rw [(forward_fields e σf).2.2.2.1]; rw [s8]; decide))
          (fun hm => absurd hm (by decide))⟩)
    · rw [if_neg d6, if_neg (show ¬ (charAt doc σr.pos = '*' ∧
        charAt doc (σr.pos + 1) = '/') by rw [hpos]; exact d6)]
      exact Or.inr (Or.inl ⟨_, _, rfl, rfl, h⟩)
  rw [if_neg s8, if_neg (show ¬ σr.state = SCE_NSIS_COMMENT by rw [hst]; exact s8)]
  exact Or.inr (Or.inl ⟨_, _, rfl, rfl, h⟩)

lemma fin_notspace (doc : List Char) (e : Nat) (a : ScanState)
    (hidc : a.state = SCE_NSIS_IDENTIFIER →
      IsIdentifierChar (charAt doc a.pos) = true) :
    (dispatchDefault doc e a).state = SCE_NSIS_IDENTIFIER →
      isspacechar (charAt doc (dispatchDefault doc e a).pos) = false := by
  intro hid
  obtain ⟨hpe, hcase⟩ := dispatchDefault_id_char doc e a hid
  rw [hpe]
  rcases hcase with hc | hc | hc
  · exact identChar_not_space (hidc hc)
  · rw [hc]
    decide
  · exact identStart_not_space hc

lemma rel_scanStep (k : Nat) (pre : List Style) (kw : List (List Char))
    (doc : List Char) (e : Nat) (σf σr : ScanState)
    (h : SplitRel k pre σf σr) (hke : k ≤ e) (hvo : VarOuterOK σf) :
    SplitRel k pre (scanStep kw doc e σf) (scanStep kw doc e σr) := by
  unfold scanStep
  dsimp only
  rcases rel_switchOnce k pre kw doc e σf σr h hke with
    ⟨a, b, haf, hbr, hab⟩ | ⟨a, b, haf, hbr, hab⟩ | ⟨a, b, haf, hbr, hab⟩
  · rw [haf, hbr]
    dsimp only
    exact hab
  · rw [haf, hbr]
    dsimp only
    exact rel_fin k pre e doc _ _ (rel_dispatchDefault k pre e doc a b hab hke) hke
      (fin_notspace doc e a (switchOnce_fall_id kw doc e σf a haf))
  · rw [haf, hbr]
    dsimp only
    have hvoa : VarOuterOK a := by
      have hx := switchOnce_vo kw doc e σf hvo
      rw [haf] at hx
      simp only [SwitchRes.st] at hx
      exact hx
    rcases rel_switchOnce k pre kw doc e a b hab hke with
      ⟨a2, b2, haf2, hbr2, hab2⟩ | ⟨a2, b2, haf2, hbr2, hab2⟩ |
      ⟨a2, b2, haf2, hbr2, hab2⟩
    · rw [haf2, hbr2]
      dsimp only
      exact hab2
    · rw [haf2, hbr2]
      dsimp only
      exact rel_fin k pre e doc _ _ (rel_dispatchDefault k pre e doc a2 b2 hab2 hke) hke
        (fin_notspace doc e a2 (switchOnce_fall_id kw doc e a a2 haf2))
    · rw [haf2, hbr2]
      dsimp only
      obtain ⟨hst2, -⟩ := switchOnce_again_fields kw doc e a a2 haf2
      refine rel_fin k pre e doc _ _ (rel_dispatchDefault k pre e doc a2 b2 hab2 hke) hke
        (fin_notspace doc e a2 ?_)
      intro hid
      rw [hst2] at hid
      rcases hvoa with hvd | hvs
      · rw [hvd] at hid
        exact absurd hid (by decide)
      · rw [hid] at hvs
        exact absurd hvs (by decide)

lemma rel_scanLoop (k : Nat) (pre : List Style) (kw : List (List Char))
    (doc : List Char) (e : Nat) (hke : k ≤ e) :
    ∀ (fuel : Nat) (σf σr : ScanState), SplitRel k pre σf σr → VarOuterOK σf →
      SplitRel k pre (scanLoop kw doc e fuel σf) (scanLoop kw doc e fuel σr) := by
  intro fuel
  induction fuel with
  | zero => exact fun σf σr h _ => h
  | succ n ih =>
    intro σf σr h hvo
    rw [scanLoop_succ kw doc e n σf, scanLoop_succ kw doc e n σr]
    by_cases hp : σf.pos < e
    · rw [if_pos hp, if_pos (show σr.pos < e by rw [h.1]; exact hp)]
      exact ih _ _ (rel_scanStep k pre kw doc e σf σr h hke hvo)
        (scanStep_vo kw doc e σf hvo)
    · rw [if_neg hp, if_neg (show ¬ σr.pos < e by rw [h.1]; exact hp)]
      exact h

lemma initScan_vo (doc : List Char) (s : Nat) (ist : Style) (store : LineStore) :
    VarOuterOK (initScan doc s ist store) := by
  unfold VarOuterOK initScan
  dsimp only
  left
  repeat' split
  all_goals rfl

/-- Flushing both sides of the relation produces the full run's styles from the
first call's styles followed by the resumed run's. -/
lemma rel_flush_styles (k : Nat) (pre : List Style) (σf σr : ScanState)
    (h : SplitRel k pre σf σr) :
    pre ++ (σr.styles ++ List.replicate (σr.pos - σr.segStart) σr.state) =
      σf.styles ++ List.replicate (σf.pos - σf.segStart) σf.state := by
  obtain ⟨hpos, hst, -, -, -, -, hsty, -⟩ := h
  rcases hsty with ⟨hss, hsty2⟩ | ⟨h1, h2, h3, h4, h5, h6⟩
  · rw [hpos, hss, hst, ← List.append_assoc, hsty2]
  · rw [h2, h1, hpos, hst, List.nil_append, h5, List.append_assoc,
      ← List.replicate_add]
    have harith : k - σf.segStart + (σf.pos - k) = σf.pos - σf.segStart := by
      omega
    rw [harith]

/-- Restarting at an interior line start with the landed run's state and store
reconstructs a state related to the landed one: the continuation flag and line
type are read back from the just-written line state, and the `visibleChars := 1`
seed is dominated by the landed count on a continued line. -/
lemma seed_rel (doc : List Char) (k : Nat) (ρ : ScanState) (hk : 1 ≤ k)
    (hL : Landing doc k ρ) (hpk : ρ.pos = k) (hnl : charAt doc (k - 1) = '\n')
    (hjv : ρ.lineContinuation = true → 1 ≤ ρ.visibleChars)
    (hseg : ρ.segStart ≤ k)
    (hnv : ¬ (ρ.state = SCE_NSIS_VARIABLE ∨ ρ.state = SCE_NSIS_VARIABLE_BRACE ∨
      ρ.state = SCE_NSIS_VARIABLE_PAREN)) :
    SplitRel k (ρ.styles ++ List.replicate (k - ρ.segStart) ρ.state) ρ
      (initScan doc k ρ.state ρ.lineStates) := by
  obtain ⟨t, ht8, hnid, hcle, hctype, hcreset, hgls⟩ := hL
  have hk1 : k - 1 < doc.length := by
    by_contra hx
    rw [charAt, List.getD_eq_default _ _ (by omega)] at hnl
    exact absurd hnl (by decide)
  have hlsucc : lineOf doc k = lineOf doc (k - 1) + 1 := by
    have hstep := lineOf_succ doc (k - 1) hk1
    rw [show k - 1 + 1 = k from by omega, hnl] at hstep
    rw [hstep, if_pos rfl]
  have hidx : lineOf doc k - 1 = lineOf doc (k - 1) := by omega
  unfold initScan
  dsimp only
  rw [if_pos (show lineOf doc k > 0 from by omega), hidx, hgls]
  cases hcont : ρ.lineContinuation with
  | true =>
    rw [if_pos rfl]
    simp only [NsisLineStateLineContinuation, NsisLineTypeMask]
    rw [if_pos (show (16 ||| t) &&& 16 ≠ 0 from (lineword_bits ht8).1)]
    refine ⟨hpk.symm, rfl, hcont.symm, ?_, rfl, ?_, ?_, fun hm => absurd hm hnv⟩
    · show (16 ||| t) &&& 7 = ρ.lineStateLineType
      rw [(lineword_bits ht8).2.1, hctype hcont]
    · refine Or.inr ⟨Nat.le_refl 1, ?_, fun hid => absurd hid hnid⟩
      show 1 ≤ ρ.visibleChars
      exact hjv hcont
    · exact Or.inr ⟨rfl, rfl, hseg, by omega, rfl, hnid⟩
  | false =>
    rw [if_neg Bool.false_ne_true]
    simp only [NsisLineStateLineContinuation]
    rw [(lineword_bits ht8).2.2.2.2]
    rw [if_neg (show ¬ t &&& 16 ≠ 0 from fun hx => hx (lineword_bits ht8).2.2.1)]
    obtain ⟨hv0, ht0⟩ := hcreset hcont
    refine ⟨hpk.symm, rfl, hcont.symm, ht0.symm, rfl, Or.inl hv0.symm, ?_,
      fun hm => absurd hm hnv⟩
    exact Or.inr ⟨rfl, rfl, hseg, by omega, rfl, hnid⟩

/-- C1, counterexample.  Splitting the scan of `a b` at byte 2 — the middle of
a line — does not reproduce the one-call classifications: the one-call scan
emits byte 2 as `Identifier` (the span `b` is not first on its visually
occupied line since `a` was already seen), while the second call of the split
scan restarts the visible-character count at the split and classifies `b` as
first-on-line, emitting `Instruction`. -/
theorem nsis_C1_counterexample :
    (ColouriseNSISDoc [] "a b\n".toList 0 4 SCE_NSIS_DEFAULT []).styles =
      [SCE_NSIS_INSTRUCTION, SCE_NSIS_DEFAULT, SCE_NSIS_IDENTIFIER,
        SCE_NSIS_DEFAULT] ∧
    (ColouriseNSISDoc [] "a b\n".toList 0 2 SCE_NSIS_DEFAULT []).styles ++
      (ColouriseNSISDoc [] "a b\n".toList 2 2
        (ColouriseNSISDoc [] "a b\n".toList 0 2 SCE_NSIS_DEFAULT []).finalState
        (ColouriseNSISDoc [] "a b\n".toList 0 2 SCE_NSIS_DEFAULT []).lineStates).styles =
      [SCE_NSIS_INSTRUCTION, SCE_NSIS_DEFAULT, SCE_NSIS_INSTRUCTION,
        SCE_NSIS_DEFAULT] ∧
    SCE_NSIS_IDENTIFIER ≠ SCE_NSIS_INSTRUCTION := by
  decide

/-- C1, amended: scanning a line-start-aligned range in one call produces the
same per-byte classifications, the same line-state store and the same final
state as scanning it as two calls split at an interior line start, the second
call seeded with the first call's final state and line-state store — provided
the first call does not end inside a variable reference (`Variable`,
`VariableBrace`, `VariableParen`), whose saved outer state the seeding
interface cannot transport. -/
theorem nsis_C1_split_resumability (kw : List (List Char)) (doc : List Char)
    (s k L : Nat) (init : Style) (store : LineStore)
    (hs : atLineStart doc s = true) (hk : atLineStart doc k = true)
    (hsk : s < k) (hkL : k < s + L) (hlen : s + L ≤ doc.length)
    (hfin : ¬ ((ColouriseNSISDoc kw doc s (k - s) init store).finalState =
        SCE_NSIS_VARIABLE ∨
      (ColouriseNSISDoc kw doc s (k - s) init store).finalState =
        SCE_NSIS_VARIABLE_BRACE ∨
      (ColouriseNSISDoc kw doc s (k - s) init store).finalState =
        SCE_NSIS_VARIABLE_PAREN)) :
    (ColouriseNSISDoc kw doc s L init store).styles =
      (ColouriseNSISDoc kw doc s (k - s) init store).styles ++
      (ColouriseNSISDoc kw doc k (s + L - k)
        (ColouriseNSISDoc kw doc s (k - s) init store).finalState
        (ColouriseNSISDoc kw doc s (k - s) init store).lineStates).styles ∧
    (ColouriseNSISDoc kw doc s L init store).lineStates =
      (ColouriseNSISDoc kw doc k (s + L - k)
        (ColouriseNSISDoc kw doc s (k - s) init store).finalState
        (ColouriseNSISDoc kw doc s (k - s) init store).lineStates).lineStates ∧
    (ColouriseNSISDoc kw doc s L init store).finalState =
      (ColouriseNSISDoc kw doc k (s + L - k)
        (ColouriseNSISDoc kw doc s (k - s) init store).finalState
        (ColouriseNSISDoc kw doc s (k - s) init store).lineStates).finalState := by
  have hkd : k ≤ doc.length := by omega
  have hnl : charAt doc (k - 1) = '\n' := by
    simp only [atLineStart, Bool.or_eq_true, decide_eq_true_eq] at hk
    rcases hk with h0 | h0
    · exact absurd h0 (by omega)
    · exact h0
  obtain ⟨f1, f2, f3, f4⟩ := initScan_fields doc s init store
  have htr0 : Tracks s k (initScan doc s init store) := by
    unfold Tracks
    rw [f1, f2, f3]
    refine ⟨Nat.le_refl s, Nat.le_refl s, by omega, by simp⟩
  obtain ⟨htrρ, hρpos⟩ := scanLoop_run kw doc (k - s) (initScan doc s init store)
    htr0 (by rw [f1]; omega)
  have he1 : min (s + (k - s)) doc.length = k := by omega
  have he2 : min (k + (s + L - k)) doc.length = s + L := by omega
  have he : min (s + L) doc.length = s + L := by omega
  have hr1sty : (ColouriseNSISDoc kw doc s (k - s) init store).styles =
      (scanLoop kw doc k (k - s) (initScan doc s init store)).styles ++
      List.replicate
        (k - (scanLoop kw doc k (k - s) (initScan doc s init store)).segStart)
        (scanLoop kw doc k (k - s) (initScan doc s init store)).state := by
    unfold ColouriseNSISDoc
    dsimp only
    rw [he1]
    show (scanLoop kw doc k (k - s) (initScan doc s init store)).styles ++
      List.replicate
        ((scanLoop kw doc k (k - s) (initScan doc s init store)).pos -
          (scanLoop kw doc k (k - s) (initScan doc s init store)).segStart)
        (scanLoop kw doc k (k - s) (initScan doc s init store)).state = _
    rw [hρpos]
  have hr1fin : (ColouriseNSISDoc kw doc s (k - s) init store).finalState =
      (scanLoop kw doc k (k - s) (initScan doc s init store)).state := by
    unfold ColouriseNSISDoc
    dsimp only
    rw [he1]
    rfl
  have hr1ls : (ColouriseNSISDoc kw doc s (k - s) init store).lineStates =
      (scanLoop kw doc k (k - s) (initScan doc s init store)).lineStates := by
    unfold ColouriseNSISDoc
    dsimp only
    rw [he1]
    rfl
  obtain ⟨m, hm1, hm2⟩ := scanLoop_last kw doc k (k - s) (initScan doc s init store)
    (by rw [f1]; omega) hρpos
  have hvo0 := initScan_vo doc s init store
  have hLand : Landing doc k (scanLoop kw doc k (k - s) (initScan doc s init store)) := by
    rw [hm2]
    exact scanStep_landing kw doc k (scanLoop kw doc k m (initScan doc s init store))
      hm1 hnl
      (scanLoop_typelt kw doc k m (initScan doc s init store)
        (initScan_typelt doc s init store))
      (scanLoop_vo kw doc k m (initScan doc s init store) hvo0)
      (by rw [← hm2]; exact hρpos)
  have hjinv := scanLoop_jinv kw doc k hkd (k - s) (initScan doc s init store)
    (initScan_jinv doc s init store k hs)
  have hseg : (scanLoop kw doc k (k - s) (initScan doc s init store)).segStart ≤ k := by
    obtain ⟨-, h2, h3, -⟩ := htrρ
    omega
  have hnvρ : ¬ ((scanLoop kw doc k (k - s) (initScan doc s init store)).state =
      SCE_NSIS_VARIABLE ∨
    (scanLoop kw doc k (k - s) (initScan doc s init store)).state =
      SCE_NSIS_VARIABLE_BRACE ∨
    (scanLoop kw doc k (k - s) (initScan doc s init store)).state =
      SCE_NSIS_VARIABLE_PAREN) := by
    rw [hr1fin] at hfin
    exact hfin
  have hseed := seed_rel doc k (scanLoop kw doc k (k - s) (initScan doc s init store))
    (by omega) hLand hρpos hnl hjinv.1 hseg hnvρ
  have hvoρ := scanLoop_vo kw doc k (k - s) (initScan doc s init store) hvo0
  have hrel := rel_scanLoop k
    ((scanLoop kw doc k (k - s) (initScan doc s init store)).styles ++
      List.replicate
        (k - (scanLoop kw doc k (k - s) (initScan doc s init store)).segStart)
        (scanLoop kw doc k (k - s) (initScan doc s init store)).state)
    kw doc (s + L) (by omega) (s + L - k)
    (scanLoop kw doc k (k - s) (initScan doc s init store))
    (initScan doc k (scanLoop kw doc k (k - s) (initScan doc s init store)).state
      (scanLoop kw doc k (k - s) (initScan doc s init store)).lineStates)
    hseed hvoρ
  have hres := scanLoop_resume kw doc s k (s + L) (by omega) hnl (k - s) (s + L - k)
    (initScan doc s init store) htr0 (by rw [f1]; omega) (by omega)
  have hrfsty : (ColouriseNSISDoc kw doc s L init store).styles =
      (scanLoop kw doc (s + L) (s + L - k)
        (scanLoop kw doc k (k - s) (initScan doc s init store))).styles ++
      List.replicate
        ((scanLoop kw doc (s + L) (s + L - k)
          (scanLoop kw doc k (k - s) (initScan doc s init store))).pos -
         (scanLoop kw doc (s + L) (s + L - k)
          (scanLoop kw doc k (k - s) (initScan doc s init store))).segStart)
        (scanLoop kw doc (s + L) (s + L - k)
          (scanLoop kw doc k (k - s) (initScan doc s init store))).state := by
    unfold ColouriseNSISDoc
    dsimp only
    rw [he, show s + L - s = (k - s) + (s + L - k) from by omega, hres]
    rfl
  have hrfls : (ColouriseNSISDoc kw doc s L init store).lineStates =
      (scanLoop kw doc (s + L) (s + L - k)
        (scanLoop kw doc k (k - s) (initScan doc s init store))).lineStates := by
    unfold ColouriseNSISDoc
    dsimp only
    rw [he, show s + L - s = (k - s) + (s + L - k) from by omega, hres]
    rfl
  have hrffin : (ColouriseNSISDoc kw doc s L init store).finalState =
      (scanLoop kw doc (s + L) (s + L - k)
        (scanLoop kw doc k (k - s) (initScan doc s init store))).state := by
    unfold ColouriseNSISDoc
    dsimp only
    rw [he, show s + L - s = (k - s) + (s + L - k) from by omega, hres]
    rfl
  have hr2sty : (ColouriseNSISDoc kw doc k (s + L - k)
      (ColouriseNSISDoc kw doc s (k - s) init store).finalState
      (ColouriseNSISDoc kw doc s (k - s) init store).lineStates).styles =
      (scanLoop kw doc (s + L) (s + L - k)
        (initScan doc k (scanLoop kw doc k (k - s) (initScan doc s init store)).state
          (scanLoop kw doc k (k - s) (initScan doc s init store)).lineStates)).styles ++
      List.replicate
        ((scanLoop kw doc (s + L) (s + L - k)
          (initScan doc k (scanLoop kw doc k (k - s) (initScan doc s init store)).state
            (scanLoop kw doc k (k - s) (initScan doc s init store)).lineStates)).pos -
         (scanLoop kw doc (s + L) (s + L - k)
          (initScan doc k (scanLoop kw doc k (k - s) (initScan doc s init store)).state
            (scanLoop kw doc k (k - s) (initScan doc s init store)).lineStates)).segStart)
        (scanLoop kw doc (s + L) (s + L - k)
          (initScan doc k (scanLoop kw doc k (k - s) (initScan doc s init store)).state
            (scanLoop kw doc k (k - s) (initScan doc s init store)).lineStates)).state := by
    rw [hr1fin, hr1ls]
    unfold ColouriseNSISDoc
    dsimp only
    rw [he2]
    rfl
  have hr2ls : (ColouriseNSISDoc kw doc k (s + L - k)
      (ColouriseNSISDoc kw doc s (k - s) init store).finalState
      (ColouriseNSISDoc kw doc s (k - s) init store).lineStates).lineStates =
      (scanLoop kw doc (s + L) (s + L - k)
        (initScan doc k (scanLoop kw doc k (k - s) (initScan doc s init store)).state
          (scanLoop kw doc k (k - s) (initScan doc s init store)).lineStates)).lineStates := by
    rw [hr1fin, hr1ls]
    unfold ColouriseNSISDoc
    dsimp only
    rw [he2]
    rfl
  have hr2fin : (ColouriseNSISDoc kw doc k (s + L - k)
      (ColouriseNSISDoc kw doc s (k - s) init store).finalState
      (ColouriseNSISDoc kw doc s (k - s) init store).lineStates).finalState =
      (scanLoop kw doc (s + L) (s + L - k)
        (initScan doc k (scanLoop kw doc k (k - s) (initScan doc s init store)).state
          (scanLoop kw doc k (k - s) (initScan doc s init store)).lineStates)).state := by
    rw [hr1fin, hr1ls]
    unfold ColouriseNSISDoc
    dsimp only
    rw [he2]
    rfl
  refine ⟨?_, ?_, ?_⟩
  · rw [hrfsty, hr1sty, hr2sty]
    exact (rel_flush_styles k _ _ _ hrel).symm
  · rw [hrfls, hr2ls]
    exact hrel.2.2.2.2.1.symm
  · rw [hrffin, hr2fin]
    exact hrel.2.1.symm

/-- Witness for C1 (amended): scanning `ab\ncd\n` in one call over `[0, 6)`
equals the two-call split at the line start 3, seeded with the first call's
final state and line states. -/
theorem nsis_C1_split_resumability_witness :
    (ColouriseNSISDoc [] "ab\ncd\n".toList 0 6 SCE_NSIS_DEFAULT []).styles =
      (ColouriseNSISDoc [] "ab\ncd\n".toList 0 (3 - 0) SCE_NSIS_DEFAULT []).styles ++
      (ColouriseNSISDoc [] "ab\ncd\n".toList 3 (0 + 6 - 3)
        (ColouriseNSISDoc [] "ab\ncd\n".toList 0 (3 - 0) SCE_NSIS_DEFAULT []).finalState
        (ColouriseNSISDoc [] "ab\ncd\n".toList 0 (3 - 0) SCE_NSIS_DEFAULT []).lineStates).styles ∧
    (ColouriseNSISDoc [] "ab\ncd\n".toList 0 6 SCE_NSIS_DEFAULT []).lineStates =
      (ColouriseNSISDoc [] "ab\ncd\n".toList 3 (0 + 6 - 3)
        (ColouriseNSISDoc [] "ab\ncd\n".toList 0 (3 - 0) SCE_NSIS_DEFAULT []).finalState
        (ColouriseNSISDoc [] "ab\ncd\n".toList 0 (3 - 0) SCE_NSIS_DEFAULT []).lineStates).lineStates ∧
    (ColouriseNSISDoc [] "ab\ncd\n".toList 0 6 SCE_NSIS_DEFAULT []).finalState =
      (ColouriseNSISDoc [] "ab\ncd\n".toList 3 (0 + 6 - 3)
        (ColouriseNSISDoc [] "ab\ncd\n".toList 0 (3 - 0) SCE_NSIS_DEFAULT []).finalState
        (ColouriseNSISDoc [] "ab\ncd\n".toList 0 (3 - 0) SCE_NSIS_DEFAULT []).lineStates).finalState :=
  nsis_C1_split_resumability [] "ab\ncd\n".toList 0 3 6 SCE_NSIS_DEFAULT []
    (by decide) (by decide) (by decide) (by decide) (by decide) (by decide)

end NSIS
